import Mathlib

/-!
# Messagerie: encrypted relay chat

A shallow embedding of the encrypted messaging core of the repository:

* `src/crypto.js`            : `CryptoManager` (key lifecycle, encrypt / decrypt, wire framing),
* `src/server.js`            : the relay (`ws.on('message')`, `broadcast`),
* `src/project/websocket.js` : `WebSocketManager` (outbound queue, open handler).

JavaScript strings are sequences of UTF-16 code units, typed arrays are lists of
numbers below 256, Numbers are IEEE 754 doubles held by their value, and an
operation that can throw returns `Option` / `Except`. The platform functions the
source calls (`btoa`, `atob`, `TextEncoder`, `TextDecoder`, `JSON.parse`,
`JSON.stringify`) are embedded after the algorithms that define them; the
AES-GCM provider, the random source and the number of arguments the engine
accepts in one call are parameters.
-/

namespace Messagerie

/-! ## Platform: strings, typed arrays, base64 -/

/-- A JavaScript string, as its sequence of UTF-16 code units. -/
abbrev JSString := List Nat

/-- The contents of a `Uint8Array`. -/
abbrev Bytes := List Nat

/-- Every element is a byte value. -/
def IsBytes (xs : List Nat) : Prop := ∀ b ∈ xs, b < 256

instance (xs : List Nat) : Decidable (IsBytes xs) := by
  unfold IsBytes; infer_instance

/-- The base64 alphabet: the code unit of the character that stands for sextet `i`. -/
def b64Char (i : Nat) : Nat :=
  if i < 26 then 65 + i
  else if i < 52 then 97 + (i - 26)
  else if i < 62 then 48 + (i - 52)
  else if i = 62 then 43
  else 47

/-- The sextet a base64 character stands for; `none` outside the alphabet. -/
def b64Value (c : Nat) : Option Nat :=
  if 65 ≤ c ∧ c ≤ 90 then some (c - 65)
  else if 97 ≤ c ∧ c ≤ 122 then some (c - 97 + 26)
  else if 48 ≤ c ∧ c ≤ 57 then some (c - 48 + 52)
  else if c = 43 then some 62
  else if c = 47 then some 63
  else none

/-- Standard base64 with `=` padding (RFC 4648 section 4) of a byte sequence. -/
def base64Encode : List Nat → List Nat
  | a :: b :: c :: rest =>
      b64Char (a / 4) :: b64Char (a % 4 * 16 + b / 16) ::
        b64Char (b % 16 * 4 + c / 64) :: b64Char (c % 64) :: base64Encode rest
  | [a, b] => [b64Char (a / 4), b64Char (a % 4 * 16 + b / 16), b64Char (b % 16 * 4), 61]
  | [a] => [b64Char (a / 4), b64Char (a % 4 * 16), 61, 61]
  | [] => []

/-- The global `btoa`: throws (`none`) when a code unit exceeds U+00FF, and is
otherwise the base64 encoding of the code units read as bytes. -/
def btoa (s : JSString) : Option JSString :=
  if s.all (fun c => decide (c ≤ 255)) then some (base64Encode s) else none

/-- ASCII whitespace: TAB, LF, FF, CR and SPACE. -/
def isAsciiWhitespace (c : Nat) : Bool :=
  c == 9 || c == 10 || c == 12 || c == 13 || c == 32

/-- Forgiving-base64 decode, step 2: when the length is a multiple of four, one
or two trailing `=` are removed. -/
def stripPadding (s : List Nat) : List Nat :=
  if s.length % 4 = 0 then
    if s.getLast? = some 61 then
      let s1 := s.dropLast
      if s1.getLast? = some 61 then s1.dropLast else s1
    else s
  else s

/-- The sextets of a string of alphabet characters; `none` when a character is
outside the alphabet. -/
def sextets : List Nat → Option (List Nat)
  | [] => some []
  | c :: cs =>
    match b64Value c, sextets cs with
    | some v, some vs => some (v :: vs)
    | _, _ => none

/-- Forgiving-base64 decode, the buffer loop: four sextets give three bytes, a
final group of three gives two bytes and a final group of two gives one. -/
def decodeSextets : List Nat → List Nat
  | a :: b :: c :: d :: rest =>
      (a * 4 + b / 16) :: (b % 16 * 16 + c / 4) :: (c % 4 * 64 + d) :: decodeSextets rest
  | [a, b, c] => [a * 4 + b / 16, b % 16 * 16 + c / 4]
  | [a, b] => [a * 4 + b / 16]
  | [_] => []
  | [] => []

/-- The global `atob` (forgiving-base64 decode): throws (`none`) on a character
outside the alphabet or on a length that leaves remainder one. -/
def atob (s : JSString) : Option JSString :=
  let data := stripPadding (s.filter (fun c => !isAsciiWhitespace c))
  if data.length % 4 = 1 then none
  else (sextets data).map decodeSextets

/-- `String.fromCharCode(...units)`: each argument is taken modulo 2^16. The
spread passes every element as an argument of one call; an engine accepts at
most `maxArguments` of them and throws a `RangeError` (`none`) beyond. -/
def fromCharCode (maxArguments : Nat) (units : List Nat) : Option JSString :=
  if units.length ≤ maxArguments then some (units.map (fun u => u % 65536)) else none

/-- `new Uint8Array(values)`: each value is taken modulo 2^8. -/
def newUint8Array (values : List Nat) : Bytes := values.map (fun v => v % 256)

/-- `new Uint8Array(n)`: `n` zero bytes. -/
def allocUint8Array (n : Nat) : Bytes := List.replicate n 0

/-- `target.set(src, offset)`: overwrites `src.length` elements from `offset`;
throws (`none`) when the source does not fit. -/
def typedArraySet (target src : Bytes) (offset : Nat) : Option Bytes :=
  if offset + src.length ≤ target.length then
    some (target.take offset ++ src ++ target.drop (offset + src.length))
  else none

/-- The unpadded sextets of a byte sequence (the data characters of its base64
encoding, before the alphabet is applied). -/
def sextetsOf : List Nat → List Nat
  | a :: b :: c :: rest =>
      (a / 4) :: (a % 4 * 16 + b / 16) :: (b % 16 * 4 + c / 64) :: (c % 64) :: sextetsOf rest
  | [a, b] => [a / 4, a % 4 * 16 + b / 16, b % 16 * 4]
  | [a] => [a / 4, a % 4 * 16]
  | [] => []

/-- The `=` padding that completes the last group of a base64 encoding. -/
def padOf : List Nat → List Nat
  | _ :: _ :: _ :: rest => padOf rest
  | [_, _] => [61]
  | [_] => [61, 61]
  | [] => []

/-! ## RFC 4648, in the words of the standard -/

/-- The `n` low bits of `x`, most significant first. -/
def bitsMSB : Nat → Nat → List Nat
  | 0, _ => []
  | n + 1, x => (x / 2 ^ n % 2) :: bitsMSB n x

/-- The number a bit string stands for, most significant bit first. -/
def ofBitsMSB (bits : List Nat) : Nat := bits.foldl (fun acc b => 2 * acc + b) 0

/-- RFC 4648 section 4 on a bit stream: every group of six bits is one character
of the alphabet; a shorter final group is completed with zero bits on the right. -/
def rfc4648Chars : List Nat → List Nat
  | b0 :: b1 :: b2 :: b3 :: b4 :: b5 :: rest =>
      b64Char (ofBitsMSB [b0, b1, b2, b3, b4, b5]) :: rfc4648Chars rest
  | [b0, b1, b2, b3, b4] => [b64Char (ofBitsMSB [b0, b1, b2, b3, b4, 0])]
  | [b0, b1, b2, b3] => [b64Char (ofBitsMSB [b0, b1, b2, b3, 0, 0])]
  | [b0, b1, b2] => [b64Char (ofBitsMSB [b0, b1, b2, 0, 0, 0])]
  | [b0, b1] => [b64Char (ofBitsMSB [b0, b1, 0, 0, 0, 0])]
  | [b0] => [b64Char (ofBitsMSB [b0, 0, 0, 0, 0, 0])]
  | [] => []

/-- RFC 4648 section 4: the bytes are read as one bit stream, eight bits each,
the stream is encoded six bits at a time, and `=` characters complete the
output to a multiple of four characters. -/
def rfc4648Encode (bytes : List Nat) : List Nat :=
  let chars := rfc4648Chars (bytes.flatMap (bitsMSB 8))
  chars ++ List.replicate ((4 - chars.length % 4) % 4) 61

/-! ## Platform: `TextEncoder` and `TextDecoder` (UTF-8) -/

/-- A leading (high) surrogate code unit. -/
def isHighSurrogate (u : Nat) : Bool := decide (0xD800 ≤ u ∧ u ≤ 0xDBFF)

/-- A trailing (low) surrogate code unit. -/
def isLowSurrogate (u : Nat) : Bool := decide (0xDC00 ≤ u ∧ u ≤ 0xDFFF)

/-- Conversion of a JavaScript string to scalar values (`USVString`): a
surrogate pair is combined and a lone surrogate becomes U+FFFD. -/
def toScalars : List Nat → List Nat
  | [] => []
  | [u] => if isHighSurrogate u || isLowSurrogate u then [0xFFFD] else [u]
  | u :: v :: rest =>
    if isHighSurrogate u then
      if isLowSurrogate v then
        (0x10000 + (u - 0xD800) * 0x400 + (v - 0xDC00)) :: toScalars rest
      else 0xFFFD :: toScalars (v :: rest)
    else if isLowSurrogate u then 0xFFFD :: toScalars (v :: rest)
    else u :: toScalars (v :: rest)

/-- `String.prototype.isWellFormed()`: the string has no lone surrogate. -/
def isWellFormed : List Nat → Bool
  | [] => true
  | [u] => !(isHighSurrogate u || isLowSurrogate u)
  | u :: v :: rest =>
    if isHighSurrogate u then isLowSurrogate v && isWellFormed rest
    else !isLowSurrogate u && isWellFormed (v :: rest)

/-- The UTF-8 bytes of one scalar value. -/
def utf8EncodeScalar (c : Nat) : List Nat :=
  if c < 0x80 then [c]
  else if c < 0x800 then [0xC0 + c / 64, 0x80 + c % 64]
  else if c < 0x10000 then [0xE0 + c / 4096, 0x80 + c / 64 % 64, 0x80 + c % 64]
  else [0xF0 + c / 262144, 0x80 + c / 4096 % 64, 0x80 + c / 64 % 64, 0x80 + c % 64]

/-- `new TextEncoder().encode(s)`. -/
def textEncode (s : JSString) : Bytes := (toScalars s).flatMap utf8EncodeScalar

/-- The state of the WHATWG UTF-8 decoder. -/
structure Utf8State where
  codePoint : Nat
  bytesSeen : Nat
  bytesNeeded : Nat
  lower : Nat
  upper : Nat
  deriving DecidableEq, Repr

/-- The decoder's initial state. -/
def Utf8State.init : Utf8State :=
  { codePoint := 0, bytesSeen := 0, bytesNeeded := 0, lower := 0x80, upper := 0xBF }

/-- The decoder's handler for a byte read when no continuation byte is needed:
the new state and the code points emitted. -/
def utf8Start (b : Nat) : Utf8State × List Nat :=
  if b ≤ 0x7F then (Utf8State.init, [b])
  else if 0xC2 ≤ b ∧ b ≤ 0xDF then
    ({ Utf8State.init with bytesNeeded := 1, codePoint := b % 32 }, [])
  else if 0xE0 ≤ b ∧ b ≤ 0xEF then
    ({ Utf8State.init with
        bytesNeeded := 2, codePoint := b % 16,
        lower := if b = 0xE0 then 0xA0 else 0x80,
        upper := if b = 0xED then 0x9F else 0xBF }, [])
  else if 0xF0 ≤ b ∧ b ≤ 0xF4 then
    ({ Utf8State.init with
        bytesNeeded := 3, codePoint := b % 8,
        lower := if b = 0xF0 then 0x90 else 0x80,
        upper := if b = 0xF4 then 0x8F else 0xBF }, [])
  else (Utf8State.init, [0xFFFD])

/-- The decoder's handler for one byte. A byte outside the expected range ends
the pending sequence with U+FFFD and is then read again from the initial state. -/
def utf8Step (st : Utf8State) (b : Nat) : Utf8State × List Nat :=
  if st.bytesNeeded = 0 then utf8Start b
  else if b < st.lower ∨ st.upper < b then
    ((utf8Start b).1, 0xFFFD :: (utf8Start b).2)
  else
    let cp := st.codePoint * 64 + b % 64
    if st.bytesSeen + 1 ≠ st.bytesNeeded then
      ({ st with lower := 0x80, upper := 0xBF, codePoint := cp, bytesSeen := st.bytesSeen + 1 }, [])
    else (Utf8State.init, [cp])

/-- The decoder run over a byte stream; a sequence cut short by the end of the
stream gives U+FFFD. -/
def utf8DecodeFrom (st : Utf8State) : List Nat → List Nat
  | [] => if st.bytesNeeded ≠ 0 then [0xFFFD] else []
  | b :: bs => (utf8Step st b).2 ++ utf8DecodeFrom (utf8Step st b).1 bs

/-- The UTF-16 code units of one code point. -/
def utf16Units (c : Nat) : List Nat :=
  if c < 0x10000 then [c]
  else [0xD800 + (c - 0x10000) / 0x400, 0xDC00 + (c - 0x10000) % 0x400]

/-- The decoder's output with a leading byte order mark removed (`ignoreBOM` is
false by default). -/
def dropBOM : List Nat → List Nat
  | c :: rest => if c = 0xFEFF then rest else c :: rest
  | [] => []

/-- `new TextDecoder().decode(bytes)`: UTF-8, not fatal, byte order mark removed. -/
def textDecode (bytes : Bytes) : JSString :=
  (dropBOM (utf8DecodeFrom Utf8State.init bytes)).flatMap utf16Units

/-- A string literal of the source as a JavaScript string. -/
def jsLit (s : String) : JSString := (s.toList.map Char.toNat).flatMap utf16Units

/-! ## `src/crypto.js`: wire framing -/

/-- The object `{ encrypted, iv }` returned by `encrypt` and `deserializeEncrypted`. -/
structure Envelope where
  encrypted : Bytes
  iv : Bytes
  deriving DecidableEq, Repr

/-- `CryptoManager.serializeEncrypted(encrypted, iv)` on an engine that accepts
`maxArguments` arguments in one call; `none`: it throws. -/
def serializeEncrypted (maxArguments : Nat) (encrypted iv : Bytes) : Option JSString := do
  let combined := allocUint8Array (iv.length + encrypted.length)
  let combined ← typedArraySet combined iv 0
  let combined ← typedArraySet combined encrypted iv.length
  btoa (← fromCharCode maxArguments combined)

/-- `CryptoManager.deserializeEncrypted(serialized)`. -/
def deserializeEncrypted (serialized : JSString) : Option Envelope := do
  let combined := newUint8Array (← atob serialized)
  let iv := combined.take 12
  let encrypted := combined.drop 12
  pure { encrypted := encrypted, iv := iv }

/-! ## `src/crypto.js`: `CryptoManager` -/

/-- The AES-GCM operations of `crypto.subtle` for keys of type `Key`. A rejected
promise is `Except.error` with the exception's name. -/
structure Provider (Key : Type) where
  encrypt : Key → Bytes → Bytes → Except String Bytes
  decrypt : Key → Bytes → Bytes → Except String Bytes

/-- The platform as the crypto manager sees it: how many bytes have been drawn
from the random source, and the `crypto.subtle` calls made so far. -/
structure Platform where
  drawn : Nat
  subtleCalls : List String
  deriving DecidableEq, Repr

/-- `crypto.getRandomValues(new Uint8Array(n))` over the random byte stream
`rnd`: the next `n` bytes, and the platform after the draw. -/
def getRandomValues (rnd : Nat → Nat) (n : Nat) (w : Platform) : Bytes × Platform :=
  ((List.range n).map (fun i => rnd (w.drawn + i) % 256), { w with drawn := w.drawn + n })

/-- The fields of a `CryptoManager`. -/
structure CryptoManager (Key : Type) where
  key : Option Key
  keyGenerated : Bool

/-- The `constructor()` of `CryptoManager`. -/
def CryptoManager.new {Key : Type} : CryptoManager Key :=
  { key := none, keyGenerated := false }

/-- What `encrypt` and `decrypt` throw. -/
inductive CryptoError where
  /-- The `new Error('Clé de chiffrement non générée')` of the guard. -/
  | keyNotGenerated
  /-- An exception of the platform, thrown again by the `catch` block. -/
  | platform (name : String)
  deriving DecidableEq, Repr

/-- The argument of `encrypt`: a string or an `ArrayBuffer`. -/
inductive Plain where
  | text (s : JSString)
  | buffer (b : Bytes)
  deriving DecidableEq, Repr

/-- `CryptoManager.generateKey()`, where `outcome` is what
`crypto.subtle.generateKey` settles to (`none`: it throws). Returns the
boolean the method resolves to. -/
def CryptoManager.generateKey {Key : Type} (m : CryptoManager Key) (outcome : Option Key) :
    Bool × CryptoManager Key :=
  match outcome with
  | some k => (true, { m with key := some k, keyGenerated := true })
  | none => (false, m)

/-- `CryptoManager.cleanup()`. -/
def CryptoManager.cleanup {Key : Type} (_m : CryptoManager Key) : CryptoManager Key :=
  { key := none, keyGenerated := false }

/-- A call of `crypto.subtle.encrypt` / `decrypt` with `this.key`: a `null` key
is a `TypeError`. The call is recorded on the platform. -/
def subtleCall {Key : Type} (name : String) (op : Key → Bytes → Bytes → Except String Bytes)
    (key : Option Key) (iv data : Bytes) (w : Platform) : Except String Bytes × Platform :=
  (match key with
    | some k => op k iv data
    | none => Except.error "TypeError",
   { w with subtleCalls := w.subtleCalls ++ [name] })

/-- The `dataBuffer` of `encrypt`: a string is encoded as UTF-8, an
`ArrayBuffer` is taken as it is. -/
def Plain.dataBuffer : Plain → Bytes
  | Plain.text s => textEncode s
  | Plain.buffer b => b

/-- `CryptoManager.encrypt(data)`. The `Uint8Array` built over the provider's
`ArrayBuffer` is a view of the same bytes. -/
def CryptoManager.encrypt {Key : Type} (P : Provider Key) (rnd : Nat → Nat)
    (m : CryptoManager Key) (data : Plain) (w : Platform) :
    Except CryptoError Envelope × Platform :=
  if !m.keyGenerated then (Except.error CryptoError.keyNotGenerated, w)
  else
    let dataBuffer := data.dataBuffer
    let drawn := getRandomValues rnd 12 w
    let iv := drawn.1
    let called := subtleCall "encrypt" P.encrypt m.key iv dataBuffer drawn.2
    match called.1 with
    | Except.ok encryptedData => (Except.ok { encrypted := encryptedData, iv := iv }, called.2)
    | Except.error e => (Except.error (CryptoError.platform e), called.2)

/-- The placeholder `'[Message non déchiffrable]'`. -/
def undecryptable : JSString := jsLit "[Message non déchiffrable]"

/-- `CryptoManager.decrypt(encryptedData, iv)`. -/
def CryptoManager.decrypt {Key : Type} (P : Provider Key)
    (m : CryptoManager Key) (encryptedData iv : Bytes) (w : Platform) :
    Except CryptoError JSString × Platform :=
  if !m.keyGenerated then (Except.error CryptoError.keyNotGenerated, w)
  else
    let called := subtleCall "decrypt" P.decrypt m.key iv encryptedData w
    match called.1 with
    | Except.ok decryptedData => (Except.ok (textDecode decryptedData), called.2)
    | Except.error _ => (Except.ok undecryptable, called.2)

/-- The calls that change the key state of a `CryptoManager`. -/
inductive KeyOp (Key : Type) where
  /-- A `generateKey()` call and what the provider settled to. -/
  | generateKey (outcome : Option Key)
  /-- A `cleanup()` call. -/
  | cleanup

/-- One key operation applied to a manager. -/
def CryptoManager.apply {Key : Type} (m : CryptoManager Key) : KeyOp Key → CryptoManager Key
  | KeyOp.generateKey outcome => (m.generateKey outcome).2
  | KeyOp.cleanup => m.cleanup

/-- A sequence of key operations applied in order. -/
def CryptoManager.run {Key : Type} (m : CryptoManager Key) (ops : List (KeyOp Key)) :
    CryptoManager Key :=
  ops.foldl CryptoManager.apply m

/-- Whether the call is a `cleanup()`. -/
def KeyOp.isCleanup {Key : Type} : KeyOp Key → Bool
  | KeyOp.cleanup => true
  | KeyOp.generateKey _ => false

/-- Whether the call is a `generateKey()` that succeeded. -/
def KeyOp.isSuccess {Key : Type} : KeyOp Key → Bool
  | KeyOp.generateKey (some _) => true
  | _ => false

/-- Whether a `generateKey` has succeeded since construction or since the most
recent `cleanup`, read off the call sequence (in call order): among the calls
after the last `cleanup`, one is a successful `generateKey`. -/
def keySinceReset {Key : Type} (ops : List (KeyOp Key)) : Bool :=
  (ops.reverse.takeWhile (fun o => !o.isCleanup)).any KeyOp.isSuccess

/-- A toy provider whose ciphertext is the plaintext followed by a one-byte tag
that depends on the key and the nonce; decryption checks the tag. -/
def toyProvider : Provider Nat where
  encrypt := fun k iv d => Except.ok (d ++ [(k + iv.sum) % 256])
  decrypt := fun k iv c =>
    if c.getLast? = some ((k + iv.sum) % 256) then Except.ok c.dropLast
    else Except.error "OperationError"

/-! ## Platform: Numbers -/

/-- A Number value: an IEEE 754 binary64. A finite one is held by its value, a
rational `m * 2 ^ s`; `-0` is held as `0`, from which no operation of this
program tells it apart. -/
inductive JSNumber where
  | finite (value : ℚ)
  | posInfinity
  | negInfinity
  | nan
  deriving DecidableEq, Repr

/-- The number of binary digits of `n`, in at most `fuel` steps. -/
def bitLengthFrom : Nat → Nat → Nat
  | 0, _ => 0
  | fuel + 1, n => if n = 0 then 0 else bitLengthFrom fuel (n / 2) + 1

/-- The number of binary digits of `n`. -/
def bitLength (n : Nat) : Nat := bitLengthFrom n n

/-- Whether `2 ^ e ≤ n / d`. -/
def pow2Le (e : Int) (n d : Nat) : Bool :=
  if 0 ≤ e then decide (d <<< e.toNat ≤ n) else decide (d ≤ n <<< (-e).toNat)

/-- The integer `e` with `2 ^ e ≤ n / d < 2 ^ (e + 1)`, for positive `n` and `d`. -/
def floorLog2 (n d : Nat) : Int :=
  let guess : Int := (bitLength n : Int) - (bitLength d : Int)
  if pow2Le guess n d then guess else guess - 1

/-- The integer nearest to `n / d`, the even one of two that are equally near. -/
def roundHalfEven (n d : Nat) : Nat :=
  let f := n / d
  let r := n % d
  if 2 * r < d then f
  else if d < 2 * r then f + 1
  else if f % 2 = 0 then f else f + 1

/-- The double nearest to `n / d` (round to nearest, ties to even), for positive
`n` and `d`, as the pair `(m, s)` of its value `m * 2 ^ s`: `m` has 53 binary
digits, fewer when `s = -1074` (a subnormal); `none` when the rounded value is
`2 ^ 1024` or more (an overflow). -/
def nearestDouble (n d : Nat) : Option (Nat × Int) :=
  let e := max (floorLog2 n d) (-1022)
  let s := e - 52
  let m := if 0 ≤ s then roundHalfEven n (d <<< s.toNat) else roundHalfEven (n <<< (-s).toNat) d
  let carried : Nat × Int := if m = 2 ^ 53 then (2 ^ 52, s + 1) else (m, s)
  if 971 < carried.2 then none else some carried

/-- The rational `m * 2 ^ s`. -/
def dyadic (m : Nat) (s : Int) : ℚ :=
  if 0 ≤ s then ((m <<< s.toNat : Nat) : ℚ) else mkRat m (1 <<< (-s).toNat)

/-- The Number for a mathematical value: the nearest double, an infinity beyond
the largest one. This is how `JSON.parse` reads a number. -/
def roundToNumber (q : ℚ) : JSNumber :=
  if q.num = 0 then JSNumber.finite 0
  else
    match nearestDouble q.num.natAbs q.den with
    | none => if q.num < 0 then JSNumber.negInfinity else JSNumber.posInfinity
    | some (m, s) => JSNumber.finite (if q.num < 0 then -dyadic m s else dyadic m s)

/-- An integer that the program holds (a time, a size, a count) as a Number:
the integer itself up to 2 ^ 53, the nearest double beyond. -/
instance : NatCast JSNumber := ⟨fun n => roundToNumber (n : ℚ)⟩

instance (n : Nat) : OfNat JSNumber n := ⟨roundToNumber (n : ℚ)⟩

/-- Whether `10 ^ p ≤ n / d`. -/
def pow10Le (p : Int) (n d : Nat) : Bool :=
  if 0 ≤ p then decide (d * 10 ^ p.toNat ≤ n) else decide (d ≤ n * 10 ^ (-p).toNat)

/-- The search of `floorLog10` downwards from `p`. -/
def floorLog10From (n d : Nat) : Nat → Int → Int
  | 0, p => p
  | fuel + 1, p => if pow10Le p n d then p else floorLog10From n d fuel (p - 1)

/-- The integer `p` with `10 ^ p ≤ n / d < 10 ^ (p + 1)`, for positive `n` and
`d`: searched downwards from a bound that the binary logarithm gives. -/
def floorLog10 (n d : Nat) : Int :=
  let l := floorLog2 n d + 1
  let start : Int :=
    if 0 ≤ l then ((l.toNat * 30103 / 100000 + 1 : Nat) : Int)
    else -(((-l).toNat * 30102 / 100000 : Nat) : Int)
  floorLog10From n d 6 start

/-- The digits of `Number::toString` for the positive double `n / d` with
`10 ^ top ≤ n / d < 10 ^ (top + 1)`: the decimal with the fewest significant
digits, `k` or more, that is read back as the same double; of two such
decimals with the same number of digits the nearer one, the even one when they
are equally near. With `k` digits the candidates are the two multiples of
`10 ^ (top + 1 - k)` around `n / d`. -/
def shortestFrom (n d : Nat) (top : Int) : Nat → Nat → ℚ
  | 0, _ => mkRat n d
  | fuel + 1, k =>
    let p := top + 1 - k
    let g := if 0 ≤ p then 10 ^ p.toNat else 10 ^ (-p).toNat
    let s := if 0 ≤ p then n / (d * g) else n * g / d
    let okLo :=
      if 0 ≤ p then nearestDouble (s * g) 1 == nearestDouble n d
      else nearestDouble s g == nearestDouble n d
    let okHi :=
      if 0 ≤ p then nearestDouble ((s + 1) * g) 1 == nearestDouble n d
      else nearestDouble (s + 1) g == nearestDouble n d
    let lowerIsNearer :=
      if 0 ≤ p then decide (2 * n < (2 * s + 1) * g * d)
      else decide (2 * n * g < (2 * s + 1) * d)
    let upperIsNearer :=
      if 0 ≤ p then decide ((2 * s + 1) * g * d < 2 * n)
      else decide ((2 * s + 1) * d < 2 * n * g)
    let lo : ℚ := if 0 ≤ p then ((s * g : Nat) : ℚ) else mkRat s g
    let hi : ℚ := if 0 ≤ p then (((s + 1) * g : Nat) : ℚ) else mkRat (s + 1) g
    if okLo && okHi then
      (if lowerIsNearer then lo else if upperIsNearer then hi else if s % 2 = 0 then lo else hi)
    else if okLo then lo
    else if okHi then hi
    else shortestFrom n d top fuel (k + 1)

/-- The value of the text `Number::toString(x)` for a finite double `x`: the
shortest decimal that is read back as `x`; 17 digits always suffice. -/
def numberDigits (x : ℚ) : ℚ :=
  if x.num = 0 then 0
  else if x.num < 0 then -shortestFrom x.num.natAbs x.den (floorLog10 x.num.natAbs x.den) 17 1
  else shortestFrom x.num.natAbs x.den (floorLog10 x.num.natAbs x.den) 17 1

/-- `!!x` for a Number: `0` and `NaN` are falsy. -/
def JSNumber.truthy : JSNumber → Bool
  | JSNumber.finite v => decide (v.num ≠ 0)
  | JSNumber.nan => false
  | _ => true

/-- `a === b` on Numbers: `NaN` is equal to nothing. -/
def JSNumber.strictEquals : JSNumber → JSNumber → Bool
  | JSNumber.finite a, JSNumber.finite b => a == b
  | JSNumber.posInfinity, JSNumber.posInfinity => true
  | JSNumber.negInfinity, JSNumber.negInfinity => true
  | _, _ => false

/-! ## JavaScript values and JSON documents -/

/-- A JSON document: what `JSON.stringify` writes and a peer reads. A number
of a document is the value of its decimal text, a rational. -/
inductive Json where
  | null
  | bool (b : Bool)
  | num (q : ℚ)
  | str (s : String)
  | arr (items : List Json)
  | obj (members : List (String × Json))
  deriving Repr

/-- A JavaScript value built from JSON data. Arrays are objects too: besides
their items they can hold named properties. -/
inductive JsValue where
  | null
  | bool (b : Bool)
  | num (x : JSNumber)
  | str (s : String)
  | arr (items : List JsValue) (props : List (String × JsValue))
  | obj (props : List (String × JsValue))
  deriving Repr

/-- What `JSON.stringify` writes for a Number: the digits of `Number::toString`
for a finite one, `null` for an infinity and for `NaN`. -/
def numberToJson : JSNumber → Json
  | JSNumber.finite v => Json.num (numberDigits v)
  | _ => Json.null

mutual
/-- `JSON.stringify(value)`, as the document written: an array is written as
its items, its named properties are left out. -/
def stringify : JsValue → Json
  | JsValue.null => Json.null
  | JsValue.bool b => Json.bool b
  | JsValue.num x => numberToJson x
  | JsValue.str s => Json.str s
  | JsValue.arr items _ => Json.arr (stringifyItems items)
  | JsValue.obj props => Json.obj (stringifyProps props)
/-- `stringify` over the items of an array. -/
def stringifyItems : List JsValue → List Json
  | [] => []
  | v :: vs => stringify v :: stringifyItems vs
/-- `stringify` over the properties of an object. -/
def stringifyProps : List (String × JsValue) → List (String × Json)
  | [] => []
  | (k, v) :: ps => (k, stringify v) :: stringifyProps ps
end

/-- The member `k` of a JSON document; `none` when the document is not an
object or has no such member. -/
def Json.member (k : String) : Json → Option Json
  | Json.obj ms => ms.lookup k
  | _ => none

/-- `!!value`. -/
def JsValue.truthy : JsValue → Bool
  | JsValue.null => false
  | JsValue.bool b => b
  | JsValue.num x => x.truthy
  | JsValue.str s => decide (s ≠ "")
  | JsValue.arr _ _ => true
  | JsValue.obj _ => true

/-- `typeof value === 'object'`. -/
def JsValue.typeofObject : JsValue → Bool
  | JsValue.null => true
  | JsValue.arr _ _ => true
  | JsValue.obj _ => true
  | _ => false

/-- A property list after `[k] = v`: an existing property keeps its place, a
new one is added last. -/
def setProp : List (String × JsValue) → String → JsValue → List (String × JsValue)
  | [], k, v => [(k, v)]
  | (k', v') :: rest, k, v =>
    if k' = k then (k', v) :: rest else (k', v') :: setProp rest k v

/-- The assignment `target[k] = v` in strict mode: throws (`none`) on `null` and
on primitives. -/
def JsValue.assign (target : JsValue) (k : String) (v : JsValue) : Option JsValue :=
  match target with
  | JsValue.obj props => some (JsValue.obj (setProp props k v))
  | JsValue.arr items props => some (JsValue.arr items (setProp props k v))
  | _ => none

/-- The array index a property name stands for, if it is one: the name is the
decimal text, without leading zeros, of an integer below 2 ^ 32 - 1. -/
def arrayIndex (k : String) : Option Nat :=
  let cs := k.toList.map Char.toNat
  let n := cs.foldl (fun a c => 10 * a + (c - 48)) 0
  if cs ≠ [] ∧ cs.all (fun c => decide (48 ≤ c ∧ c ≤ 57)) = true ∧
      (cs.head? ≠ some 48 ∨ cs.length = 1) ∧ n < 4294967295 then some n
  else none

/-- Whether a new property named `k` is listed before an existing one named
`k1`: the array indices are listed first, in ascending order, and the other
names after them, in the order of their creation. -/
def listedBefore (k k1 : String) : Bool :=
  match arrayIndex k, arrayIndex k1 with
  | some n, some n1 => decide (n < n1)
  | some _, none => true
  | none, _ => false

/-- The own properties of an object, in the order in which `JSON.stringify`
lists them, after `CreateDataProperty(k, v)`: an existing property keeps its
place, a new one is put where its name is listed. -/
def defineProp : List (String × JsValue) → String → JsValue → List (String × JsValue)
  | [], k, v => [(k, v)]
  | (k1, v1) :: rest, k, v =>
    if k1 = k then (k1, v) :: rest
    else if listedBefore k k1 then (k, v) :: (k1, v1) :: rest
    else (k1, v1) :: defineProp rest k v

mutual
/-- `JSON.parse` on the document that a JSON text writes: a number becomes the
nearest double; of two members of an object with the same name the later one
gives the value, at the place of the earlier one; and the members whose names
are array indices are listed first, in ascending order. -/
def parseJson : Json → JsValue
  | Json.null => JsValue.null
  | Json.bool b => JsValue.bool b
  | Json.num q => JsValue.num (roundToNumber q)
  | Json.str s => JsValue.str s
  | Json.arr items => JsValue.arr (parseItems items) []
  | Json.obj members => JsValue.obj (parseMembers [] members)
/-- `parseJson` over the items of an array. -/
def parseItems : List Json → List JsValue
  | [] => []
  | v :: vs => parseJson v :: parseItems vs
/-- `parseJson` over the members of an object, added one after the other to the
properties read so far. -/
def parseMembers : List (String × JsValue) → List (String × Json) → List (String × JsValue)
  | props, [] => props
  | props, (k, v) :: ms => parseMembers (defineProp props k (parseJson v)) ms
end

/-! ## `src/server.js`: the relay -/

/-- A socket of `wss.clients`: the identity of the object and its `readyState`. -/
structure Client where
  handle : Nat
  readyState : Nat
  deriving DecidableEq, Repr

/-- A value of the `connectedUsers` map. -/
structure UserRecord where
  id : String
  connected : Nat
  deriving DecidableEq, Repr

/-- The relay's state: `wss.clients` in insertion order, the `connectedUsers`
map keyed by socket, and `userCounter`. -/
structure Relay where
  clients : List Client
  connectedUsers : List (Nat × UserRecord)
  userCounter : Nat
  deriving DecidableEq, Repr

/-- A `client.send(messageStr)`: the socket written to and the document sent. -/
structure Send where
  target : Nat
  frame : Json

/-- The lines the message handler writes to the console. -/
inductive RelayLog where
  /-- The `console.warn('Message trop volumineux rejeté')` of the size check. -/
  | tooLarge
  /-- The `console.warn('Message invalide rejeté')` of the validation. -/
  | invalid
  /-- The `console.error` of the `catch` block. -/
  | error
  deriving DecidableEq, Repr

/-- What the message handler reads of an inbound frame `data`: `data.length`
and the outcome of `JSON.parse(data.toString())` (`none`: it throws). -/
structure Frame where
  length : Nat
  parsed : Option JsValue

/-- The outcome of one run of a relay handler. -/
structure RelayStep where
  relay : Relay
  sends : List Send
  log : List RelayLog

/-- `broadcast(message, sender)`: the `forEach` over `wss.clients`, collecting
the sends in the order they are made. -/
def broadcast (clients : List Client) (message : JsValue) (sender : Nat) : List Send :=
  let messageStr := stringify message
  clients.foldl
    (fun sent client =>
      if client.handle ≠ sender ∧ client.readyState = 1 then
        sent ++ [{ target := client.handle, frame := messageStr }]
      else sent)
    []

/-- The `ws.on('message', ...)` handler of the socket `ws`, run at time `now`. -/
def onMessage (now : Nat) (r : Relay) (ws : Nat) (data : Frame) : RelayStep :=
  if data.length > 10 * 1024 * 1024 then
    { relay := r, sends := [], log := [RelayLog.tooLarge] }
  else
    match data.parsed with
    | none => { relay := r, sends := [], log := [RelayLog.error] }
    | some message =>
      if !message.truthy || !message.typeofObject then
        { relay := r, sends := [], log := [RelayLog.invalid] }
      else
        match message.assign "timestamp" (JsValue.num now), r.connectedUsers.lookup ws with
        | some stamped, some user =>
          match stamped.assign "userId" (JsValue.str user.id) with
          | some message =>
            { relay := r, sends := broadcast r.clients message ws, log := [] }
          | none => { relay := r, sends := [], log := [RelayLog.error] }
        | _, _ => { relay := r, sends := [], log := [RelayLog.error] }

/-- The relay when the server starts. -/
def Relay.start : Relay := { clients := [], connectedUsers := [], userCounter := 1 }

/-- `connectedUsers.set(ws, record)`: an existing key keeps its place. -/
def mapSet : List (Nat × UserRecord) → Nat → UserRecord → List (Nat × UserRecord)
  | [], ws, record => [(ws, record)]
  | (k, v) :: rest, ws, record =>
    if k = ws then (k, record) :: rest else (k, v) :: mapSet rest ws record

/-- `connectedUsers.delete(ws)`. -/
def mapDelete (users : List (Nat × UserRecord)) (ws : Nat) : List (Nat × UserRecord) :=
  users.filter (fun entry => decide (entry.1 ≠ ws))

/-- The document `{ type: 'user_id', userId }`. -/
def userIdFrame (userId : String) : Json :=
  Json.obj [("type", Json.str "user_id"), ("userId", Json.str userId)]

/-- The document `{ type: 'user_count', count }`. -/
def userCountFrame (count : Nat) : Json :=
  Json.obj [("type", Json.str "user_count"), ("count", Json.num count)]

/-- The template literal `Invité${n}`. -/
def guestId (n : Nat) : String := "Invité" ++ Nat.repr n

/-- `broadcastUserCount()`: `connectedUsers.size` (the keys of the map are
distinct) sent to every client of `wss.clients` that is open. -/
def broadcastUserCount (r : Relay) : List Send :=
  let userCount := r.connectedUsers.length
  let message := userCountFrame userCount
  r.clients.foldl
    (fun sent client =>
      if client.readyState = 1 then sent ++ [{ target := client.handle, frame := message }]
      else sent)
    []

/-- The `wss.on('connection', ...)` handler for the socket `ws`, run at time
`now`, up to the registration of the socket's own handlers. -/
def onConnection (now : Nat) (r : Relay) (ws : Nat) : RelayStep :=
  let userId := guestId r.userCounter
  let r1 := { r with userCounter := r.userCounter + 1 }
  let r2 := { r1 with connectedUsers := mapSet r1.connectedUsers ws { id := userId, connected := now } }
  { relay := r2,
    sends := [{ target := ws, frame := userIdFrame userId }] ++ broadcastUserCount r2,
    log := [] }

/-- The `ws.on('close', ...)` handler of the socket `ws`. -/
def onDisconnect (r : Relay) (ws : Nat) : RelayStep :=
  match r.connectedUsers.lookup ws with
  | some _ =>
    let r1 := { r with connectedUsers := mapDelete r.connectedUsers ws }
    { relay := r1, sends := broadcastUserCount r1, log := [] }
  | none => { relay := r, sends := [], log := [] }

/-- What happens at the relay: a socket is accepted, a socket is closed, a
frame arrives on a socket. -/
inductive RelayEvent where
  | connection (ws : Nat) (now : Nat)
  | close (ws : Nat)
  | message (ws : Nat) (now : Nat) (data : Frame)

/-- Whether the event is a connection. -/
def RelayEvent.isConnection : RelayEvent → Bool
  | RelayEvent.connection _ _ => true
  | _ => false

/-- One event at the relay. The server itself puts an accepted socket, open,
into `wss.clients` before the connection handler runs, and takes a closed
socket out of it before the close handler runs. -/
def relayStep (r : Relay) : RelayEvent → RelayStep
  | RelayEvent.connection ws now =>
    onConnection now { r with clients := r.clients ++ [{ handle := ws, readyState := 1 }] } ws
  | RelayEvent.close ws =>
    onDisconnect { r with clients := r.clients.filter (fun c => decide (c.handle ≠ ws)) } ws
  | RelayEvent.message ws now data => onMessage now r ws data

/-- The relay after a sequence of events, from the start of the server. -/
def relayRun (events : List RelayEvent) : Relay :=
  events.foldl (fun r e => (relayStep r e).relay) Relay.start

/-- A relay with three registered peers, all open. -/
def relay3 : Relay :=
  { clients := [⟨1, 1⟩, ⟨2, 1⟩, ⟨3, 1⟩],
    connectedUsers := [(1, ⟨"Invité1", 0⟩), (2, ⟨"Invité2", 5⟩), (3, ⟨"Invité3", 9⟩)],
    userCounter := 4 }

/-! ## `src/project/websocket.js`: `WebSocketManager` -/

/-- The fields of a `WebSocketManager` that the send path reads and writes;
`ws` is the `readyState` of `this.ws` (`none`: `this.ws` is `null`). -/
structure WebSocketManager where
  ws : Option Nat
  isConnected : Bool
  reconnectAttempts : Nat
  maxReconnectAttempts : Nat
  reconnectDelay : Nat
  messageQueue : List JsValue

/-- The `constructor()` of `WebSocketManager`. -/
def WebSocketManager.new : WebSocketManager :=
  { ws := none, isConnected := false, reconnectAttempts := 0,
    maxReconnectAttempts := 5, reconnectDelay := 2000, messageQueue := [] }

/-- `WebSocket.OPEN`. -/
def WebSocket.OPEN : Nat := 1

/-- What a method of the manager does to the outside, in order. -/
inductive ClientEffect where
  /-- A frame handed to an open socket by `this.ws.send(...)`. -/
  | transmit (frame : Json)
  /-- A call `this.showNotification(text, kind)`. -/
  | notify (text kind : String)
  /-- A call `this.trigger(event, data)`. -/
  | trigger (event : String) (data : JsValue)
  /-- A call `this.trigger(event, undefined)`. -/
  | triggerUndefined (event : String)
  /-- A `setTimeout(() => this.connect(), delay)`. -/
  | schedule (delay : Nat)
  /-- A call `this.ws.close(code, reason)`. -/
  | closeSocket (code : Nat) (reason : String)

/-- An exception that leaves a method of the manager. -/
inductive ClientError where
  /-- A property read on `null`. -/
  | typeError
  /-- `send` on a socket that is still connecting. -/
  | invalidState
  deriving DecidableEq, Repr

/-- The outcome of one run of a method of the manager. -/
structure ClientStep where
  manager : WebSocketManager
  effects : List ClientEffect
  thrown : Option ClientError

/-- `this.ws.send(frame)`: a `TypeError` on `null`, an `InvalidStateError` while
connecting, a transmission when open, and nothing once closing or closed. -/
def wsSend (ws : Option Nat) (frame : Json) : Except ClientError (List ClientEffect) :=
  match ws with
  | none => Except.error ClientError.typeError
  | some readyState =>
    if readyState = 0 then Except.error ClientError.invalidState
    else if readyState = WebSocket.OPEN then Except.ok [ClientEffect.transmit frame]
    else Except.ok []

/-- The notice of `sendMessage` for a queued message. -/
def queuedNotice : ClientEffect :=
  ClientEffect.notify "Connexion perdue, message mis en attente" "warning"

/-- `WebSocketManager.sendMessage(message)`. -/
def sendMessage (m : WebSocketManager) (message : JsValue) : ClientStep :=
  let ready : Except ClientError Bool :=
    if m.isConnected then
      match m.ws with
      | none => Except.error ClientError.typeError
      | some readyState => Except.ok (decide (readyState = WebSocket.OPEN))
    else Except.ok false
  match ready with
  | Except.error e => { manager := m, effects := [], thrown := some e }
  | Except.ok true =>
    match wsSend m.ws (stringify message) with
    | Except.ok effects => { manager := m, effects := effects, thrown := none }
    | Except.error e => { manager := m, effects := [], thrown := some e }
  | Except.ok false =>
    let queued := { m with messageQueue := m.messageQueue ++ [message] }
    if !m.isConnected then
      { manager := queued, effects := [queuedNotice], thrown := none }
    else { manager := queued, effects := [], thrown := none }

/-- The loop of `flushMessageQueue` over the queue: each turn shifts the first
message and sends it. Returns the effects, the queue left and the exception
that ended the loop, if any. -/
def flushLoop (ws : Option Nat) :
    List JsValue → List ClientEffect × List JsValue × Option ClientError
  | [] => ([], [], none)
  | message :: rest =>
    match wsSend ws (stringify message) with
    | Except.error e => ([], rest, some e)
    | Except.ok effects =>
      let (later, left, thrown) := flushLoop ws rest
      (effects ++ later, left, thrown)

/-- `WebSocketManager.flushMessageQueue()`. -/
def flushMessageQueue (m : WebSocketManager) : ClientStep :=
  let (effects, left, thrown) := flushLoop m.ws m.messageQueue
  { manager := { m with messageQueue := left }, effects := effects, thrown := thrown }

/-- The `ws.onopen` handler, run with the event `event`. -/
def onOpen (m : WebSocketManager) (event : JsValue) : ClientStep :=
  let m1 := { m with isConnected := true, reconnectAttempts := 0 }
  let flushed := flushMessageQueue m1
  match flushed.thrown with
  | some e => { manager := flushed.manager, effects := flushed.effects, thrown := some e }
  | none =>
    { manager := flushed.manager,
      effects := flushed.effects ++
        [ClientEffect.trigger "connected" event,
         ClientEffect.notify "Connexion établie" "success"],
      thrown := none }

/-- A run of `sendMessage` calls, one after the other; the run stops at the
first call that throws. -/
def sendAll (m : WebSocketManager) : List JsValue → ClientStep
  | [] => { manager := m, effects := [], thrown := none }
  | message :: rest =>
    let first := sendMessage m message
    match first.thrown with
    | some e => { manager := first.manager, effects := first.effects, thrown := some e }
    | none =>
      let later := sendAll first.manager rest
      { manager := later.manager, effects := first.effects ++ later.effects,
        thrown := later.thrown }

/-- The frames among the effects, in order. -/
def transmitted : List ClientEffect → List Json
  | [] => []
  | ClientEffect.transmit frame :: rest => frame :: transmitted rest
  | _ :: rest => transmitted rest

/-- The notifications among the effects, in order. -/
def notices : List ClientEffect → List (String × String)
  | [] => []
  | ClientEffect.notify text kind :: rest => (text, kind) :: notices rest
  | _ :: rest => notices rest

/-! ### Reconnection -/

/-- The delays among the effects, in order: the reconnects scheduled. -/
def scheduled : List ClientEffect → List Nat
  | [] => []
  | ClientEffect.schedule delay :: rest => delay :: scheduled rest
  | _ :: rest => scheduled rest

/-- The text of `${delay/1000}`: the quotient, and the decimals when the delay
is not a whole number of seconds. -/
def secondsText (delay : Nat) : String :=
  let whole := Nat.repr (delay / 1000)
  let r := delay % 1000
  if r = 0 then whole
  else if r % 100 = 0 then whole ++ "." ++ Nat.repr (r / 100)
  else if r % 10 = 0 then whole ++ "." ++ Nat.repr (r / 100) ++ Nat.repr (r / 10 % 10)
  else whole ++ "." ++ Nat.repr (r / 100) ++ Nat.repr (r / 10 % 10) ++ Nat.repr (r % 10)

/-- The notice of `attemptReconnect`. -/
def reconnectNotice (delay attempts max : Nat) : ClientEffect :=
  ClientEffect.notify
    ("Reconnexion dans " ++ secondsText delay ++ "s (" ++ Nat.repr attempts ++ "/" ++
      Nat.repr max ++ ")")
    "warning"

/-- `WebSocketManager.attemptReconnect()`. -/
def attemptReconnect (m : WebSocketManager) : ClientStep :=
  let attempts := m.reconnectAttempts + 1
  let delay := m.reconnectDelay * 2 ^ (attempts - 1)
  { manager := { m with reconnectAttempts := attempts },
    effects := [reconnectNotice delay attempts m.maxReconnectAttempts, ClientEffect.schedule delay],
    thrown := none }

/-- The terminal notice of the close handler. -/
def terminalNotice : ClientEffect :=
  ClientEffect.notify "Connexion perdue. Rechargez la page." "error"

/-- The `ws.onclose` handler, run with the event `event` whose `code` is `code`. -/
def onClose (m : WebSocketManager) (code : Nat) (event : JsValue) : ClientStep :=
  let m1 := { m with isConnected := false }
  let fired := [ClientEffect.trigger "disconnected" event]
  if code ≠ 1000 ∧ code ≠ 1001 ∧ m1.reconnectAttempts < m1.maxReconnectAttempts then
    let retry := attemptReconnect m1
    { manager := retry.manager, effects := fired ++ retry.effects, thrown := retry.thrown }
  else if m1.reconnectAttempts ≥ m1.maxReconnectAttempts then
    { manager := m1, effects := fired ++ [terminalNotice], thrown := none }
  else if code = 1000 ∨ code = 1001 then
    { manager := m1, effects := fired ++ [ClientEffect.notify "Connexion fermée" "info"],
      thrown := none }
  else { manager := m1, effects := fired, thrown := none }

/-- `WebSocketManager.handleError(error)`. -/
def handleError (m : WebSocketManager) (error : JsValue) : ClientStep :=
  { manager := m,
    effects := [ClientEffect.trigger "error" error] ++
      (if !m.isConnected then [ClientEffect.notify "Erreur de connexion" "error"] else []),
    thrown := none }

/-- `WebSocketManager.connect()`, where `thrown` is what `new WebSocket(wsUrl)`
throws, if it throws; a new socket is connecting (`readyState` 0). -/
def connect (m : WebSocketManager) (thrown : Option JsValue) : ClientStep :=
  match thrown with
  | none => { manager := { m with ws := some 0 }, effects := [], thrown := none }
  | some error => handleError m error

/-- `WebSocketManager.disconnect()`: the socket, when there is one, is asked to
close with code 1000; a socket that was connecting or open is closing
(`readyState` 2) from then on. -/
def disconnect (m : WebSocketManager) : ClientStep :=
  match m.ws with
  | some readyState =>
    { manager := { m with ws := some (if readyState = 0 ∨ readyState = 1 then 2 else readyState) },
      effects := [ClientEffect.closeSocket 1000 "Déconnexion intentionnelle"],
      thrown := none }
  | none => { manager := m, effects := [], thrown := none }

/-- The codes of the closes asked for among the effects, in order. -/
def closeCodes : List ClientEffect → List Nat
  | [] => []
  | ClientEffect.closeSocket code _ :: rest => code :: closeCodes rest
  | _ :: rest => closeCodes rest

/-! ### Inbound messages -/

/-- A JavaScript string as a string of JSON data. The strings of JSON data are
held as sequences of scalar values. -/
def ofUnits (s : JSString) : String := String.mk ((toScalars s).map Char.ofNat)

/-- The placeholder `'[Message chiffré - clé non disponible]'`. -/
def keyUnavailable : JSString := jsLit "[Message chiffré - clé non disponible]"

/-- The placeholder `'[Message invalide]'`. -/
def invalidMessage : JSString := jsLit "[Message invalide]"

/-- `WebSocketManager.decryptMessage(encryptedContent)` against the global
`cryptoManager`; `none` is `undefined`. What is thrown inside the `try` block
(by `atob`, by `decrypt`) ends in the placeholder of the `catch` block. -/
def decryptMessage {Key : Type} (P : Provider Key) (cm : CryptoManager Key)
    (encryptedContent : Option JsValue) (w : Platform) : JSString × Platform :=
  if !cm.keyGenerated then (keyUnavailable, w)
  else
    match encryptedContent with
    | some (JsValue.str s) =>
      if s = "" then (invalidMessage, w)
      else
        match deserializeEncrypted (jsLit s) with
        | none => (undecryptable, w)
        | some envelope =>
          let decrypted := cm.decrypt P envelope.encrypted envelope.iv w
          match decrypted.1 with
          | Except.ok text => (text, decrypted.2)
          | Except.error _ => (undecryptable, decrypted.2)
    | _ => (invalidMessage, w)

/-- The property read `value[k]` for a property name that no prototype
defines: a `TypeError` on `null`, `undefined` (`none`) when the value has no
such property. -/
def JsValue.get (value : JsValue) (k : String) : Except ClientError (Option JsValue) :=
  match value with
  | JsValue.null => Except.error ClientError.typeError
  | JsValue.obj props => Except.ok (props.lookup k)
  | JsValue.arr _ props => Except.ok (props.lookup k)
  | _ => Except.ok none

/-- The items of an array as index properties. -/
def indexProps : Nat → List JsValue → List (String × JsValue)
  | _, [] => []
  | i, v :: vs => (Nat.repr i, v) :: indexProps (i + 1) vs

/-- The own properties that `{ ...value }` copies from an object or an array. -/
def spreadProps : JsValue → List (String × JsValue)
  | JsValue.obj props => props
  | JsValue.arr items props => indexProps 0 items ++ props
  | _ => []

/-- `this.trigger(event, data)` where `data` may be `undefined`. -/
def triggerWith (event : String) : Option JsValue → ClientEffect
  | some data => ClientEffect.trigger event data
  | none => ClientEffect.triggerUndefined event

/-- The outcome of `handleMessage`: the callbacks fired, the exception the
returned promise is rejected with, and the platform afterwards. -/
structure Handled where
  effects : List ClientEffect
  rejected : Option ClientError
  platform : Platform

/-- The `type` of a message when it is a string. -/
def typeTag : Option JsValue → Option String
  | some (JsValue.str s) => some s
  | _ => none

/-- `WebSocketManager.handleMessage(message)`. -/
def handleMessage {Key : Type} (P : Provider Key) (cm : CryptoManager Key)
    (message : JsValue) (w : Platform) : Handled :=
  match message.get "type" with
  | Except.error e => { effects := [], rejected := some e, platform := w }
  | Except.ok type =>
    let field := fun (k : String) =>
      match message.get k with
      | Except.ok v => v
      | Except.error _ => none
    if typeTag type = some "user_id" then
      { effects := [triggerWith "user_id" (field "userId")], rejected := none, platform := w }
    else if typeTag type = some "user_count" then
      { effects := [triggerWith "user_count" (field "count")], rejected := none, platform := w }
    else if typeTag type = some "text_message" then
      let decrypted := decryptMessage P cm (field "content") w
      let data := JsValue.obj
        (setProp (setProp (spreadProps message) "content" (JsValue.str (ofUnits decrypted.1)))
          "decrypted" (JsValue.bool true))
      { effects := [ClientEffect.trigger "message" data], rejected := none,
        platform := decrypted.2 }
    else if typeTag type = some "voice_message" then
      { effects := [ClientEffect.trigger "voice_message" message], rejected := none,
        platform := w }
    else if typeTag type = some "file_message" then
      { effects := [ClientEffect.trigger "file_message" message], rejected := none,
        platform := w }
    else { effects := [], rejected := none, platform := w }

/-- The `ws.onmessage` handler, where `parsed` is the outcome of
`JSON.parse(event.data)` (`none`: it throws). `handleMessage` is not awaited:
what it rejects with does not leave the handler. -/
def onTransportMessage {Key : Type} (P : Provider Key) (cm : CryptoManager Key)
    (m : WebSocketManager) (parsed : Option JsValue) (w : Platform) : ClientStep × Platform :=
  match parsed with
  | none => ({ manager := m, effects := [], thrown := none }, w)
  | some message =>
    let handled := handleMessage P cm message w
    ({ manager := m, effects := handled.effects, thrown := none }, handled.platform)

/-- The events fired among the effects, in order. -/
def triggered : List ClientEffect → List String
  | [] => []
  | ClientEffect.trigger event _ :: rest => event :: triggered rest
  | ClientEffect.triggerUndefined event :: rest => event :: triggered rest
  | _ :: rest => triggered rest

/-! ### Sending files -/

/-- What `sendFiles` reads of a `File`: its `name`, `type` and `size`, and what
`file.arrayBuffer()` settles to (`none`: the read fails). -/
structure File where
  name : String
  type : String
  size : Nat
  content : Option Bytes

/-- The object returned by `encryptFile`. -/
structure EncryptedFile where
  encrypted : Bytes
  iv : Bytes
  name : String
  type : String
  size : Nat

/-- `CryptoManager.encryptFile(file)`. -/
def CryptoManager.encryptFile {Key : Type} (P : Provider Key) (rnd : Nat → Nat)
    (cm : CryptoManager Key) (file : File) (w : Platform) :
    Except CryptoError EncryptedFile × Platform :=
  match file.content with
  | none => (Except.error (CryptoError.platform "NotReadableError"), w)
  | some arrayBuffer =>
    let encrypted := cm.encrypt P rnd (Plain.buffer arrayBuffer) w
    match encrypted.1 with
    | Except.ok envelope =>
      (Except.ok { encrypted := envelope.encrypted, iv := envelope.iv, name := file.name,
                   type := file.type, size := file.size }, encrypted.2)
    | Except.error e => (Except.error e, encrypted.2)

/-- The `file_message` that `sendFiles` builds for a file. -/
def fileMessage (file : File) (serialized : JSString) : JsValue :=
  JsValue.obj
    [("type", JsValue.str "file_message"), ("content", JsValue.str (ofUnits serialized)),
     ("fileName", JsValue.str file.name), ("fileType", JsValue.str file.type),
     ("fileSize", JsValue.num file.size)]

/-- The warning of `sendFiles` for a file that is too large. -/
def tooLargeNotice (file : File) : ClientEffect :=
  ClientEffect.notify ("Fichier \"" ++ file.name ++ "\" trop volumineux (max 10MB)") "warning"

/-- The notice of the `catch` block of `sendFiles`. -/
def sendFailedNotice (file : File) : ClientEffect :=
  ClientEffect.notify ("Erreur lors de l'envoi de \"" ++ file.name ++ "\"") "error"

/-- The state `sendFiles` works on, and what it has done so far: its
notifications and transmissions, in order. -/
structure FilesStep where
  manager : WebSocketManager
  platform : Platform
  effects : List ClientEffect

/-- One turn of the loop of `sendFiles`, on an engine that accepts
`maxArguments` arguments in one call. -/
def sendFile {Key : Type} (maxArguments : Nat) (P : Provider Key) (rnd : Nat → Nat)
    (cm : CryptoManager Key) (m : WebSocketManager) (w : Platform) (file : File) : FilesStep :=
  if file.size > 10 * 1024 * 1024 then
    { manager := m, platform := w, effects := [tooLargeNotice file] }
  else
    let encryptedFile := cm.encryptFile P rnd file w
    match encryptedFile.1 with
    | Except.error _ =>
      { manager := m, platform := encryptedFile.2, effects := [sendFailedNotice file] }
    | Except.ok ef =>
      match serializeEncrypted maxArguments ef.encrypted ef.iv with
      | none =>
        { manager := m, platform := encryptedFile.2, effects := [sendFailedNotice file] }
      | some serialized =>
        let message := fileMessage file serialized
        let sent := sendMessage m message
        match sent.thrown with
        | none =>
          { manager := sent.manager, platform := encryptedFile.2, effects := sent.effects }
        | some _ =>
          { manager := sent.manager, platform := encryptedFile.2,
            effects := sent.effects ++ [sendFailedNotice file] }

/-- `WebSocketManager.sendFiles(files)`: the turns of the loop, one file after
the other. -/
def sendFiles {Key : Type} (maxArguments : Nat) (P : Provider Key) (rnd : Nat → Nat)
    (cm : CryptoManager Key) (m : WebSocketManager) (w : Platform) (files : List File) :
    FilesStep :=
  files.foldl
    (fun done file =>
      let turn := sendFile maxArguments P rnd cm done.manager done.platform file
      { manager := turn.manager, platform := turn.platform,
        effects := done.effects ++ turn.effects })
    { manager := m, platform := w, effects := [] }

/-! ### The channel as a transition system -/

/-- What happens to a channel: the methods called on it and the events of its
socket. -/
inductive ClientEvent (Key : Type) where
  /-- A call of `connect()`, also by the reconnect timer, and what
  `new WebSocket` throws, if it throws. -/
  | connect (thrown : Option JsValue)
  /-- The platform moves the socket of the manager to another `readyState`. -/
  | socketState (readyState : Nat)
  /-- An `open` event. -/
  | opened (event : JsValue)
  /-- A `close` event with its code. -/
  | closed (code : Nat) (event : JsValue)
  /-- An `error` event. -/
  | failed (error : JsValue)
  /-- A `message` event, with the crypto manager and the platform of the time. -/
  | message (cm : CryptoManager Key) (w : Platform) (parsed : Option JsValue)
  /-- A call of `sendMessage(message)`. -/
  | send (message : JsValue)
  /-- A call of `disconnect()`. -/
  | disconnect

/-- Whether the event is an `open` event. -/
def ClientEvent.isOpened {Key : Type} : ClientEvent Key → Bool
  | ClientEvent.opened _ => true
  | _ => false

/-- One event on the channel. -/
def clientStep {Key : Type} (P : Provider Key) (m : WebSocketManager) :
    ClientEvent Key → ClientStep
  | ClientEvent.connect thrown => connect m thrown
  | ClientEvent.socketState readyState =>
    { manager := { m with ws := m.ws.map (fun _ => readyState) }, effects := [], thrown := none }
  | ClientEvent.opened event => onOpen m event
  | ClientEvent.closed code event => onClose m code event
  | ClientEvent.failed error => handleError m error
  | ClientEvent.message cm w parsed => (onTransportMessage P cm m parsed w).1
  | ClientEvent.send message => sendMessage m message
  | ClientEvent.disconnect => disconnect m

/-- A sequence of events on the channel: the manager at the end and all the
effects, in order. An exception that leaves a handler does not stop the events
that follow. -/
def clientRun {Key : Type} (P : Provider Key) (m : WebSocketManager)
    (events : List (ClientEvent Key)) : WebSocketManager × List ClientEffect :=
  events.foldl
    (fun acc event => ((clientStep P acc.1 event).manager, acc.2 ++ (clientStep P acc.1 event).effects))
    (m, [])

/-! ## Predicates used in the statements -/

/-- A Unicode scalar value. -/
def IsScalar (c : Nat) : Prop := c < 0x110000 ∧ ¬ (0xD800 ≤ c ∧ c ≤ 0xDFFF)

/-- Every element is a UTF-16 code unit. -/
def IsUnits (s : List Nat) : Prop := ∀ u ∈ s, u < 65536

instance (s : List Nat) : Decidable (IsUnits s) := by
  unfold IsUnits; infer_instance

/-- The provider's AES-GCM decryption inverts its encryption under the same key
and nonce. -/
def ProviderInverts {Key : Type} (P : Provider Key) : Prop :=
  ∀ k iv data ct, P.encrypt k iv data = Except.ok ct → P.decrypt k iv ct = Except.ok data

/-- How many times the socket `handle` was written to. -/
def sendsTo (handle : Nat) (sends : List Send) : Nat :=
  (sends.filter (fun s => decide (s.target = handle))).length

/-- The delays of the reconnects 1 to 5. -/
def backoffDelays : List Nat := [2000, 4000, 8000, 16000, 32000]

/-- Whether the event is a close with a code other than 1000 and 1001. -/
def ClientEvent.isAbnormalClose {Key : Type} : ClientEvent Key → Bool
  | ClientEvent.closed code _ => decide (code ≠ 1000 ∧ code ≠ 1001)
  | _ => false

/-- What the constructor sets and no method writes, and the bound on the
number of attempts. -/
def RetryInvariant (m : WebSocketManager) : Prop :=
  m.maxReconnectAttempts = 5 ∧ m.reconnectDelay = 2000 ∧ m.reconnectAttempts ≤ 5

/-- The number a string of decimal digits stands for. -/
def decodeDigits (cs : List Char) : Nat := cs.foldl (fun a c => 10 * a + (c.toNat - 48)) 0

/-- A JSON value that is not an object: a number, a string, a boolean or `null`. -/
def JsValue.isPrimitive : JsValue → Bool
  | JsValue.null => true
  | JsValue.bool _ => true
  | JsValue.num _ => true
  | JsValue.str _ => true
  | _ => false

/-- Whether the client is open. -/
def Client.isOpen (c : Client) : Bool := decide (c.readyState = 1)

/-- The registered peers whose socket is open: the clients of `wss.clients`
that are open and are a key of `connectedUsers`. -/
def registeredOpen (r : Relay) : Nat :=
  (r.clients.filter
    (fun c => c.isOpen && (r.connectedUsers.lookup c.handle).isSome)).length

/-- The platform after the turn of a file: a file that is too large is not
read, any other one is read and, when read, encrypted. -/
def platformAfter {Key : Type} (P : Provider Key) (rnd : Nat → Nat) (cm : CryptoManager Key)
    (w : Platform) (file : File) : Platform :=
  if file.size ≤ 10 * 1024 * 1024 then (cm.encryptFile P rnd file w).2 else w

/-- The files of a call of `sendFiles`, each with the platform at the start of
its turn. -/
def turns {Key : Type} (P : Provider Key) (rnd : Nat → Nat) (cm : CryptoManager Key) :
    Platform → List File → List (Platform × File)
  | _, [] => []
  | w, file :: rest => (w, file) :: turns P rnd cm (platformAfter P rnd cm w file) rest

/-- The message a file gives rise to, when its size is at most 10 MiB and its
read, encryption and serialization succeed on the platform as it is at its
turn; `none` otherwise. -/
def messageFor {Key : Type} (maxArguments : Nat) (P : Provider Key) (rnd : Nat → Nat)
    (cm : CryptoManager Key) (turn : Platform × File) : Option JsValue :=
  if turn.2.size ≤ 10 * 1024 * 1024 then
    match (cm.encryptFile P rnd turn.2 turn.1).1 with
    | Except.ok ef =>
      (serializeEncrypted maxArguments ef.encrypted ef.iv).map (fileMessage turn.2)
    | Except.error _ => none
  else none

/-- The managers that a run of `sendMessage` calls goes through end in this one. -/
def managerAfter (m : WebSocketManager) (messages : List JsValue) : WebSocketManager :=
  messages.foldl (fun acc message => (sendMessage acc message).manager) m

/-- The provider rejects the empty ciphertext, as AES-GCM does: a ciphertext
shorter than the authentication tag cannot be decrypted. -/
def RejectsEmpty {Key : Type} (P : Provider Key) : Prop :=
  ∀ k iv, ∃ e, P.decrypt k iv [] = Except.error e

/-! ## `src/crypto.js`: key generation as a promise, hashing -/

/-- `CryptoManager.generateKey()` as the promise the caller awaits, where
`outcome` is what `crypto.subtle.generateKey` does (an error: it throws or
rejects, also when `crypto` is missing). `Except.ok b`: the promise resolves
to `b`; `Except.error e`: it is rejected with `e`. -/
def CryptoManager.generateKeyPromise {Key : Type} (m : CryptoManager Key)
    (outcome : Except String Key) : Except CryptoError Bool × CryptoManager Key :=
  match outcome with
  | Except.ok k => (Except.ok true, { m with key := some k, keyGenerated := true })
  | Except.error _ => (Except.ok false, m)

/-- `number.toString(16)` for a natural number, as code units. -/
def toStringHex (n : Nat) : JSString := (Nat.toDigits 16 n).map Char.toNat

/-- `s.padStart(targetLength, '0')`. -/
def padStartZero (s : JSString) (targetLength : Nat) : JSString :=
  List.replicate (targetLength - s.length) 48 ++ s

/-- `CryptoManager.generateHash(data)`, where `digest` is
`crypto.subtle.digest('SHA-256', ·)`; its exception is thrown again. -/
def generateHash (digest : Bytes → Except String Bytes) (data : JSString) :
    Except CryptoError JSString :=
  let dataBuffer := textEncode data
  match digest dataBuffer with
  | Except.ok hashBuffer =>
    let hashArray := hashBuffer
    Except.ok (hashArray.flatMap (fun b => padStartZero (toStringHex b) 2))
  | Except.error e => Except.error (CryptoError.platform e)

/-- The lower-case hexadecimal digit of a value below 16, as a code unit. -/
def hexDigit (d : Nat) : Nat := if d < 10 then 48 + d else 87 + d

/-- A code unit among `0`-`9` and `a`-`f`. -/
def isLowerHex (c : Nat) : Bool := (decide (48 ≤ c) && decide (c ≤ 57)) || (decide (97 ≤ c) && decide (c ≤ 102))

/-! ## `src/files.js`: `FileManager` -/

/-- `this.maxFileSize`. -/
def maxFileSize : Nat := 10 * 1024 * 1024

/-- `this.allowedTypes`, in the order of its keys. -/
def allowedTypes : List (String × List String) :=
  [("images", ["image/jpeg", "image/png", "image/gif", "image/webp", "image/svg+xml"]),
   ("documents", ["application/pdf", "text/plain", "application/msword",
      "application/vnd.openxmlformats-officedocument.wordprocessingml.document",
      "application/vnd.ms-excel",
      "application/vnd.openxmlformats-officedocument.spreadsheetml.sheet"]),
   ("archives", ["application/zip", "application/x-rar-compressed", "application/x-7z-compressed"]),
   ("audio", ["audio/mpeg", "audio/wav", "audio/ogg", "audio/webm"]),
   ("video", ["video/mp4", "video/webm", "video/ogg"])]

/-- `FileManager.isTypeAllowed(mimeType)`. -/
def isTypeAllowed (mimeType : String) : Bool :=
  allowedTypes.any (fun entry => entry.2.contains mimeType)

/-- The loop of `getFileCategory` over the entries of `allowedTypes`. -/
def getFileCategoryFrom : List (String × List String) → String → String
  | [], _ => "unknown"
  | (category, types) :: rest, mimeType =>
    if types.contains mimeType then category else getFileCategoryFrom rest mimeType

/-- `FileManager.getFileCategory(mimeType)`. -/
def getFileCategory (mimeType : String) : String := getFileCategoryFrom allowedTypes mimeType

/-- The class `[<>:"/\\|?*\x00-\x1f]` of the pattern `dangerousChars`. -/
def isDangerousChar (u : Nat) : Bool :=
  u == 60 || u == 62 || u == 58 || u == 34 || u == 47 || u == 92 || u == 124 || u == 63 ||
    u == 42 || decide (u ≤ 0x1f)

/-- The upper-case form under which a pattern with the flag `i` compares an
ASCII letter; other code units never compare equal to an ASCII letter. -/
def asciiUpper (u : Nat) : Nat := if 97 ≤ u ∧ u ≤ 122 then u - 32 else u

/-- The alternatives of the pattern `reservedNames`. -/
def reservedNames : List JSString :=
  ["CON", "PRN", "AUX", "NUL", "COM1", "COM2", "COM3", "COM4", "COM5", "COM6", "COM7", "COM8",
   "COM9", "LPT1", "LPT2", "LPT3", "LPT4", "LPT5", "LPT6", "LPT7", "LPT8", "LPT9"].map jsLit

/-- The alternatives of the pattern `dangerousExtensions`, each after its dot. -/
def dangerousExtensions : List JSString :=
  ["exe", "bat", "cmd", "com", "pif", "scr", "vbs", "js", "jar", "msi", "dll", "sys"].map
    (fun ext => (jsLit ("." ++ ext)).map asciiUpper)

/-- `fileName.split('.')[0]`. -/
def nameWithoutExt (fileName : JSString) : JSString := fileName.takeWhile (fun u => u != 46)

/-- `FileManager.isFileNameSafe(fileName)`; `none` is `undefined`. -/
def isFileNameSafe (fileName : Option JsValue) : Bool :=
  match fileName with
  | some (JsValue.str s) =>
    let name := jsLit s
    if s = "" then false
    else if name.any isDangerousChar then false
    else if reservedNames.contains ((nameWithoutExt name).map asciiUpper) then false
    else if name.length > 255 then false
    else if dangerousExtensions.any (fun ext => ext.isSuffixOf (name.map asciiUpper)) then false
    else true
  | _ => false

/-- The object returned by `validateFile`. -/
structure ValidationResult where
  valid : Bool
  errors : List String
  deriving DecidableEq, Repr

/-- The first error of `validateFile`, where `maxSizeText` is the text of
`formatFileSize(this.maxFileSize)`. -/
def tooLargeError (maxSizeText : String) : String :=
  "Fichier trop volumineux (max " ++ maxSizeText ++ ")"

/-- `FileManager.validateFile(file)`, where `maxSizeText` is the text of
`formatFileSize(this.maxFileSize)`. -/
def validateFile (maxSizeText : String) (file : File) : ValidationResult :=
  let result : ValidationResult := { valid := true, errors := [] }
  let result :=
    if file.size > maxFileSize then
      { valid := false, errors := result.errors ++ [tooLargeError maxSizeText] }
    else result
  let result :=
    if !isTypeAllowed file.type then
      { valid := false, errors := result.errors ++ ["Type de fichier non autorisé"] }
    else result
  let result :=
    if !isFileNameSafe (some (JsValue.str file.name)) then
      { valid := false, errors := result.errors ++ ["Nom de fichier non sécurisé"] }
    else result
  result

/-- `a === b` on primitive values; an object or an array is never strictly
equal to a primitive value. -/
def strictEquals : JsValue → JsValue → Bool
  | JsValue.null, JsValue.null => true
  | JsValue.bool a, JsValue.bool b => a == b
  | JsValue.num a, JsValue.num b => a.strictEquals b
  | JsValue.str a, JsValue.str b => a == b
  | _, _ => false

/-- How the promise of `createImagePreview` ends, and whether
`reader.readAsDataURL(file)` was called. -/
structure Preview where
  readStarted : Bool
  settled : Except String String
  deriving Repr

/-- `FileManager.createImagePreview(file)`, where `dataUrl` is what the reader
loads (`none`: the reader fails). In the test of the source, `!` applies to
the category before `===` compares. A resolved promise holds the `src` of the
image of the preview. -/
def createImagePreview (file : File) (dataUrl : Option String) : Preview :=
  if strictEquals (JsValue.bool (!(JsValue.str (getFileCategory file.type)).truthy))
      (JsValue.str "images") then
    { readStarted := false, settled := Except.error "Le fichier n'est pas une image" }
  else
    match dataUrl with
    | some url => { readStarted := true, settled := Except.ok url }
    | none =>
      { readStarted := true, settled := Except.error "Erreur lors de la lecture du fichier" }

/-! ## Predicates used in the statements about file names -/

/-- Two code units that are equal or are the two cases of one ASCII letter. -/
def sameLetter (a b : Nat) : Bool :=
  a == b || (decide (65 ≤ a) && decide (a ≤ 90) && b == a + 32) ||
    (decide (65 ≤ b) && decide (b ≤ 90) && a == b + 32)

/-- Two strings that are equal when the case of ASCII letters is ignored. -/
def eqIgnoringCase : JSString → JSString → Bool
  | [], [] => true
  | a :: s, b :: t => sameLetter a b && eqIgnoringCase s t
  | _, _ => false

/-! ## `src/project/websocket.js`: `sendTextMessage` -/

/-- The notice of the `catch` block of `sendTextMessage`. -/
def sendTextNotice : ClientEffect :=
  ClientEffect.notify "Erreur lors de l'envoi du message" "error"

/-- The message `sendTextMessage` builds around the serialized envelope. -/
def textMessage (serialized : JSString) : JsValue :=
  JsValue.obj [("type", JsValue.str "text_message"), ("content", JsValue.str (ofUnits serialized))]

/-- What a call of `sendTextMessage` has done: the manager and the platform it
leaves, its effects, and what it throws to its caller. -/
structure TextStep where
  manager : WebSocketManager
  platform : Platform
  effects : List ClientEffect
  thrown : Option ClientError

/-- `WebSocketManager.sendTextMessage(text)` against the global
`cryptoManager`, on an engine that accepts `maxArguments` arguments in one
call. Whatever is thrown inside the `try` block (by the guard, by `encrypt`,
by `serializeEncrypted`, by `sendMessage`) ends in the notice of the `catch`
block. -/
def sendTextMessage {Key : Type} (maxArguments : Nat) (P : Provider Key) (rnd : Nat → Nat)
    (cm : CryptoManager Key) (m : WebSocketManager) (w : Platform) (text : JSString) :
    TextStep :=
  if !cm.keyGenerated then
    { manager := m, platform := w, effects := [sendTextNotice], thrown := none }
  else
    let encrypted := cm.encrypt P rnd (Plain.text text) w
    match encrypted.1 with
    | Except.error _ =>
      { manager := m, platform := encrypted.2, effects := [sendTextNotice], thrown := none }
    | Except.ok envelope =>
      match serializeEncrypted maxArguments envelope.encrypted envelope.iv with
      | none =>
        { manager := m, platform := encrypted.2, effects := [sendTextNotice], thrown := none }
      | some serialized =>
        let message := textMessage serialized
        let sent := sendMessage m message
        match sent.thrown with
        | none =>
          { manager := sent.manager, platform := encrypted.2, effects := sent.effects,
            thrown := none }
        | some _ =>
          { manager := sent.manager, platform := encrypted.2,
            effects := sent.effects ++ [sendTextNotice], thrown := none }

/-! ## The text of a frame on the wire -/

/-- The part of `QuoteJSONString` for one code point: the two-character
escapes, `\u00XX` for the other control characters, and the code point itself
otherwise. The strings of JSON data hold no lone surrogate. -/
def quoteJSONChar (c : Nat) : JSString :=
  if c = 8 then [92, 98]
  else if c = 9 then [92, 116]
  else if c = 10 then [92, 110]
  else if c = 12 then [92, 102]
  else if c = 13 then [92, 114]
  else if c = 34 then [92, 34]
  else if c = 92 then [92, 92]
  else if c < 32 then [92, 117, 48, 48, hexDigit (c / 16), hexDigit (c % 16)]
  else utf16Units c

/-- `QuoteJSONString(value)`. -/
def quoteJSONString (value : String) : JSString :=
  [34] ++ value.toList.flatMap (fun c => quoteJSONChar c.toNat) ++ [34]

/-- The texts of the members or items of a JSON text, separated by `sep`. -/
def joinWith (sep : Nat) : List JSString → JSString
  | [] => []
  | [x] => x
  | x :: y :: rest => x ++ [sep] ++ joinWith sep (y :: rest)

mutual
/-- The text `JSON.stringify` returns for a document, without indentation;
`numberText` writes the digits of a number. -/
def jsonText (numberText : ℚ → JSString) : Json → JSString
  | Json.null => jsLit "null"
  | Json.bool b => if b then jsLit "true" else jsLit "false"
  | Json.num n => numberText n
  | Json.str s => quoteJSONString s
  | Json.arr items => [91] ++ joinWith 44 (jsonTextItems numberText items) ++ [93]
  | Json.obj members => [123] ++ joinWith 44 (jsonTextMembers numberText members) ++ [125]
/-- The texts of the items of an array. -/
def jsonTextItems (numberText : ℚ → JSString) : List Json → List JSString
  | [] => []
  | v :: vs => jsonText numberText v :: jsonTextItems numberText vs
/-- The texts `key:value` of the members of an object. -/
def jsonTextMembers (numberText : ℚ → JSString) : List (String × Json) → List JSString
  | [] => []
  | (k, v) :: ms =>
    (quoteJSONString k ++ [58] ++ jsonText numberText v) :: jsonTextMembers numberText ms
end

/-- The `data.length` the relay reads for a text frame a client transmitted:
the number of bytes of its text in UTF-8. -/
def wireLength (numberText : ℚ → JSString) (frame : Json) : Nat :=
  (textEncode (jsonText numberText frame)).length

/-- A toy provider whose ciphertext has the length AES-GCM gives it: the
plaintext followed by a tag of 16 bytes. -/
def taggedProvider : Provider Nat where
  encrypt := fun k iv d => Except.ok (d ++ List.replicate 16 ((k + iv.sum) % 256))
  decrypt := fun k iv c =>
    if c.drop (c.length - 16) = List.replicate 16 ((k + iv.sum) % 256) then
      Except.ok (c.take (c.length - 16))
    else Except.error "OperationError"

/-- A file of 7 864 293 zero bytes, the smallest size whose serialized content
exceeds the relay's limit. -/
def largeFile : File :=
  { name := "big.zip", type := "application/zip", size := 7864293,
    content := some (List.replicate 7864293 0) }

/-- A file of 130 000 zero bytes. -/
def mediumFile : File :=
  { name := "notes.txt", type := "text/plain", size := 130000,
    content := some (List.replicate 130000 0) }

/-- A relay with three registered peers, the third with its socket closing: its
`close` event has not been handled yet. -/
def relayClosing : Relay :=
  { clients := [⟨1, 1⟩, ⟨2, 1⟩, ⟨3, 2⟩],
    connectedUsers := [(1, ⟨"Invité1", 0⟩), (2, ⟨"Invité2", 5⟩), (3, ⟨"Invité3", 9⟩)],
    userCounter := 4 }

/-! ## Base64: decoding inverts encoding -/

theorem b64Value_b64Char (i : Nat) (h : i < 64) : b64Value (b64Char i) = some i := by
  unfold b64Char b64Value
  split_ifs <;> first | omega | (congr 1; omega)

theorem b64Char_ne_pad (i : Nat) : b64Char i ≠ 61 := by
  unfold b64Char
  split_ifs <;> omega

theorem b64Char_not_ws (i : Nat) : isAsciiWhitespace (b64Char i) = false := by
  unfold b64Char isAsciiWhitespace
  split_ifs <;> simp <;> omega

theorem base64Encode_eq (bs : List Nat) :
    base64Encode bs = (sextetsOf bs).map b64Char ++ padOf bs := by
  induction bs using base64Encode.induct with
  | case1 a b c rest ih => simp [base64Encode, sextetsOf, padOf, ih]
  | case2 a b => simp [base64Encode, sextetsOf, padOf]
  | case3 a => simp [base64Encode, sextetsOf, padOf]
  | case4 => simp [base64Encode, sextetsOf, padOf]

theorem sextetsOf_lt (bs : List Nat) (h : IsBytes bs) : ∀ v ∈ sextetsOf bs, v < 64 := by
  induction bs using sextetsOf.induct with
  | case1 a b c rest ih =>
    have ha := h a (by simp)
    have hb := h b (by simp)
    have hc := h c (by simp)
    have hr : IsBytes rest := fun x hx => h x (by simp [hx])
    intro v hv
    simp only [sextetsOf, List.mem_cons] at hv
    rcases hv with rfl | rfl | rfl | rfl | hv
    · omega
    · omega
    · omega
    · omega
    · exact ih hr v hv
  | case2 a b =>
    have ha := h a (by simp)
    have hb := h b (by simp)
    intro v hv
    simp only [sextetsOf, List.mem_cons, List.mem_singleton, List.not_mem_nil, or_false] at hv
    rcases hv with rfl | rfl | rfl <;> omega
  | case3 a =>
    have ha := h a (by simp)
    intro v hv
    simp only [sextetsOf, List.mem_cons, List.mem_singleton, List.not_mem_nil, or_false] at hv
    rcases hv with rfl | rfl <;> omega
  | case4 => intro v hv; simp [sextetsOf] at hv

theorem decodeSextets_sextetsOf (bs : List Nat) (h : IsBytes bs) :
    decodeSextets (sextetsOf bs) = bs := by
  induction bs using sextetsOf.induct with
  | case1 a b c rest ih =>
    have ha := h a (by simp)
    have hb := h b (by simp)
    have hc := h c (by simp)
    have hr : IsBytes rest := fun x hx => h x (by simp [hx])
    simp only [sextetsOf, decodeSextets, ih hr]
    congr 1
    · omega
    · congr 1
      · omega
      · congr 1
        omega
  | case2 a b =>
    have ha := h a (by simp)
    have hb := h b (by simp)
    simp only [sextetsOf, decodeSextets]
    congr 1
    · omega
    · congr 1
      omega
  | case3 a =>
    have ha := h a (by simp)
    simp only [sextetsOf, decodeSextets]
    congr 1
    omega
  | case4 => simp [sextetsOf, decodeSextets]

theorem sextets_map_b64Char (vs : List Nat) (h : ∀ v ∈ vs, v < 64) :
    sextets (vs.map b64Char) = some vs := by
  induction vs with
  | nil => rfl
  | cons v vs ih =>
    have hv := h v (by simp)
    have ih := ih (fun x hx => h x (by simp [hx]))
    simp [sextets, b64Value_b64Char v hv, ih]

theorem sextetsOf_length (bs : List Nat) :
    (sextetsOf bs).length % 4 ≠ 1 ∧ ((sextetsOf bs).length + (padOf bs).length) % 4 = 0 := by
  induction bs using sextetsOf.induct with
  | case1 a b c rest ih =>
    simp only [sextetsOf, padOf, List.length_cons]
    omega
  | case2 a b => simp [sextetsOf, padOf]
  | case3 a => simp [sextetsOf, padOf]
  | case4 => simp [sextetsOf, padOf]

theorem padOf_cases (bs : List Nat) : padOf bs = [] ∨ padOf bs = [61] ∨ padOf bs = [61, 61] := by
  induction bs using padOf.induct with
  | case1 a b c rest ih => simpa [padOf] using ih
  | case2 a b => simp [padOf]
  | case3 a => simp [padOf]
  | case4 => simp [padOf]

theorem stripPadding_append (xs pad : List Nat) (hx : ∀ c ∈ xs, c ≠ 61)
    (hp : pad = [] ∨ pad = [61] ∨ pad = [61, 61]) :
    stripPadding (xs ++ pad) = xs ∨ (xs ++ pad).length % 4 ≠ 0 := by
  by_cases hl : (xs ++ pad).length % 4 = 0
  · left
    have hlast : xs.getLast? ≠ some 61 := by
      intro hc
      exact hx 61 (List.mem_of_getLast?_eq_some hc) rfl
    rcases hp with rfl | rfl | rfl
    · simp only [List.append_nil] at hl ⊢
      simp [stripPadding, hl, hlast]
    · have hl2 : (xs.length + 1) % 4 = 0 := by simpa using hl
      simp [stripPadding, hl2, hlast, List.getLast?_append, List.dropLast_append_of_ne_nil]
    · have hl2 : (xs.length + 2) % 4 = 0 := by simpa using hl
      simp [stripPadding, hl2, hlast, List.getLast?_append, List.dropLast_append_of_ne_nil]
  · right; exact hl

theorem atob_base64Encode (bs : List Nat) (h : IsBytes bs) :
    atob (base64Encode bs) = some bs := by
  have hlt := sextetsOf_lt bs h
  have hlen := sextetsOf_length bs
  have hfilter : (base64Encode bs).filter (fun c => !isAsciiWhitespace c) = base64Encode bs := by
    rw [List.filter_eq_self]
    intro c hc
    rw [base64Encode_eq] at hc
    rcases List.mem_append.1 hc with hc | hc
    · obtain ⟨v, _, rfl⟩ := List.mem_map.1 hc
      simp [b64Char_not_ws]
    · rcases padOf_cases bs with hp | hp | hp <;> rw [hp] at hc <;> simp at hc <;> subst hc <;> decide
  have hstrip : stripPadding (base64Encode bs) = (sextetsOf bs).map b64Char := by
    rw [base64Encode_eq]
    rcases stripPadding_append ((sextetsOf bs).map b64Char) (padOf bs)
      (by intro c hc; obtain ⟨v, _, rfl⟩ := List.mem_map.1 hc; exact b64Char_ne_pad v)
      (padOf_cases bs) with hs | hs
    · exact hs
    · exfalso; apply hs; simpa using hlen.2
  unfold atob
  simp only [hfilter, hstrip, List.length_map, hlen.1, if_false]
  rw [sextets_map_b64Char _ hlt]
  simp [decodeSextets_sextetsOf bs h]

/-! ## Base64: the encoding is that of RFC 4648 -/

theorem bitsMSB_eight (x : Nat) :
    bitsMSB 8 x
      = [x / 128 % 2, x / 64 % 2, x / 32 % 2, x / 16 % 2, x / 8 % 2, x / 4 % 2, x / 2 % 2, x % 2] := by
  simp [bitsMSB]

theorem rfc4648Chars_eq (bs : List Nat) (h : IsBytes bs) :
    rfc4648Chars (bs.flatMap (bitsMSB 8)) = (sextetsOf bs).map b64Char := by
  induction bs using sextetsOf.induct with
  | case1 a b c rest ih =>
    have ha := h a (by simp)
    have hb := h b (by simp)
    have hc := h c (by simp)
    have hr : IsBytes rest := fun x hx => h x (by simp [hx])
    rw [List.flatMap_cons, List.flatMap_cons, List.flatMap_cons, bitsMSB_eight a,
      bitsMSB_eight b, bitsMSB_eight c]
    simp only [List.cons_append, List.nil_append, rfc4648Chars, ih hr, sextetsOf, List.map_cons,
      ofBitsMSB, List.foldl_cons, List.foldl_nil]
    refine congrArg₂ _ (congrArg _ ?_) (congrArg₂ _ (congrArg _ ?_)
      (congrArg₂ _ (congrArg _ ?_) (congrArg₂ _ (congrArg _ ?_) ?_)))
    · omega
    · omega
    · omega
    · omega
    · simpa using ih hr
  | case2 a b =>
    have ha := h a (by simp)
    have hb := h b (by simp)
    rw [List.flatMap_cons, List.flatMap_cons, List.flatMap_nil, bitsMSB_eight a, bitsMSB_eight b]
    simp only [List.cons_append, List.nil_append, List.append_nil, rfc4648Chars, sextetsOf,
      List.map_cons, List.map_nil, ofBitsMSB, List.foldl_cons, List.foldl_nil]
    refine congrArg₂ _ (congrArg _ ?_) (congrArg₂ _ (congrArg _ ?_)
      (congrArg₂ _ (congrArg _ ?_) rfl))
    all_goals omega
  | case3 a =>
    have ha := h a (by simp)
    rw [List.flatMap_cons, List.flatMap_nil, bitsMSB_eight a]
    simp only [List.cons_append, List.nil_append, List.append_nil, rfc4648Chars, sextetsOf,
      List.map_cons, List.map_nil, ofBitsMSB, List.foldl_cons, List.foldl_nil]
    refine congrArg₂ _ (congrArg _ ?_) (congrArg₂ _ (congrArg _ ?_) rfl)
    all_goals omega
  | case4 => rfl

theorem padOf_eq (bs : List Nat) :
    padOf bs = List.replicate ((4 - (sextetsOf bs).length % 4) % 4) 61 := by
  induction bs using sextetsOf.induct with
  | case1 a b c rest ih =>
    simp only [padOf, sextetsOf, List.length_cons, ih]
    congr 1
    omega
  | case2 a b => rfl
  | case3 a => rfl
  | case4 => rfl

theorem base64Encode_eq_rfc4648 (bs : List Nat) (h : IsBytes bs) :
    base64Encode bs = rfc4648Encode bs := by
  unfold rfc4648Encode
  simp only [rfc4648Chars_eq bs h, List.length_map]
  rw [base64Encode_eq, padOf_eq]

/-! ## UTF-8: decoding inverts encoding on well-formed strings -/

theorem utf8DecodeFrom_cons (st : Utf8State) (b : Nat) (bs : List Nat) :
    utf8DecodeFrom st (b :: bs) = (utf8Step st b).2 ++ utf8DecodeFrom (utf8Step st b).1 bs := rfl

theorem utf8Step_init (b : Nat) : utf8Step Utf8State.init b = utf8Start b := by
  simp [utf8Step, Utf8State.init]

theorem utf8Start_one (b : Nat) (h : b ≤ 0x7F) : utf8Start b = (Utf8State.init, [b]) := by
  unfold utf8Start; rw [if_pos h]

theorem utf8Start_two (b : Nat) (h : 0xC2 ≤ b ∧ b ≤ 0xDF) :
    utf8Start b = ({ Utf8State.init with bytesNeeded := 1, codePoint := b % 32 }, []) := by
  unfold utf8Start; rw [if_neg (by omega), if_pos h]

theorem utf8Start_three (b : Nat) (h : 0xE0 ≤ b ∧ b ≤ 0xEF) :
    utf8Start b = ({ Utf8State.init with
        bytesNeeded := 2, codePoint := b % 16,
        lower := if b = 0xE0 then 0xA0 else 0x80,
        upper := if b = 0xED then 0x9F else 0xBF }, []) := by
  unfold utf8Start; rw [if_neg (by omega), if_neg (by omega), if_pos h]

theorem utf8Start_four (b : Nat) (h : 0xF0 ≤ b ∧ b ≤ 0xF4) :
    utf8Start b = ({ Utf8State.init with
        bytesNeeded := 3, codePoint := b % 8,
        lower := if b = 0xF0 then 0x90 else 0x80,
        upper := if b = 0xF4 then 0x8F else 0xBF }, []) := by
  unfold utf8Start; rw [if_neg (by omega), if_neg (by omega), if_neg (by omega), if_pos h]

theorem utf8Step_more (st : Utf8State) (b : Nat) (hn : st.bytesNeeded ≠ 0)
    (hr : st.lower ≤ b ∧ b ≤ st.upper) (hm : st.bytesSeen + 1 ≠ st.bytesNeeded) :
    utf8Step st b =
      ({ st with
          lower := 0x80
          upper := 0xBF
          codePoint := st.codePoint * 64 + b % 64
          bytesSeen := st.bytesSeen + 1 }, []) := by
  unfold utf8Step; rw [if_neg hn, if_neg (by omega)]; simp only; rw [if_pos hm]

theorem utf8Step_last (st : Utf8State) (b : Nat) (hn : st.bytesNeeded ≠ 0)
    (hr : st.lower ≤ b ∧ b ≤ st.upper) (hm : st.bytesSeen + 1 = st.bytesNeeded) :
    utf8Step st b = (Utf8State.init, [st.codePoint * 64 + b % 64]) := by
  unfold utf8Step; rw [if_neg hn, if_neg (by omega)]; simp only; rw [if_neg (by simpa using hm)]

theorem utf8DecodeFrom_encodeScalar (c : Nat) (hc : IsScalar c) (rest : List Nat) :
    utf8DecodeFrom Utf8State.init (utf8EncodeScalar c ++ rest)
      = c :: utf8DecodeFrom Utf8State.init rest := by
  obtain ⟨h1, h2⟩ := hc
  unfold utf8EncodeScalar
  split_ifs with a1 a2 a3
  · rw [List.singleton_append, utf8DecodeFrom_cons, utf8Step_init, utf8Start_one c (by omega)]
    rfl
  · simp only [List.cons_append, List.nil_append]
    rw [utf8DecodeFrom_cons, utf8Step_init, utf8Start_two _ (by omega)]
    simp only [List.nil_append]
    rw [utf8DecodeFrom_cons, utf8Step_last _ _ (by simp) (by simp [Utf8State.init]; omega) (by simp [Utf8State.init])]
    simp only [List.singleton_append, List.cons.injEq, and_true]
    omega
  · simp only [List.cons_append, List.nil_append]
    rw [utf8DecodeFrom_cons, utf8Step_init, utf8Start_three _ (by omega)]
    simp only [List.nil_append]
    rw [utf8DecodeFrom_cons, utf8Step_more _ _ (by simp) (by simp [Utf8State.init]; split_ifs <;> omega) (by simp [Utf8State.init])]
    simp only [List.nil_append]
    rw [utf8DecodeFrom_cons, utf8Step_last _ _ (by simp) (by simp; omega) (by simp [Utf8State.init])]
    simp only [List.singleton_append, List.cons.injEq, and_true]
    omega
  · simp only [List.cons_append, List.nil_append]
    rw [utf8DecodeFrom_cons, utf8Step_init, utf8Start_four _ (by omega)]
    simp only [List.nil_append]
    rw [utf8DecodeFrom_cons, utf8Step_more _ _ (by simp) (by simp [Utf8State.init]; split_ifs <;> omega) (by simp [Utf8State.init])]
    simp only [List.nil_append]
    rw [utf8DecodeFrom_cons, utf8Step_more _ _ (by simp) (by simp; omega) (by simp [Utf8State.init])]
    simp only [List.nil_append]
    rw [utf8DecodeFrom_cons, utf8Step_last _ _ (by simp) (by simp; omega) (by simp [Utf8State.init])]
    simp only [List.singleton_append, List.cons.injEq, and_true]
    omega

theorem utf8DecodeFrom_flatMap (cs : List Nat) (h : ∀ c ∈ cs, IsScalar c) :
    utf8DecodeFrom Utf8State.init (cs.flatMap utf8EncodeScalar) = cs := by
  induction cs with
  | nil => rfl
  | cons c cs ih =>
    rw [List.flatMap_cons, utf8DecodeFrom_encodeScalar c (h c (by simp)),
      ih (fun x hx => h x (by simp [hx]))]


theorem toScalars_isScalar (s : List Nat) (hs : IsUnits s) : ∀ c ∈ toScalars s, IsScalar c := by
  induction s using toScalars.induct with
  | case1 => intro c hc; simp [toScalars] at hc
  | case2 u hu =>
    intro c hc
    simp only [toScalars, hu, if_true, List.mem_singleton] at hc
    subst hc; unfold IsScalar; omega
  | case3 u hu =>
    intro c hc
    have h := hs u (by simp)
    simp only [toScalars, hu, List.mem_singleton] at hc
    simp only [Bool.false_eq_true, if_false, List.mem_singleton] at hc
    subst hc
    simp only [isHighSurrogate, isLowSurrogate, Bool.or_eq_true, decide_eq_true_eq, not_or] at hu
    unfold IsScalar; omega
  | case4 u v rest hu hv ih =>
    intro c hc
    have h1 := hs u (by simp)
    have h2 := hs v (by simp)
    simp only [toScalars, hu, hv, if_true, List.mem_cons] at hc
    simp only [isHighSurrogate, isLowSurrogate, decide_eq_true_eq] at hu hv
    rcases hc with hc | hc
    · rw [hc]; unfold IsScalar; omega
    · exact ih (fun x hx => hs x (by simp [hx])) c hc
  | case5 u v rest hu hv ih =>
    intro c hc
    simp only [toScalars, hu, hv, if_true, List.mem_cons] at hc
    simp only [Bool.false_eq_true, if_false, List.mem_cons] at hc
    rcases hc with hc | hc
    · rw [hc]; unfold IsScalar; omega
    · exact ih (fun x hx => hs x (by simp at hx ⊢; tauto)) c (by simpa using hc)
  | case6 u v rest hu hv ih =>
    intro c hc
    simp only [toScalars, hu, hv, if_true, List.mem_cons] at hc
    simp only [Bool.false_eq_true, if_false, List.mem_cons] at hc
    rcases hc with hc | hc
    · rw [hc]; unfold IsScalar; omega
    · exact ih (fun x hx => hs x (by simp at hx ⊢; tauto)) c (by simpa using hc)
  | case7 u v rest hu hv ih =>
    intro c hc
    have h1 := hs u (by simp)
    simp only [toScalars, hu, hv, List.mem_cons] at hc
    simp only [Bool.false_eq_true, if_false, List.mem_cons] at hc
    simp only [isHighSurrogate, isLowSurrogate, decide_eq_true_eq, Bool.not_eq_true, decide_eq_false_iff_not] at hu hv
    rcases hc with hc | hc
    · rw [hc]; unfold IsScalar; omega
    · exact ih (fun x hx => hs x (by simp at hx ⊢; tauto)) c (by simpa using hc)

theorem utf16Units_toScalars (s : List Nat) (hs : IsUnits s) (hw : isWellFormed s = true) :
    (toScalars s).flatMap utf16Units = s := by
  induction s using toScalars.induct with
  | case1 => rfl
  | case2 u hu => simp [isWellFormed, hu] at hw
  | case3 u hu =>
    have h := hs u (by simp)
    simp only [toScalars, hu, Bool.false_eq_true, if_false, List.flatMap_cons, List.flatMap_nil,
      List.append_nil]
    unfold utf16Units; rw [if_pos h]
  | case4 u v rest hu hv ih =>
    have hr : IsUnits rest := fun x hx => hs x (by simp [hx])
    have hwr : isWellFormed rest = true := by simpa [isWellFormed, hu, hv] using hw
    simp only [toScalars, hu, hv, if_true, List.flatMap_cons, ih hr hwr]
    simp only [isHighSurrogate, isLowSurrogate, decide_eq_true_eq] at hu hv
    unfold utf16Units; rw [if_neg (by omega)]
    simp only [List.cons_append, List.nil_append, List.cons.injEq, and_true]
    constructor <;> omega
  | case5 u v rest hu hv ih => simp [isWellFormed, hu, hv] at hw
  | case6 u v rest hu hv ih => simp [isWellFormed, hu, hv] at hw
  | case7 u v rest hu hv ih =>
    have h := hs u (by simp)
    have hr : IsUnits (v :: rest) := fun x hx => hs x (by simp at hx ⊢; tauto)
    have hwr : isWellFormed (v :: rest) = true := by simpa [isWellFormed, hu, hv] using hw
    simp only [toScalars, hu, hv, Bool.false_eq_true, if_false, List.flatMap_cons, ih hr hwr]
    unfold utf16Units; rw [if_pos h]; rfl

theorem dropBOM_toScalars (s : List Nat) (hw : isWellFormed s = true)
    (hb : s.head? ≠ some 0xFEFF) : dropBOM (toScalars s) = toScalars s := by
  match s, hw, hb with
  | [], _, _ => rfl
  | [u], hw, hb =>
    have hu : (isHighSurrogate u || isLowSurrogate u) = false := by simpa [isWellFormed] using hw
    have hne : u ≠ 0xFEFF := by simpa using hb
    simp [toScalars, hu, dropBOM, hne]
  | u :: v :: rest, hw, hb =>
    have hne : u ≠ 0xFEFF := by simpa using hb
    by_cases hu : isHighSurrogate u = true
    · have hv : isLowSurrogate v = true := by
        simp only [isWellFormed, hu, if_true, Bool.and_eq_true] at hw
        exact hw.1
      simp only [toScalars, hu, hv, if_true, dropBOM]
      simp only [isHighSurrogate, isLowSurrogate, decide_eq_true_eq] at hu hv
      rw [if_neg (by omega)]
    · have hl : isLowSurrogate u = false := by
        simp only [isWellFormed, hu, Bool.false_eq_true, if_false, Bool.and_eq_true,
          Bool.not_eq_true'] at hw
        exact hw.1
      simp only [toScalars, hu, hl, Bool.false_eq_true, if_false, dropBOM]
      rw [if_neg hne]

theorem textDecode_textEncode (s : JSString) (hs : IsUnits s) (hw : isWellFormed s = true)
    (hb : s.head? ≠ some 0xFEFF) : textDecode (textEncode s) = s := by
  unfold textDecode textEncode
  rw [utf8DecodeFrom_flatMap _ (toScalars_isScalar s hs), dropBOM_toScalars s hw hb,
    utf16Units_toScalars s hs hw]

/-! ## `CryptoManager`: round trip (C1) -/

theorem toyProvider_inverts : ProviderInverts toyProvider := by
  intro k iv data ct h
  simp only [toyProvider, Except.ok.injEq] at h
  subst h
  simp [toyProvider]

theorem encrypt_ok_inv {Key : Type} (P : Provider Key) (rnd : Nat → Nat) (m : CryptoManager Key)
    (data : Plain) (w : Platform) (env : Envelope) (w1 : Platform)
    (h : m.encrypt P rnd data w = (Except.ok env, w1)) :
    m.keyGenerated = true ∧ ∃ k, m.key = some k ∧
      env.iv = (getRandomValues rnd 12 w).1 ∧
      P.encrypt k env.iv data.dataBuffer = Except.ok env.encrypted := by
  unfold CryptoManager.encrypt at h
  by_cases hk : m.keyGenerated = true
  · refine ⟨hk, ?_⟩
    simp only [hk, Bool.not_true, Bool.false_eq_true, if_false, subtleCall] at h
    cases hkey : m.key with
    | none => simp [hkey] at h
    | some k =>
      refine ⟨k, rfl, ?_⟩
      simp only [hkey] at h
      cases hp : P.encrypt k (getRandomValues rnd 12 w).1 data.dataBuffer with
      | error e => simp [hp] at h
      | ok ct =>
        simp only [hp, Prod.mk.injEq, Except.ok.injEq] at h
        obtain ⟨h1, _⟩ := h
        subst h1
        exact ⟨rfl, hp⟩
  · simp [hk] at h

/-- C1 (as amended): under a provider whose decryption inverts its encryption,
decrypting the envelope that `encrypt(p)` returned gives back `p`, for every
string `p` that is well formed (no lone surrogate) and does not begin with
U+FEFF. -/
theorem decrypt_encrypt_roundTrip {Key : Type} (P : Provider Key) (rnd : Nat → Nat)
    (m : CryptoManager Key) (p : JSString) (w w1 w2 : Platform) (env : Envelope)
    (hP : ProviderInverts P) (hu : IsUnits p) (hw : isWellFormed p = true)
    (hb : p.head? ≠ some 0xFEFF)
    (he : m.encrypt P rnd (Plain.text p) w = (Except.ok env, w1)) :
    (m.decrypt P env.encrypted env.iv w2).1 = Except.ok p := by
  obtain ⟨hg, k, hk, _, hp⟩ := encrypt_ok_inv P rnd m _ w env w1 he
  have hd := hP k env.iv _ _ hp
  unfold CryptoManager.decrypt
  simp [hg, subtleCall, hk, hd, Plain.dataBuffer, textDecode_textEncode p hu hw hb]

theorem decrypt_encrypt_roundTrip_witness :
    (CryptoManager.decrypt toyProvider { key := some 7, keyGenerated := true }
      [104, 195, 169, 73] [0, 1, 2, 3, 4, 5, 6, 7, 8, 9, 10, 11]
      { drawn := 12, subtleCalls := ["encrypt"] }).1 = Except.ok [104, 233] :=
  decrypt_encrypt_roundTrip toyProvider (fun i => i) { key := some 7, keyGenerated := true }
    [104, 233] { drawn := 0, subtleCalls := [] } { drawn := 12, subtleCalls := ["encrypt"] }
    { drawn := 12, subtleCalls := ["encrypt"] }
    { encrypted := [104, 195, 169, 73], iv := [0, 1, 2, 3, 4, 5, 6, 7, 8, 9, 10, 11] }
    toyProvider_inverts (by decide) (by decide) (by decide) rfl

/-- C1 (as stated) fails: under the toy provider, whose decryption inverts its
encryption, the string made of the lone surrogate U+D800 is encrypted to an
envelope that decrypts to U+FFFD, and the string U+FEFF `a` to one that
decrypts to `a`. -/
theorem roundTrip_fails_on_lone_surrogate_and_BOM :
    ProviderInverts toyProvider ∧
    (CryptoManager.encrypt toyProvider (fun i => i) { key := some 7, keyGenerated := true }
        (Plain.text [0xD800]) { drawn := 0, subtleCalls := [] }).1
      = Except.ok { encrypted := [239, 191, 189, 73], iv := [0, 1, 2, 3, 4, 5, 6, 7, 8, 9, 10, 11] } ∧
    (CryptoManager.decrypt toyProvider { key := some 7, keyGenerated := true }
        [239, 191, 189, 73] [0, 1, 2, 3, 4, 5, 6, 7, 8, 9, 10, 11]
        { drawn := 12, subtleCalls := ["encrypt"] }).1 = Except.ok [0xFFFD] ∧
    (Except.ok [0xFFFD] : Except CryptoError JSString) ≠ Except.ok [0xD800] ∧
    (CryptoManager.encrypt toyProvider (fun i => i) { key := some 7, keyGenerated := true }
        (Plain.text [0xFEFF, 97]) { drawn := 0, subtleCalls := [] }).1
      = Except.ok { encrypted := [239, 187, 191, 97, 73], iv := [0, 1, 2, 3, 4, 5, 6, 7, 8, 9, 10, 11] } ∧
    (CryptoManager.decrypt toyProvider { key := some 7, keyGenerated := true }
        [239, 187, 191, 97, 73] [0, 1, 2, 3, 4, 5, 6, 7, 8, 9, 10, 11]
        { drawn := 12, subtleCalls := ["encrypt"] }).1 = Except.ok [97] ∧
    (Except.ok [97] : Except CryptoError JSString) ≠ Except.ok [0xFEFF, 97] :=
  ⟨toyProvider_inverts, rfl, rfl, by simp, rfl, rfl, by simp⟩

/-! ### Wire framing (C2, C3) -/

theorem isBytes_append (xs ys : List Nat) (hx : IsBytes xs) (hy : IsBytes ys) :
    IsBytes (xs ++ ys) := by
  intro b hb
  rcases List.mem_append.1 hb with h | h
  · exact hx b h
  · exact hy b h

theorem typedArraySet_alloc (iv encrypted : Bytes) :
    (typedArraySet (allocUint8Array (iv.length + encrypted.length)) iv 0).bind
      (fun c => typedArraySet c encrypted iv.length) = some (iv ++ encrypted) := by
  simp [typedArraySet, allocUint8Array]

theorem serializeEncrypted_eq (maxArguments : Nat) (encrypted iv : Bytes)
    (he : IsBytes encrypted) (hi : IsBytes iv)
    (hfit : iv.length + encrypted.length ≤ maxArguments) :
    serializeEncrypted maxArguments encrypted iv = some (base64Encode (iv ++ encrypted)) := by
  have hb : IsBytes (iv ++ encrypted) := by
    intro b hb
    rcases List.mem_append.1 hb with h | h
    · exact hi b h
    · exact he b h
  have hlen : (iv ++ encrypted).length ≤ maxArguments := by
    rw [List.length_append]
    exact hfit
  have hmap : fromCharCode maxArguments (iv ++ encrypted) = some (iv ++ encrypted) := by
    unfold fromCharCode
    rw [if_pos hlen]
    congr 1
    conv_rhs => rw [← List.map_id (iv ++ encrypted)]
    apply List.map_congr_left
    intro b hb'
    have := hb b hb'
    simp only [id]
    omega
  have hall : (iv ++ encrypted).all (fun c => decide (c ≤ 255)) = true := by
    rw [List.all_eq_true]
    intro b hb'
    have := hb b hb'
    simp only [decide_eq_true_eq]
    omega
  have hset := typedArraySet_alloc iv encrypted
  unfold serializeEncrypted
  simp only [Option.bind_eq_bind] at hset ⊢
  cases h1 : typedArraySet (allocUint8Array (iv.length + encrypted.length)) iv 0 with
  | none => simp [h1] at hset
  | some c1 =>
    simp only [h1, Option.some_bind] at hset ⊢
    simp only [hset, Option.some_bind, hmap, btoa, hall, if_true]

theorem serializeEncrypted_throws (maxArguments : Nat) (encrypted iv : Bytes)
    (h : maxArguments < iv.length + encrypted.length) :
    serializeEncrypted maxArguments encrypted iv = none := by
  have hlen : ¬ (iv ++ encrypted).length ≤ maxArguments := by
    rw [List.length_append]
    omega
  have hmap : fromCharCode maxArguments (iv ++ encrypted) = none := by
    unfold fromCharCode
    rw [if_neg hlen]
  have hset := typedArraySet_alloc iv encrypted
  unfold serializeEncrypted
  simp only [Option.bind_eq_bind] at hset ⊢
  cases h1 : typedArraySet (allocUint8Array (iv.length + encrypted.length)) iv 0 with
  | none => simp [h1] at hset
  | some c1 =>
    simp only [h1, Option.some_bind] at hset ⊢
    simp only [hset, Option.some_bind, hmap, Option.none_bind]

theorem isBytes_replicate_zero (n : Nat) : IsBytes (List.replicate n 0) := by
  intro b hb
  rw [List.eq_of_mem_replicate hb]
  decide

theorem b64Value_lt (c v : Nat) (h : b64Value c = some v) : v < 64 := by
  unfold b64Value at h
  split_ifs at h <;> simp at h <;> omega

theorem sextets_lt (s vs : List Nat) (h : sextets s = some vs) : ∀ v ∈ vs, v < 64 := by
  induction s generalizing vs with
  | nil => simp [sextets] at h; subst h; simp
  | cons c cs ih =>
    unfold sextets at h
    cases hc : b64Value c with
    | none => simp [hc] at h
    | some v =>
      cases hcs : sextets cs with
      | none => simp [hc, hcs] at h
      | some vs' =>
        simp only [hc, hcs, Option.some.injEq] at h
        subst h
        intro x hx
        rcases List.mem_cons.1 hx with rfl | hx
        · exact b64Value_lt c x hc
        · exact ih vs' hcs x hx

theorem decodeSextets_isBytes (vs : List Nat) (h : ∀ v ∈ vs, v < 64) :
    IsBytes (decodeSextets vs) := by
  induction vs using decodeSextets.induct with
  | case1 a b c d rest ih =>
    have ha := h a (by simp)
    have hb := h b (by simp)
    have hc := h c (by simp)
    have hd := h d (by simp)
    intro x hx
    simp only [decodeSextets, List.mem_cons] at hx
    rcases hx with hx | hx | hx | hx
    · omega
    · omega
    · omega
    · exact ih (fun y hy => h y (by simp [hy])) x hx
  | case2 a b c =>
    have ha := h a (by simp)
    have hb := h b (by simp)
    have hc := h c (by simp)
    intro x hx
    simp only [decodeSextets, List.mem_cons, List.mem_singleton, List.not_mem_nil, or_false] at hx
    rcases hx with hx | hx <;> omega
  | case3 a b =>
    have ha := h a (by simp)
    have hb := h b (by simp)
    intro x hx
    simp only [decodeSextets, List.mem_singleton] at hx
    omega
  | case4 a => intro x hx; simp [decodeSextets] at hx
  | case5 => intro x hx; simp [decodeSextets] at hx

theorem atob_isBytes (s bytes : List Nat) (h : atob s = some bytes) : IsBytes bytes := by
  unfold atob at h
  simp only at h
  split_ifs at h
  cases hs : sextets (stripPadding (s.filter (fun c => !isAsciiWhitespace c))) with
  | none => simp [hs] at h
  | some vs =>
    simp only [hs, Option.map_some', Option.some.injEq] at h
    subst h
    exact decodeSextets_isBytes vs (sextets_lt _ vs hs)

theorem newUint8Array_of_isBytes (bytes : List Nat) (h : IsBytes bytes) :
    newUint8Array bytes = bytes := by
  unfold newUint8Array
  conv_rhs => rw [← List.map_id bytes]
  apply List.map_congr_left
  intro b hb
  have := h b hb
  simp only [id]
  omega

theorem deserializeEncrypted_of_atob (s bytes : List Nat) (h : atob s = some bytes) :
    deserializeEncrypted s = some { encrypted := bytes.drop 12, iv := bytes.take 12 } := by
  unfold deserializeEncrypted
  simp [h, newUint8Array_of_isBytes bytes (atob_isBytes s bytes h)]

/-- C2 fails on a long ciphertext: on an engine that accepts 65 536 arguments in
one call, `serializeEncrypted` of a ciphertext of 130 000 bytes and a 12-byte
nonce throws where its documentation has it return the serialized data, so that
there is no string to deserialize; and on every engine it throws for a
ciphertext as long as the number of arguments the engine accepts. -/
theorem serializeEncrypted_throws_on_long_ciphertext :
    IsBytes (List.replicate 130000 0) ∧
    serializeEncrypted 65536 (List.replicate 130000 0) [0, 1, 2, 3, 4, 5, 6, 7, 8, 9, 10, 11]
      = none ∧
    ∀ maxArguments : Nat,
      serializeEncrypted maxArguments (List.replicate maxArguments 0)
        [0, 1, 2, 3, 4, 5, 6, 7, 8, 9, 10, 11] = none := by
  refine ⟨isBytes_replicate_zero _, ?_, ?_⟩
  · apply serializeEncrypted_throws
    rw [List.length_replicate]
    decide
  · intro maxArguments
    apply serializeEncrypted_throws
    rw [List.length_replicate]
    simp

/-- The round trip of the wire framing, where the spread of `serializeEncrypted`
is within what the engine accepts: for a 12-byte nonce `iv` and a ciphertext
`encrypted` that together have no more bytes than the engine accepts arguments
in one call, `serializeEncrypted(encrypted, iv)` returns a string and
`deserializeEncrypted` of that string is exactly `{ encrypted, iv }`; with more
bytes `serializeEncrypted` throws. -/
theorem deserialize_serialize (maxArguments : Nat) (encrypted iv : Bytes)
    (he : IsBytes encrypted) (hi : IsBytes iv) (hlen : iv.length = 12) :
    (12 + encrypted.length ≤ maxArguments →
      ∃ s, serializeEncrypted maxArguments encrypted iv = some s ∧
        deserializeEncrypted s = some { encrypted := encrypted, iv := iv }) ∧
    (maxArguments < 12 + encrypted.length →
      serializeEncrypted maxArguments encrypted iv = none) := by
  constructor
  · intro hfit
    refine ⟨base64Encode (iv ++ encrypted),
      serializeEncrypted_eq maxArguments encrypted iv he hi (by omega), ?_⟩
    have hb : IsBytes (iv ++ encrypted) := isBytes_append iv encrypted hi he
    rw [deserializeEncrypted_of_atob _ _ (atob_base64Encode _ hb)]
    simp [← hlen]
  · intro hover
    exact serializeEncrypted_throws maxArguments encrypted iv (by omega)

theorem deserialize_serialize_witness :
    (∃ s, serializeEncrypted 65536 [1, 2, 3, 250] [0, 1, 2, 3, 4, 5, 6, 7, 8, 9, 10, 255]
        = some s ∧
      deserializeEncrypted s
        = some { encrypted := [1, 2, 3, 250], iv := [0, 1, 2, 3, 4, 5, 6, 7, 8, 9, 10, 255] }) ∧
    serializeEncrypted 15 [1, 2, 3, 250] [0, 1, 2, 3, 4, 5, 6, 7, 8, 9, 10, 255] = none :=
  ⟨(deserialize_serialize 65536 [1, 2, 3, 250] [0, 1, 2, 3, 4, 5, 6, 7, 8, 9, 10, 255]
      (by decide) (by decide) (by decide)).1 (by decide),
   (deserialize_serialize 15 [1, 2, 3, 250] [0, 1, 2, 3, 4, 5, 6, 7, 8, 9, 10, 255]
      (by decide) (by decide) (by decide)).2 (by decide)⟩

/-- The test vectors of RFC 4648 section 10. -/
theorem rfc4648Encode_vectors :
    rfc4648Encode [] = jsLit "" ∧
    rfc4648Encode (jsLit "f") = jsLit "Zg==" ∧
    rfc4648Encode (jsLit "fo") = jsLit "Zm8=" ∧
    rfc4648Encode (jsLit "foo") = jsLit "Zm9v" ∧
    rfc4648Encode (jsLit "foob") = jsLit "Zm9vYg==" ∧
    rfc4648Encode (jsLit "fooba") = jsLit "Zm9vYmE=" ∧
    rfc4648Encode (jsLit "foobar") = jsLit "Zm9vYmFy" := by
  decide

/-- C3 fails on a long ciphertext: on an engine that accepts 65 536 arguments in
one call, `serializeEncrypted` of a ciphertext of 130 000 bytes and a 12-byte
nonce is not the base64 encoding of the nonce followed by the ciphertext: it
throws. -/
theorem serializeEncrypted_no_encoding_of_long_ciphertext :
    IsBytes (List.replicate 130000 0) ∧
    serializeEncrypted 65536 (List.replicate 130000 0) [0, 0, 0, 0, 0, 0, 0, 0, 0, 0, 0, 255]
      ≠ some (rfc4648Encode ([0, 0, 0, 0, 0, 0, 0, 0, 0, 0, 0, 255] ++ List.replicate 130000 0)) := by
  refine ⟨isBytes_replicate_zero _, ?_⟩
  rw [serializeEncrypted_throws 65536 _ _ (by rw [List.length_replicate]; decide)]
  intro h
  injection h

/-- The serialized form, where the spread of `serializeEncrypted` is within what
the engine accepts: for a nonce `iv` and a ciphertext `encrypted` that
together have no more bytes than the engine accepts arguments in one call,
`serializeEncrypted(encrypted, iv)` is the standard base64 encoding (RFC 4648)
of the bytes of `iv` followed by those of `encrypted`, and with more bytes it
throws; and for a string that `atob` decodes to at least 12 bytes,
`deserializeEncrypted` returns the first 12 decoded bytes as `iv` and all the
remaining ones as `encrypted`. -/
theorem serialized_form_nonce_first :
    (∀ (maxArguments : Nat) (encrypted iv : Bytes), IsBytes encrypted → IsBytes iv →
      iv.length + encrypted.length ≤ maxArguments →
      serializeEncrypted maxArguments encrypted iv = some (rfc4648Encode (iv ++ encrypted))) ∧
    (∀ (maxArguments : Nat) (encrypted iv : Bytes),
      maxArguments < iv.length + encrypted.length →
      serializeEncrypted maxArguments encrypted iv = none) ∧
    (∀ s bytes : List Nat, atob s = some bytes → 12 ≤ bytes.length →
      deserializeEncrypted s = some { encrypted := bytes.drop 12, iv := bytes.take 12 }) := by
  refine ⟨?_, ?_, ?_⟩
  · intro maxArguments encrypted iv he hi hfit
    rw [serializeEncrypted_eq maxArguments encrypted iv he hi hfit,
      base64Encode_eq_rfc4648 _ (isBytes_append iv encrypted hi he)]
  · intro maxArguments encrypted iv hover
    exact serializeEncrypted_throws maxArguments encrypted iv hover
  · intro s bytes h _
    exact deserializeEncrypted_of_atob s bytes h

theorem serialized_form_nonce_first_witness :
    serializeEncrypted 65536 [1, 2, 3] [0, 0, 0, 0, 0, 0, 0, 0, 0, 0, 0, 255]
      = some (rfc4648Encode ([0, 0, 0, 0, 0, 0, 0, 0, 0, 0, 0, 255] ++ [1, 2, 3])) ∧
    serializeEncrypted 14 [1, 2, 3] [0, 0, 0, 0, 0, 0, 0, 0, 0, 0, 0, 255] = none ∧
    deserializeEncrypted (jsLit "AAAAAAAAAAAAAAD/AQID")
      = some { encrypted := List.drop 12 [0, 0, 0, 0, 0, 0, 0, 0, 0, 0, 0, 255, 1, 2, 3],
               iv := List.take 12 [0, 0, 0, 0, 0, 0, 0, 0, 0, 0, 0, 255, 1, 2, 3] } :=
  ⟨serialized_form_nonce_first.1 65536 [1, 2, 3] [0, 0, 0, 0, 0, 0, 0, 0, 0, 0, 0, 255]
      (by decide) (by decide) (by decide),
   serialized_form_nonce_first.2.1 14 [1, 2, 3] [0, 0, 0, 0, 0, 0, 0, 0, 0, 0, 0, 255]
      (by decide),
   serialized_form_nonce_first.2.2 (jsLit "AAAAAAAAAAAAAAD/AQID")
      [0, 0, 0, 0, 0, 0, 0, 0, 0, 0, 0, 255, 1, 2, 3] (by decide) (by decide)⟩

/-! ### Decrypt boundary and key lifecycle (C4, C5) -/

/-- C4: once a key has been generated, `decrypt` never raises, whatever the
ciphertext and the nonce: it returns the UTF-8 decoding of the provider's
plaintext when the provider succeeds, and the placeholder
`'[Message non déchiffrable]'` whenever the provider's decryption fails. -/
theorem decrypt_never_raises {Key : Type} (P : Provider Key) (m : CryptoManager Key)
    (encryptedData iv : Bytes) (w : Platform) (hg : m.keyGenerated = true) :
    ∃ s, (m.decrypt P encryptedData iv w).1 = Except.ok s ∧
      (∀ k plain, m.key = some k → P.decrypt k iv encryptedData = Except.ok plain →
        s = textDecode plain) ∧
      (∀ k e, m.key = some k → P.decrypt k iv encryptedData = Except.error e →
        s = undecryptable) ∧
      (m.key = none → s = undecryptable) := by
  unfold CryptoManager.decrypt
  simp only [hg, Bool.not_true, Bool.false_eq_true, if_false, subtleCall]
  cases hk : m.key with
  | none => exact ⟨undecryptable, rfl, by simp, by simp, fun _ => rfl⟩
  | some k =>
    cases hp : P.decrypt k iv encryptedData with
    | ok plain =>
      refine ⟨textDecode plain, by simp [hp], ?_, ?_, by simp⟩
      · intro k' plain' hk' hp'
        simp only [Option.some.injEq] at hk'
        subst hk'
        rw [hp] at hp'
        simp only [Except.ok.injEq] at hp'
        rw [hp']
      · intro k' e hk' hp'
        simp only [Option.some.injEq] at hk'
        subst hk'
        rw [hp] at hp'
        simp at hp'
    | error e =>
      refine ⟨undecryptable, by simp [hp], ?_, fun _ _ _ _ => rfl, by simp⟩
      intro k' plain' hk' hp'
      simp only [Option.some.injEq] at hk'
      subst hk'
      rw [hp] at hp'
      simp at hp'

theorem decrypt_never_raises_witness :
    ∃ s, (CryptoManager.decrypt toyProvider { key := some 7, keyGenerated := true }
        [104, 105, 0] [0, 1, 2, 3, 4, 5, 6, 7, 8, 9, 10, 11]
        { drawn := 0, subtleCalls := [] }).1 = Except.ok s ∧
      (∀ k plain, (some 7 : Option Nat) = some k →
        toyProvider.decrypt k [0, 1, 2, 3, 4, 5, 6, 7, 8, 9, 10, 11] [104, 105, 0]
          = Except.ok plain → s = textDecode plain) ∧
      (∀ k e, (some 7 : Option Nat) = some k →
        toyProvider.decrypt k [0, 1, 2, 3, 4, 5, 6, 7, 8, 9, 10, 11] [104, 105, 0]
          = Except.error e → s = undecryptable) ∧
      ((some 7 : Option Nat) = none → s = undecryptable) :=
  decrypt_never_raises toyProvider { key := some 7, keyGenerated := true }
    [104, 105, 0] [0, 1, 2, 3, 4, 5, 6, 7, 8, 9, 10, 11] { drawn := 0, subtleCalls := [] } rfl

theorem run_append {Key : Type} (m : CryptoManager Key) (ops : List (KeyOp Key)) (op : KeyOp Key) :
    m.run (ops ++ [op]) = (m.run ops).apply op := by
  simp [CryptoManager.run, List.foldl_append]

theorem keySinceReset_append {Key : Type} (ops : List (KeyOp Key)) (op : KeyOp Key) :
    keySinceReset (ops ++ [op]) =
      (match op with
        | KeyOp.cleanup => false
        | KeyOp.generateKey (some _) => true
        | KeyOp.generateKey none => keySinceReset ops) := by
  unfold keySinceReset
  rw [List.reverse_append]
  cases op with
  | cleanup => simp [KeyOp.isCleanup]
  | generateKey outcome =>
    cases outcome with
    | none => simp [KeyOp.isCleanup, KeyOp.isSuccess, List.takeWhile]
    | some k => simp [KeyOp.isCleanup, KeyOp.isSuccess, List.takeWhile]

theorem keyGenerated_run {Key : Type} (ops : List (KeyOp Key)) :
    ((CryptoManager.new : CryptoManager Key).run ops).keyGenerated = keySinceReset ops := by
  induction ops using List.reverseRecOn with
  | nil => rfl
  | append_singleton ops op ih =>
    rw [run_append, keySinceReset_append]
    cases op with
    | cleanup => rfl
    | generateKey outcome =>
      cases outcome with
      | none => simpa [CryptoManager.apply, CryptoManager.generateKey] using ih
      | some k => rfl

/-- C5: after any sequence of `generateKey` and `cleanup` calls on a new
`CryptoManager`, `encrypt` and `decrypt` fail with the 'key not generated'
error exactly when no `generateKey` has succeeded since construction or since
the most recent `cleanup`; they then leave the platform as it was (no byte
drawn from the random source, no provider call); and `cleanup` always leaves
`key = null` and `keyGenerated = false`. -/
theorem notReady_iff_no_key_since_reset {Key : Type} (P : Provider Key) (rnd : Nat → Nat)
    (ops : List (KeyOp Key)) (data : Plain) (encryptedData iv : Bytes) (w : Platform)
    (m0 : CryptoManager Key) :
    (((CryptoManager.new.run ops).encrypt P rnd data w).1
        = Except.error CryptoError.keyNotGenerated ↔ keySinceReset ops = false) ∧
    (((CryptoManager.new.run ops).decrypt P encryptedData iv w).1
        = Except.error CryptoError.keyNotGenerated ↔ keySinceReset ops = false) ∧
    (keySinceReset ops = false →
      (CryptoManager.new.run ops).encrypt P rnd data w
          = (Except.error CryptoError.keyNotGenerated, w) ∧
      (CryptoManager.new.run ops).decrypt P encryptedData iv w
          = (Except.error CryptoError.keyNotGenerated, w)) ∧
    (m0.cleanup.key = none ∧ m0.cleanup.keyGenerated = false) := by
  have hrun := @keyGenerated_run Key ops
  refine ⟨?_, ?_, ?_, rfl, rfl⟩
  · unfold CryptoManager.encrypt
    rw [hrun]
    cases keySinceReset ops with
    | false => simp
    | true =>
      simp only [Bool.not_true, Bool.false_eq_true, if_false, iff_false]
      split <;> simp
  · unfold CryptoManager.decrypt
    rw [hrun]
    cases keySinceReset ops with
    | false => simp
    | true =>
      simp only [Bool.not_true, Bool.false_eq_true, if_false, iff_false]
      split <;> simp
  · intro h
    unfold CryptoManager.encrypt CryptoManager.decrypt
    rw [hrun, h]
    simp

theorem notReady_iff_no_key_since_reset_witness :
    keySinceReset [KeyOp.generateKey (some 7), KeyOp.cleanup, KeyOp.generateKey (none : Option Nat)]
        = false ∧
    (CryptoManager.new.run
        [KeyOp.generateKey (some 7), KeyOp.cleanup, KeyOp.generateKey none]).encrypt
        toyProvider (fun i => i) (Plain.text [104]) { drawn := 0, subtleCalls := [] }
      = (Except.error CryptoError.keyNotGenerated, { drawn := 0, subtleCalls := [] }) :=
  ⟨rfl, ((notReady_iff_no_key_since_reset toyProvider (fun i => i)
      [KeyOp.generateKey (some 7), KeyOp.cleanup, KeyOp.generateKey none]
      (Plain.text [104]) [] [] { drawn := 0, subtleCalls := [] } CryptoManager.new).2.2.1 rfl).1⟩

/-! ### The relay (C6, C7, C8) -/

theorem lookup_stringifyProps_setProp (props : List (String × JsValue)) (k : String)
    (v : JsValue) : (stringifyProps (setProp props k v)).lookup k = some (stringify v) := by
  induction props with
  | nil => simp [setProp, stringifyProps, List.lookup]
  | cons p rest ih =>
    obtain ⟨k', v'⟩ := p
    unfold setProp
    by_cases h : k' = k
    · subst h; simp [stringifyProps, List.lookup]
    · have h' : (k == k') = false := by simpa using fun e => h e.symm
      simp [h, stringifyProps, List.lookup, h', ih]

theorem lookup_stringifyProps_setProp_ne (props : List (String × JsValue)) (k k' : String)
    (v : JsValue) (hne : k' ≠ k) :
    (stringifyProps (setProp props k v)).lookup k' = (stringifyProps props).lookup k' := by
  induction props with
  | nil =>
    have h' : (k' == k) = false := by simpa using hne
    simp [setProp, stringifyProps, List.lookup, h']
  | cons p rest ih =>
    obtain ⟨k0, v0⟩ := p
    unfold setProp
    by_cases h : k0 = k
    · subst h
      have h' : (k' == k0) = false := by simpa using hne
      simp [stringifyProps, List.lookup, h']
    · simp only [h, if_false, stringifyProps, List.lookup]
      cases k' == k0 <;> simp [ih]

theorem broadcast_eq (clients : List Client) (message : JsValue) (sender : Nat) :
    broadcast clients message sender =
      (clients.filter (fun c => decide (c.handle ≠ sender ∧ c.readyState = 1))).map
        (fun c => { target := c.handle, frame := stringify message }) := by
  unfold broadcast
  simp only
  suffices h : ∀ acc : List Send,
      clients.foldl
        (fun sent client =>
          if client.handle ≠ sender ∧ client.readyState = 1 then
            sent ++ [{ target := client.handle, frame := stringify message }]
          else sent) acc
      = acc ++ (clients.filter (fun c => decide (c.handle ≠ sender ∧ c.readyState = 1))).map
        (fun c => { target := c.handle, frame := stringify message }) by
    simpa using h []
  induction clients with
  | nil => intro acc; simp
  | cons c cs ih =>
    intro acc
    rw [List.foldl_cons, ih]
    by_cases hc : c.handle ≠ sender ∧ c.readyState = 1
    · simp [hc, List.filter_cons]
    · simp [hc, List.filter_cons]

/-- For an object payload from a registered sender, every rebroadcast frame
carries the sender's identifier as `userId` and the relay's time, as
`JSON.stringify` writes the Number, as `timestamp`. -/
theorem onMessage_stamps_object (now : Nat) (r : Relay) (ws : Nat) (len : Nat)
    (props : List (String × JsValue)) (user : UserRecord)
    (hlen : len ≤ 10 * 1024 * 1024) (hu : r.connectedUsers.lookup ws = some user) :
    ∀ s ∈ (onMessage now r ws { length := len, parsed := some (JsValue.obj props) }).sends,
      s.frame.member "userId" = some (Json.str user.id) ∧
      s.frame.member "timestamp" = some (numberToJson (now : JSNumber)) := by
  intro s hs
  unfold onMessage at hs
  simp only [gt_iff_lt, Nat.not_lt.mpr hlen, if_false, JsValue.truthy, JsValue.typeofObject,
    Bool.not_true, Bool.or_self, Bool.false_eq_true, JsValue.assign, hu, broadcast_eq,
    List.mem_map] at hs
  obtain ⟨c, _, rfl⟩ := hs
  simp only [stringify, Json.member]
  constructor
  · exact lookup_stringifyProps_setProp _ _ _
  · rw [lookup_stringifyProps_setProp_ne _ _ _ _ (by decide)]
    exact lookup_stringifyProps_setProp _ _ _

/-- C6 fails on an array payload: the frame `[]` sent by peer 1 passes the
validation, is rebroadcast to peers 2 and 3, and the rebroadcast document is
the bare array: it carries neither `userId` nor `timestamp`. -/
theorem onMessage_array_frame_unstamped :
    (onMessage 1000 relay3 1 { length := 2, parsed := some (JsValue.arr [] []) }).sends.map
        (fun s => (s.target, s.frame.member "userId", s.frame.member "timestamp"))
      = [(2, none, none), (3, none, none)] ∧
    (onMessage 1000 relay3 1 { length := 2, parsed := some (JsValue.arr [] []) }).log = [] := by
  constructor <;> rfl

theorem sendsTo_map_filter (cs : List Client) (p : Client → Bool) (frame : Json) (c : Client)
    (hn : (cs.map Client.handle).Nodup) (hc : c ∈ cs) :
    sendsTo c.handle ((cs.filter p).map (fun c => { target := c.handle, frame := frame }))
      = if p c then 1 else 0 := by
  induction cs with
  | nil => simp at hc
  | cons d ds ih =>
    rw [List.map_cons, List.nodup_cons] at hn
    obtain ⟨hd, hn⟩ := hn
    have hnone : ∀ e ∈ ds, e.handle ≠ d.handle := by
      intro e he heq
      exact hd (heq ▸ List.mem_map_of_mem Client.handle he)
    rcases List.mem_cons.1 hc with rfl | hc
    · have hz : sendsTo c.handle
          ((ds.filter p).map (fun c => { target := c.handle, frame := frame })) = 0 := by
        unfold sendsTo
        rw [List.length_eq_zero, List.filter_eq_nil_iff]
        intro s hs
        obtain ⟨e, he, rfl⟩ := List.mem_map.1 hs
        simpa using hnone e (List.mem_filter.1 he).1
      unfold sendsTo at hz ⊢
      cases hp : p c <;> simp [List.filter_cons, hp, hz]
    · have hne : d.handle ≠ c.handle := fun e => hnone c hc e.symm
      have := ih hn hc
      unfold sendsTo at this ⊢
      cases hp : p d <;> simp [List.filter_cons, hp, hne, this]

/-- C7: `broadcast(message, A)` writes the message to exactly the clients of
`wss.clients` that are open and are not `A`: each of them is written to once,
`A` and the clients that are not open are not written to, nothing else is
written to, and what is written is the message. -/
theorem broadcast_exactly_open_others (clients : List Client) (message : JsValue) (sender : Nat)
    (hn : (clients.map Client.handle).Nodup) :
    (∀ c ∈ clients, sendsTo c.handle (broadcast clients message sender)
        = if c.handle ≠ sender ∧ c.readyState = 1 then 1 else 0) ∧
    sendsTo sender (broadcast clients message sender) = 0 ∧
    (∀ s ∈ broadcast clients message sender,
        s.frame = stringify message ∧ ∃ c ∈ clients, c.handle = s.target) := by
  rw [broadcast_eq]
  refine ⟨?_, ?_, ?_⟩
  · intro c hc
    rw [sendsTo_map_filter clients _ _ c hn hc]
    by_cases h : c.handle ≠ sender ∧ c.readyState = 1 <;> simp [h]
  · unfold sendsTo
    rw [List.length_eq_zero, List.filter_eq_nil_iff]
    intro s hs
    obtain ⟨e, he, rfl⟩ := List.mem_map.1 hs
    have := (List.mem_filter.1 he).2
    simp only [decide_eq_true_eq] at this ⊢
    exact this.1
  · intro s hs
    obtain ⟨e, he, rfl⟩ := List.mem_map.1 hs
    exact ⟨rfl, e, (List.mem_filter.1 he).1, rfl⟩

theorem broadcast_exactly_open_others_witness :
    (∀ c ∈ [(⟨1, 1⟩ : Client), ⟨2, 1⟩, ⟨3, 0⟩, ⟨4, 1⟩],
        sendsTo c.handle (broadcast [⟨1, 1⟩, ⟨2, 1⟩, ⟨3, 0⟩, ⟨4, 1⟩] (JsValue.obj []) 1)
          = if c.handle ≠ 1 ∧ c.readyState = 1 then 1 else 0) ∧
    sendsTo 1 (broadcast [⟨1, 1⟩, ⟨2, 1⟩, ⟨3, 0⟩, ⟨4, 1⟩] (JsValue.obj []) 1) = 0 ∧
    (∀ s ∈ broadcast [⟨1, 1⟩, ⟨2, 1⟩, ⟨3, 0⟩, ⟨4, 1⟩] (JsValue.obj []) 1,
        s.frame = stringify (JsValue.obj []) ∧
        ∃ c ∈ [(⟨1, 1⟩ : Client), ⟨2, 1⟩, ⟨3, 0⟩, ⟨4, 1⟩], c.handle = s.target) :=
  broadcast_exactly_open_others [⟨1, 1⟩, ⟨2, 1⟩, ⟨3, 0⟩, ⟨4, 1⟩] (JsValue.obj []) 1 (by decide)

/-- C8: a frame longer than 10 * 1024 * 1024 = 10,485,760 is dropped: nothing
is sent to any peer and the relay's state (registry and counter) is unchanged;
a frame of length exactly 10,485,760 is not dropped by the size check: the size
warning is not logged, and an object payload from a registered sender is
broadcast. -/
theorem oversized_frame_dropped (now : Nat) (r : Relay) (ws : Nat) (data : Frame) :
    (10485760 < data.length →
      (onMessage now r ws data).sends = [] ∧ (onMessage now r ws data).relay = r ∧
      (onMessage now r ws data).log = [RelayLog.tooLarge]) ∧
    (data.length = 10485760 →
      RelayLog.tooLarge ∉ (onMessage now r ws data).log ∧
      (onMessage now r ws data).relay = r ∧
      ∀ props user stamped, data.parsed = some (JsValue.obj props) →
        r.connectedUsers.lookup ws = some user →
        ((JsValue.obj props).assign "timestamp" (JsValue.num now)).bind
          (fun m => m.assign "userId" (JsValue.str user.id)) = some stamped →
        (onMessage now r ws data).sends = broadcast r.clients stamped ws) := by
  constructor
  · intro h
    have h' : data.length > 10 * 1024 * 1024 := by omega
    simp [onMessage, h']
  · intro h
    have h' : ¬ data.length > 10 * 1024 * 1024 := by omega
    unfold onMessage
    simp only [h', if_false]
    refine ⟨?_, ?_, ?_⟩
    · split
      · simp
      · split
        · simp
        · split
          · split <;> simp
          · simp
    · split
      · rfl
      · split
        · rfl
        · split
          · split <;> rfl
          · rfl
    · intro props user stamped hp hu hs
      simp only [hp, hu, JsValue.truthy, JsValue.typeofObject, JsValue.assign] at hs ⊢
      simp only [Option.some_bind, Option.some.injEq] at hs
      subst hs
      simp

theorem oversized_frame_dropped_witness :
    ((onMessage 1000 relay3 1 { length := 10485761, parsed := some (JsValue.obj []) }).sends = [] ∧
      (onMessage 1000 relay3 1 { length := 10485761, parsed := some (JsValue.obj []) }).relay
        = relay3 ∧
      (onMessage 1000 relay3 1 { length := 10485761, parsed := some (JsValue.obj []) }).log
        = [RelayLog.tooLarge]) ∧
    (onMessage 1000 relay3 1 { length := 10485760, parsed := some (JsValue.obj []) }).sends
      = broadcast relay3.clients
          (JsValue.obj [("timestamp", JsValue.num 1000), ("userId", JsValue.str "Invité1")]) 1 :=
  ⟨(oversized_frame_dropped 1000 relay3 1
      { length := 10485761, parsed := some (JsValue.obj []) }).1 (by decide),
   ((oversized_frame_dropped 1000 relay3 1
      { length := 10485760, parsed := some (JsValue.obj []) }).2 rfl).2.2
      [] ⟨"Invité1", 0⟩ _ rfl rfl rfl⟩

/-! ### The outbound queue (C9, C10) -/

theorem sendMessage_disconnected (m : WebSocketManager) (message : JsValue)
    (h : m.isConnected = false) :
    sendMessage m message =
      { manager := { m with messageQueue := m.messageQueue ++ [message] },
        effects := [queuedNotice], thrown := none } := by
  simp [sendMessage, h]

theorem sendAll_disconnected (m : WebSocketManager) (msgs : List JsValue)
    (h : m.isConnected = false) :
    (sendAll m msgs).thrown = none ∧
    (sendAll m msgs).manager = { m with messageQueue := m.messageQueue ++ msgs } ∧
    transmitted (sendAll m msgs).effects = [] ∧
    notices (sendAll m msgs).effects
      = msgs.map (fun _ => ("Connexion perdue, message mis en attente", "warning")) := by
  induction msgs generalizing m with
  | nil => simp [sendAll, transmitted, notices]
  | cons message rest ih =>
    have h1 : ({ m with messageQueue := m.messageQueue ++ [message] } : WebSocketManager).isConnected
        = false := h
    obtain ⟨i1, i2, i3, i4⟩ := ih _ h1
    unfold sendAll
    simp only [sendMessage_disconnected m message h]
    refine ⟨i1, ?_, ?_, ?_⟩
    · rw [i2]; simp
    · simpa [queuedNotice, transmitted] using i3
    · simpa [queuedNotice, notices] using i4

theorem flushLoop_open (queue : List JsValue) :
    flushLoop (some WebSocket.OPEN) queue
      = (queue.map (fun message => ClientEffect.transmit (stringify message)), [], none) := by
  induction queue with
  | nil => rfl
  | cons message rest ih =>
    unfold flushLoop
    rw [ih]
    simp [wsSend, WebSocket.OPEN]

theorem transmitted_map_transmit (msgs : List JsValue) :
    transmitted (msgs.map (fun message => ClientEffect.transmit (stringify message)))
      = msgs.map stringify := by
  induction msgs with
  | nil => rfl
  | cons f fs ih => simp [transmitted, ih]

theorem transmitted_append (a b : List ClientEffect) :
    transmitted (a ++ b) = transmitted a ++ transmitted b := by
  induction a with
  | nil => rfl
  | cons e es ih => cases e <;> simp [transmitted, ih]

/-- C9: after `sendMessage(m1)`, ..., `sendMessage(mn)` made while the channel
is not connected and starting from an empty queue, nothing has been
transmitted and the queue holds `m1..mn`; the next open event (the manager's
socket is then open) resets `reconnectAttempts` to 0, transmits exactly
`JSON.stringify(m1)`, ..., `JSON.stringify(mn)` in that order, and leaves
`messageQueue` empty. -/
theorem queue_drained_fifo_on_open (m0 : WebSocketManager) (msgs : List JsValue)
    (atOpen : WebSocketManager) (event : JsValue)
    (hd : m0.isConnected = false) (hq : m0.messageQueue = [])
    (hqueue : atOpen.messageQueue = (sendAll m0 msgs).manager.messageQueue)
    (hopen : atOpen.ws = some WebSocket.OPEN) :
    (sendAll m0 msgs).thrown = none ∧
    transmitted (sendAll m0 msgs).effects = [] ∧
    (sendAll m0 msgs).manager.messageQueue = msgs ∧
    (onOpen atOpen event).thrown = none ∧
    (onOpen atOpen event).manager.reconnectAttempts = 0 ∧
    (onOpen atOpen event).manager.isConnected = true ∧
    transmitted (onOpen atOpen event).effects = msgs.map stringify ∧
    (onOpen atOpen event).manager.messageQueue = [] := by
  obtain ⟨s1, s2, s3, _⟩ := sendAll_disconnected m0 msgs hd
  have hm : (sendAll m0 msgs).manager.messageQueue = msgs := by rw [s2]; simp [hq]
  rw [hm] at hqueue
  refine ⟨s1, s3, hm, ?_⟩
  unfold onOpen flushMessageQueue
  simp only [hopen, hqueue, flushLoop_open]
  refine ⟨trivial, trivial, trivial, ?_, trivial⟩
  rw [transmitted_append, transmitted_map_transmit]
  simp [transmitted]

theorem queue_drained_fifo_on_open_witness :
    (sendAll WebSocketManager.new [JsValue.str "a", JsValue.str "b"]).thrown = none ∧
    transmitted (sendAll WebSocketManager.new [JsValue.str "a", JsValue.str "b"]).effects = [] ∧
    (sendAll WebSocketManager.new [JsValue.str "a", JsValue.str "b"]).manager.messageQueue
      = [JsValue.str "a", JsValue.str "b"] ∧
    (onOpen { WebSocketManager.new with
        ws := some WebSocket.OPEN, reconnectAttempts := 3,
        messageQueue := [JsValue.str "a", JsValue.str "b"] } JsValue.null).thrown = none ∧
    (onOpen { WebSocketManager.new with
        ws := some WebSocket.OPEN, reconnectAttempts := 3,
        messageQueue := [JsValue.str "a", JsValue.str "b"] } JsValue.null).manager.reconnectAttempts
      = 0 ∧
    (onOpen { WebSocketManager.new with
        ws := some WebSocket.OPEN, reconnectAttempts := 3,
        messageQueue := [JsValue.str "a", JsValue.str "b"] } JsValue.null).manager.isConnected
      = true ∧
    transmitted (onOpen { WebSocketManager.new with
        ws := some WebSocket.OPEN, reconnectAttempts := 3,
        messageQueue := [JsValue.str "a", JsValue.str "b"] } JsValue.null).effects
      = [JsValue.str "a", JsValue.str "b"].map stringify ∧
    (onOpen { WebSocketManager.new with
        ws := some WebSocket.OPEN, reconnectAttempts := 3,
        messageQueue := [JsValue.str "a", JsValue.str "b"] } JsValue.null).manager.messageQueue
      = [] :=
  queue_drained_fifo_on_open WebSocketManager.new [JsValue.str "a", JsValue.str "b"]
    { WebSocketManager.new with
        ws := some WebSocket.OPEN, reconnectAttempts := 3,
        messageQueue := [JsValue.str "a", JsValue.str "b"] }
    JsValue.null rfl rfl rfl rfl

/-- C10 (as stated) fails: with `isConnected` still true and the socket already
closing (`readyState` 2), `sendMessage` transmits nothing and queues the
message, and surfaces no notice. -/
theorem sendMessage_queues_silently_while_closing :
    (sendMessage { WebSocketManager.new with ws := some 2, isConnected := true }
        (JsValue.str "a")).manager.messageQueue = [JsValue.str "a"] ∧
    transmitted (sendMessage { WebSocketManager.new with ws := some 2, isConnected := true }
        (JsValue.str "a")).effects = [] ∧
    notices (sendMessage { WebSocketManager.new with ws := some 2, isConnected := true }
        (JsValue.str "a")).effects = [] ∧
    (sendMessage { WebSocketManager.new with ws := some 2, isConnected := true }
        (JsValue.str "a")).thrown = none := by
  refine ⟨rfl, rfl, rfl, rfl⟩

/-- C10 (as amended): `sendMessage` either, when `isConnected` holds and the
socket is open, transmits the message at once and leaves `messageQueue`
unchanged, or otherwise transmits nothing and appends the message at the end of
`messageQueue`, the earlier entries keeping their order; the 'queued' notice is
surfaced exactly when `isConnected` is false: a message queued while
`isConnected` is true and the socket is not open is queued without a notice. -/
theorem sendMessage_transmits_or_queues (m : WebSocketManager) (message : JsValue) :
    (m.isConnected = true → m.ws = some WebSocket.OPEN →
      sendMessage m message =
        { manager := m, effects := [ClientEffect.transmit (stringify message)],
          thrown := none }) ∧
    (m.isConnected = false →
      sendMessage m message =
        { manager := { m with messageQueue := m.messageQueue ++ [message] },
          effects := [queuedNotice], thrown := none }) ∧
    (∀ readyState, m.isConnected = true → m.ws = some readyState →
      readyState ≠ WebSocket.OPEN →
      sendMessage m message =
        { manager := { m with messageQueue := m.messageQueue ++ [message] },
          effects := [], thrown := none }) := by
  refine ⟨?_, sendMessage_disconnected m message, ?_⟩
  · intro hc hw
    simp [sendMessage, hc, hw, wsSend, WebSocket.OPEN]
  · intro readyState hc hw hne
    simp [sendMessage, hc, hw, hne]

theorem sendMessage_transmits_or_queues_witness :
    sendMessage { WebSocketManager.new with ws := some WebSocket.OPEN, isConnected := true }
        (JsValue.str "a") =
      { manager := { WebSocketManager.new with ws := some WebSocket.OPEN, isConnected := true },
        effects := [ClientEffect.transmit (stringify (JsValue.str "a"))], thrown := none } ∧
    sendMessage WebSocketManager.new (JsValue.str "a") =
      { manager := { WebSocketManager.new with
          messageQueue := WebSocketManager.new.messageQueue ++ [JsValue.str "a"] },
        effects := [queuedNotice], thrown := none } ∧
    sendMessage { WebSocketManager.new with ws := some 2, isConnected := true }
        (JsValue.str "a") =
      { manager := { WebSocketManager.new with
          ws := some 2, isConnected := true,
          messageQueue := WebSocketManager.new.messageQueue ++ [JsValue.str "a"] },
        effects := [], thrown := none } :=
  ⟨(sendMessage_transmits_or_queues
      { WebSocketManager.new with ws := some WebSocket.OPEN, isConnected := true }
      (JsValue.str "a")).1 rfl rfl,
   (sendMessage_transmits_or_queues WebSocketManager.new (JsValue.str "a")).2.1 rfl,
   (sendMessage_transmits_or_queues
      { WebSocketManager.new with ws := some 2, isConnected := true }
      (JsValue.str "a")).2.2 2 rfl rfl (by decide)⟩

/-! ### Reconnection (C11, C12, C13) -/

theorem scheduled_append (a b : List ClientEffect) :
    scheduled (a ++ b) = scheduled a ++ scheduled b := by
  induction a with
  | nil => rfl
  | cons e es ih => cases e <;> simp [scheduled, ih]

theorem notices_append (a b : List ClientEffect) :
    notices (a ++ b) = notices a ++ notices b := by
  induction a with
  | nil => rfl
  | cons e es ih => cases e <;> simp [notices, ih]

theorem clientRun_cons {Key : Type} (P : Provider Key) (m : WebSocketManager)
    (e : ClientEvent Key) (es : List (ClientEvent Key)) :
    clientRun P m (e :: es) =
      ((clientRun P (clientStep P m e).manager es).1,
       (clientStep P m e).effects ++ (clientRun P (clientStep P m e).manager es).2) := by
  unfold clientRun
  rw [List.foldl_cons]
  suffices h : ∀ (es : List (ClientEvent Key)) (m0 : WebSocketManager) (pre : List ClientEffect),
      List.foldl
        (fun (acc : WebSocketManager × List ClientEffect) event =>
          ((clientStep P acc.1 event).manager, acc.2 ++ (clientStep P acc.1 event).effects))
        (m0, pre) es
      = ((List.foldl
          (fun (acc : WebSocketManager × List ClientEffect) event =>
            ((clientStep P acc.1 event).manager, acc.2 ++ (clientStep P acc.1 event).effects))
          (m0, []) es).1,
         pre ++ (List.foldl
          (fun (acc : WebSocketManager × List ClientEffect) event =>
            ((clientStep P acc.1 event).manager, acc.2 ++ (clientStep P acc.1 event).effects))
          (m0, []) es).2) by
    simpa using h es (clientStep P m e).manager (clientStep P m e).effects
  intro es
  induction es with
  | nil => intro m0 pre; simp
  | cons x xs ih =>
    intro m0 pre
    rw [List.foldl_cons, List.foldl_cons, ih, ih (clientStep P m0 x).manager ([] ++ _)]
    simp

theorem onClose_abnormal (m : WebSocketManager) (code : Nat) (event : JsValue)
    (hcode : code ≠ 1000 ∧ code ≠ 1001) (hbudget : m.reconnectAttempts < m.maxReconnectAttempts) :
    (onClose m code event).manager
        = { m with isConnected := false, reconnectAttempts := m.reconnectAttempts + 1 } ∧
    scheduled (onClose m code event).effects
        = [m.reconnectDelay * 2 ^ m.reconnectAttempts] := by
  unfold onClose
  simp [hcode.1, hcode.2, hbudget, attemptReconnect, scheduled, reconnectNotice]

theorem onClose_no_retry (m : WebSocketManager) (code : Nat) (event : JsValue)
    (h : ¬ (code ≠ 1000 ∧ code ≠ 1001 ∧ m.reconnectAttempts < m.maxReconnectAttempts)) :
    (onClose m code event).manager = { m with isConnected := false } ∧
    scheduled (onClose m code event).effects = [] := by
  unfold onClose
  simp only [h, if_false]
  split_ifs <;> simp [scheduled, terminalNotice]

theorem scheduled_triggerWith (event : String) (data : Option JsValue) :
    scheduled [triggerWith event data] = [] := by
  cases data <;> rfl

theorem scheduled_handleMessage {Key : Type} (P : Provider Key) (cm : CryptoManager Key)
    (message : JsValue) (w : Platform) : scheduled (handleMessage P cm message w).effects = [] := by
  unfold handleMessage
  split
  · rfl
  · simp only
    split_ifs <;> first | rfl | exact scheduled_triggerWith _ _

theorem sendMessage_retry (m : WebSocketManager) (message : JsValue) :
    (sendMessage m message).manager.reconnectAttempts = m.reconnectAttempts ∧
    (sendMessage m message).manager.maxReconnectAttempts = m.maxReconnectAttempts ∧
    (sendMessage m message).manager.reconnectDelay = m.reconnectDelay ∧
    scheduled (sendMessage m message).effects = [] := by
  unfold sendMessage
  simp only
  split
  · exact ⟨rfl, rfl, rfl, rfl⟩
  · split
    · rename_i effects h
      refine ⟨rfl, rfl, rfl, ?_⟩
      unfold wsSend at h
      split at h
      · simp at h
      · split_ifs at h
        · simp only [Except.ok.injEq] at h
          subst h; rfl
        · simp only [Except.ok.injEq] at h
          subst h; rfl
    · exact ⟨rfl, rfl, rfl, rfl⟩
  · split_ifs <;> exact ⟨rfl, rfl, rfl, rfl⟩

theorem clientStep_retry {Key : Type} (P : Provider Key) (m : WebSocketManager)
    (e : ClientEvent Key) (hopen : e.isOpened = false)
    (hclose : ∀ code event, e ≠ ClientEvent.closed code event) :
    (clientStep P m e).manager.reconnectAttempts = m.reconnectAttempts ∧
    (clientStep P m e).manager.maxReconnectAttempts = m.maxReconnectAttempts ∧
    (clientStep P m e).manager.reconnectDelay = m.reconnectDelay ∧
    scheduled (clientStep P m e).effects = [] := by
  cases e with
  | connect thrown =>
    cases thrown with
    | none => exact ⟨rfl, rfl, rfl, rfl⟩
    | some error =>
      refine ⟨rfl, rfl, rfl, ?_⟩
      simp only [clientStep, connect, handleError]
      split_ifs <;> rfl
  | socketState readyState => exact ⟨rfl, rfl, rfl, rfl⟩
  | opened event => simp [ClientEvent.isOpened] at hopen
  | closed code event => exact absurd rfl (hclose code event)
  | failed error =>
    refine ⟨rfl, rfl, rfl, ?_⟩
    simp only [clientStep, handleError]
    split_ifs <;> rfl
  | message cm w parsed =>
    cases parsed with
    | none => exact ⟨rfl, rfl, rfl, rfl⟩
    | some message =>
      exact ⟨rfl, rfl, rfl, scheduled_handleMessage P cm message w⟩
  | send message => exact sendMessage_retry m message
  | disconnect =>
    simp only [clientStep, disconnect]
    split <;> exact ⟨rfl, rfl, rfl, rfl⟩

theorem onOpen_retry (m : WebSocketManager) (event : JsValue) :
    (onOpen m event).manager.reconnectAttempts = 0 ∧
    (onOpen m event).manager.maxReconnectAttempts = m.maxReconnectAttempts ∧
    (onOpen m event).manager.reconnectDelay = m.reconnectDelay := by
  unfold onOpen flushMessageQueue
  simp only
  split <;> exact ⟨rfl, rfl, rfl⟩

theorem clientStep_invariant {Key : Type} (P : Provider Key) (m : WebSocketManager)
    (e : ClientEvent Key) (h : RetryInvariant m) : RetryInvariant (clientStep P m e).manager := by
  obtain ⟨h1, h2, h3⟩ := h
  by_cases hopen : e.isOpened = true
  · cases e with
    | opened event =>
      obtain ⟨a, b, c⟩ := onOpen_retry m event
      exact ⟨b.trans h1, c.trans h2, by simp only [clientStep]; omega⟩
    | _ => simp [ClientEvent.isOpened] at hopen
  · by_cases hclose : ∃ code event, e = ClientEvent.closed code event
    · obtain ⟨code, event, rfl⟩ := hclose
      simp only [clientStep]
      by_cases hr : code ≠ 1000 ∧ code ≠ 1001 ∧ m.reconnectAttempts < m.maxReconnectAttempts
      · rw [(onClose_abnormal m code event ⟨hr.1, hr.2.1⟩ hr.2.2).1]
        refine ⟨h1, h2, ?_⟩
        have := hr.2.2
        simp only
        omega
      · rw [(onClose_no_retry m code event hr).1]
        exact ⟨h1, h2, h3⟩
    · obtain ⟨a, b, c, _⟩ := clientStep_retry P m e (by simpa using hopen)
        (fun code event he => hclose ⟨code, event, he⟩)
      exact ⟨b.trans h1, c.trans h2, by omega⟩

theorem clientRun_invariant {Key : Type} (P : Provider Key) (m : WebSocketManager)
    (events : List (ClientEvent Key)) (h : RetryInvariant m) :
    RetryInvariant (clientRun P m events).1 := by
  induction events generalizing m with
  | nil => exact h
  | cons e es ih =>
    rw [clientRun_cons]
    exact ih _ (clientStep_invariant P m e h)

theorem scheduled_clientRun {Key : Type} (P : Provider Key) (m : WebSocketManager)
    (events : List (ClientEvent Key)) (h : RetryInvariant m)
    (hopen : ∀ e ∈ events, e.isOpened = false) :
    scheduled (clientRun P m events).2
      = (backoffDelays.drop m.reconnectAttempts).take
          (events.filter ClientEvent.isAbnormalClose).length := by
  induction events generalizing m with
  | nil => simp [clientRun, scheduled]
  | cons e es ih =>
    have hinv := clientStep_invariant P m e h
    have ih := ih (clientStep P m e).manager hinv (fun x hx => hopen x (by simp [hx]))
    obtain ⟨h1, h2, h3⟩ := h
    rw [clientRun_cons, scheduled_append, ih]
    by_cases hclose : ∃ code event, e = ClientEvent.closed code event
    · obtain ⟨code, event, rfl⟩ := hclose
      simp only [clientStep]
      by_cases hc : code ≠ 1000 ∧ code ≠ 1001
      · have hab : (ClientEvent.closed code event : ClientEvent Key).isAbnormalClose = true := by
          simp [ClientEvent.isAbnormalClose, hc.1, hc.2]
        rw [List.filter_cons_of_pos hab, List.length_cons]
        by_cases hb : m.reconnectAttempts < m.maxReconnectAttempts
        · obtain ⟨e1, e2⟩ := onClose_abnormal m code event hc hb
          rw [e1, e2, h2]
          simp only
          have hlt : m.reconnectAttempts < 5 := by omega
          have : m.reconnectAttempts = 0 ∨ m.reconnectAttempts = 1 ∨ m.reconnectAttempts = 2 ∨
              m.reconnectAttempts = 3 ∨ m.reconnectAttempts = 4 := by omega
          rcases this with h0 | h0 | h0 | h0 | h0 <;> rw [h0] <;> simp [backoffDelays]
        · obtain ⟨e1, e2⟩ := onClose_no_retry m code event (fun hh => hb hh.2.2)
          rw [e1, e2]
          have h5 : m.reconnectAttempts = 5 := by omega
          simp [h5, backoffDelays]
      · have hab : (ClientEvent.closed code event : ClientEvent Key).isAbnormalClose = false := by
          simpa [ClientEvent.isAbnormalClose] using hc
        obtain ⟨e1, e2⟩ := onClose_no_retry m code event (fun hh => hc ⟨hh.1, hh.2.1⟩)
        rw [List.filter_cons_of_neg (by simp [hab]), e1, e2]
        simp
    · have ho := hopen e (by simp)
      obtain ⟨a, _, _, d⟩ := clientStep_retry P m e ho
        (fun code event he => hclose ⟨code, event, he⟩)
      have hab : e.isAbnormalClose = false := by
        cases e <;> first | rfl | exact absurd ⟨_, _, rfl⟩ hclose
      rw [List.filter_cons_of_neg (by simp [hab]), a, d]
      simp

theorem retryInvariant_new : RetryInvariant WebSocketManager.new := by
  refine ⟨rfl, rfl, ?_⟩
  show (0 : Nat) ≤ 5
  omega

/-- C11: on a close with a code other than 1000 and 1001 and with attempts
left, `reconnectAttempts` goes up by one, to `k`, and the reconnect is
scheduled after `2000 * 2^(k-1)` ms; over any sequence of events without an
open, starting at `reconnectAttempts = 0`, the reconnects scheduled are, in
order, after 2000, 4000, 8000, 16000 and 32000 ms, one per abnormal close. -/
theorem reconnect_backoff {Key : Type} (P : Provider Key) (m : WebSocketManager) (code : Nat)
    (event : JsValue) (events : List (ClientEvent Key)) :
    (code ≠ 1000 ∧ code ≠ 1001 → m.reconnectAttempts < m.maxReconnectAttempts →
      m.reconnectDelay = 2000 →
      (onClose m code event).manager.reconnectAttempts = m.reconnectAttempts + 1 ∧
      scheduled (onClose m code event).effects
        = [2000 * 2 ^ ((onClose m code event).manager.reconnectAttempts - 1)]) ∧
    (m.maxReconnectAttempts = 5 → m.reconnectDelay = 2000 → m.reconnectAttempts = 0 →
      (∀ e ∈ events, e.isOpened = false) →
      scheduled (clientRun P m events).2
        = [2000, 4000, 8000, 16000, 32000].take
            (events.filter ClientEvent.isAbnormalClose).length) := by
  constructor
  · intro hcode hbudget hdelay
    obtain ⟨e1, e2⟩ := onClose_abnormal m code event hcode hbudget
    rw [e1, e2, hdelay]
    simp
  · intro hmax hdelay h0 hopen
    have hinv : RetryInvariant m := ⟨hmax, hdelay, by omega⟩
    rw [scheduled_clientRun P m events hinv hopen, h0]
    rfl

theorem reconnect_backoff_witness :
    ((onClose WebSocketManager.new 1006 JsValue.null).manager.reconnectAttempts
        = WebSocketManager.new.reconnectAttempts + 1 ∧
      scheduled (onClose WebSocketManager.new 1006 JsValue.null).effects
        = [2000 * 2 ^ ((onClose WebSocketManager.new 1006 JsValue.null).manager.reconnectAttempts
            - 1)]) ∧
    scheduled (clientRun toyProvider WebSocketManager.new
        [ClientEvent.closed 1006 JsValue.null, ClientEvent.connect none,
         ClientEvent.closed 1006 JsValue.null, ClientEvent.connect none,
         ClientEvent.closed 1006 JsValue.null]).2
      = [2000, 4000, 8000, 16000, 32000].take
          ([ClientEvent.closed 1006 JsValue.null, ClientEvent.connect none,
            ClientEvent.closed 1006 JsValue.null, ClientEvent.connect none,
            (ClientEvent.closed 1006 JsValue.null : ClientEvent Nat)].filter
              ClientEvent.isAbnormalClose).length :=
  ⟨(reconnect_backoff toyProvider WebSocketManager.new 1006 JsValue.null []).1
      (by decide) (by decide) rfl,
   (reconnect_backoff toyProvider WebSocketManager.new 1006 JsValue.null
      [ClientEvent.closed 1006 JsValue.null, ClientEvent.connect none,
       ClientEvent.closed 1006 JsValue.null, ClientEvent.connect none,
       ClientEvent.closed 1006 JsValue.null]).2 rfl rfl rfl (by decide)⟩

/-- C12: in every state the channel reaches from its construction,
`reconnectAttempts` is at most 5; a close event received in a reached state
with `reconnectAttempts = 5` schedules no reconnect and surfaces the notice
'Connexion perdue. Rechargez la page.'; and over any sequence of events without
an open, at most 5 reconnects are scheduled. -/
theorem reconnectAttempts_bounded {Key : Type} (P : Provider Key)
    (pre events : List (ClientEvent Key)) (code : Nat) (event : JsValue) :
    (clientRun P WebSocketManager.new pre).1.reconnectAttempts ≤ 5 ∧
    ((clientRun P WebSocketManager.new pre).1.reconnectAttempts = 5 →
      scheduled (onClose (clientRun P WebSocketManager.new pre).1 code event).effects = [] ∧
      notices (onClose (clientRun P WebSocketManager.new pre).1 code event).effects
        = [("Connexion perdue. Rechargez la page.", "error")] ∧
      (onClose (clientRun P WebSocketManager.new pre).1 code event).manager.reconnectAttempts
        = 5) ∧
    ((∀ e ∈ events, e.isOpened = false) →
      (scheduled (clientRun P (clientRun P WebSocketManager.new pre).1 events).2).length ≤ 5) := by
  have hinv := clientRun_invariant P WebSocketManager.new pre retryInvariant_new
  refine ⟨hinv.2.2, ?_, ?_⟩
  · intro h5
    have hno : ¬ (code ≠ 1000 ∧ code ≠ 1001 ∧
        (clientRun P WebSocketManager.new pre).1.reconnectAttempts
          < (clientRun P WebSocketManager.new pre).1.maxReconnectAttempts) := by
      rw [hinv.1, h5]; omega
    obtain ⟨e1, e2⟩ := onClose_no_retry _ code event hno
    refine ⟨e2, ?_, by rw [e1]; exact h5⟩
    unfold onClose
    simp only [hno, if_false]
    rw [if_pos (by simp only [hinv.1, h5]; omega)]
    rfl
  · intro hopen
    rw [scheduled_clientRun P _ events hinv hopen, List.length_take, List.length_drop]
    simp only [backoffDelays, List.length_cons, List.length_nil]
    omega

theorem reconnectAttempts_bounded_witness :
    scheduled (onClose (clientRun toyProvider WebSocketManager.new
        [ClientEvent.closed 1006 JsValue.null, ClientEvent.closed 1006 JsValue.null,
         ClientEvent.closed 1006 JsValue.null, ClientEvent.closed 1006 JsValue.null,
         ClientEvent.closed 1006 JsValue.null]).1 1006 JsValue.null).effects = [] ∧
    (scheduled (clientRun toyProvider (clientRun toyProvider WebSocketManager.new
        [ClientEvent.opened JsValue.null]).1
        [ClientEvent.closed 1006 JsValue.null, ClientEvent.closed 1011 JsValue.null]).2).length
      ≤ 5 :=
  ⟨((reconnectAttempts_bounded toyProvider
      [ClientEvent.closed 1006 JsValue.null, ClientEvent.closed 1006 JsValue.null,
       ClientEvent.closed 1006 JsValue.null, ClientEvent.closed 1006 JsValue.null,
       ClientEvent.closed 1006 JsValue.null] [] 1006 JsValue.null).2.1 rfl).1,
   (reconnectAttempts_bounded toyProvider [ClientEvent.opened JsValue.null]
      [ClientEvent.closed 1006 JsValue.null, ClientEvent.closed 1011 JsValue.null]
      1006 JsValue.null).2.2 (by decide)⟩

/-- C13: a close event with code 1000 or 1001 schedules no reconnect and leaves
`reconnectAttempts` unchanged, whatever its value; `disconnect()` asks the
socket to close with code 1000 and no other code, schedules nothing and leaves
`reconnectAttempts` unchanged. -/
theorem intentional_close_no_reconnect (m : WebSocketManager) (code : Nat) (event : JsValue) :
    (code = 1000 ∨ code = 1001 →
      scheduled (onClose m code event).effects = [] ∧
      (onClose m code event).manager.reconnectAttempts = m.reconnectAttempts) ∧
    (∀ readyState, m.ws = some readyState → closeCodes (disconnect m).effects = [1000]) ∧
    (m.ws = none → closeCodes (disconnect m).effects = []) ∧
    scheduled (disconnect m).effects = [] ∧
    (disconnect m).manager.reconnectAttempts = m.reconnectAttempts := by
  refine ⟨?_, ?_, ?_, ?_, ?_⟩
  · intro hcode
    have hno : ¬ (code ≠ 1000 ∧ code ≠ 1001 ∧ m.reconnectAttempts < m.maxReconnectAttempts) := by
      omega
    obtain ⟨e1, e2⟩ := onClose_no_retry m code event hno
    exact ⟨e2, by rw [e1]⟩
  · intro readyState h
    simp [disconnect, h, closeCodes]
  · intro h
    simp [disconnect, h, closeCodes]
  · unfold disconnect
    split <;> rfl
  · unfold disconnect
    split <;> rfl

theorem intentional_close_no_reconnect_witness :
    (scheduled (onClose { WebSocketManager.new with reconnectAttempts := 2 } 1000
        JsValue.null).effects = [] ∧
      (onClose { WebSocketManager.new with reconnectAttempts := 2 } 1000
        JsValue.null).manager.reconnectAttempts
        = ({ WebSocketManager.new with reconnectAttempts := 2 } : WebSocketManager).reconnectAttempts) ∧
    closeCodes (disconnect { WebSocketManager.new with ws := some 1 }).effects = [1000] ∧
    closeCodes (disconnect WebSocketManager.new).effects = [] :=
  ⟨(intentional_close_no_reconnect { WebSocketManager.new with reconnectAttempts := 2 } 1000
      JsValue.null).1 (Or.inl rfl),
   (intentional_close_no_reconnect { WebSocketManager.new with ws := some 1 } 0
      JsValue.null).2.1 1 rfl,
   (intentional_close_no_reconnect WebSocketManager.new 0 JsValue.null).2.2.1 rfl⟩

/-! ### The relay's registry (C14, C15, C16) -/

theorem digitChar_value (k : Nat) (h : k < 10) : (Nat.digitChar k).toNat - 48 = k := by
  interval_cases k <;> rfl

theorem toDigitsCore_decode (fuel : Nat) :
    ∀ (n : Nat) (ds : List Char), n < fuel →
      ∃ front, Nat.toDigitsCore 10 fuel n ds = front ++ ds ∧ decodeDigits front = n := by
  induction fuel with
  | zero => intro n ds h; omega
  | succ fuel ih =>
    intro n ds h
    unfold Nat.toDigitsCore
    simp only
    by_cases h0 : n / 10 = 0
    · rw [if_pos h0]
      refine ⟨[Nat.digitChar (n % 10)], rfl, ?_⟩
      simp only [decodeDigits, List.foldl_cons, List.foldl_nil]
      rw [digitChar_value _ (by omega)]
      omega
    · rw [if_neg h0]
      obtain ⟨front, hf, hd⟩ := ih (n / 10) (Nat.digitChar (n % 10) :: ds) (by omega)
      refine ⟨front ++ [Nat.digitChar (n % 10)], by rw [hf]; simp, ?_⟩
      unfold decodeDigits at hd ⊢
      rw [List.foldl_append, hd]
      simp only [List.foldl_cons, List.foldl_nil]
      rw [digitChar_value _ (by omega)]
      omega

theorem decodeDigits_repr (n : Nat) : decodeDigits (Nat.repr n).toList = n := by
  obtain ⟨front, hf, hd⟩ := toDigitsCore_decode (n + 1) n [] (by omega)
  have : (Nat.repr n).toList = front := by
    unfold Nat.repr Nat.toDigits
    rw [hf, List.append_nil]
    exact List.toList_asString front
  rw [this, hd]

theorem guestId_injective (i j : Nat) (h : guestId i = guestId j) : i = j := by
  unfold guestId at h
  have h2 : (Nat.repr i).toList = (Nat.repr j).toList := by
    have := congrArg String.toList h
    simpa using this
  rw [← decodeDigits_repr i, ← decodeDigits_repr j, h2]

theorem broadcastUserCount_eq (r : Relay) :
    broadcastUserCount r =
      (r.clients.filter Client.isOpen).map
        (fun c => { target := c.handle, frame := userCountFrame r.connectedUsers.length }) := by
  unfold broadcastUserCount
  simp only
  suffices h : ∀ (cs : List Client) (acc : List Send),
      cs.foldl
        (fun sent client =>
          if client.readyState = 1 then
            sent ++ [{ target := client.handle, frame := userCountFrame r.connectedUsers.length }]
          else sent) acc
      = acc ++ (cs.filter Client.isOpen).map
        (fun c => { target := c.handle, frame := userCountFrame r.connectedUsers.length }) by
    simpa using h r.clients []
  intro cs
  induction cs with
  | nil => intro acc; simp
  | cons c cs ih =>
    intro acc
    rw [List.foldl_cons, ih]
    by_cases hc : c.readyState = 1
    · simp [hc, List.filter_cons, Client.isOpen]
    · simp [hc, List.filter_cons, Client.isOpen]

theorem mapSet_length (users : List (Nat × UserRecord)) (ws : Nat) (record : UserRecord)
    (h : users.lookup ws = none) : (mapSet users ws record).length = users.length + 1 := by
  induction users with
  | nil => rfl
  | cons entry rest ih =>
    obtain ⟨k, v⟩ := entry
    unfold mapSet
    by_cases hk : k = ws
    · subst hk; simp [List.lookup] at h
    · have hb : (ws == k) = false := by simpa using fun e => hk e.symm
      simp only [List.lookup, hb] at h
      simp [hk, ih h]

theorem mapSet_lookup (users : List (Nat × UserRecord)) (ws : Nat) (record : UserRecord) :
    (mapSet users ws record).lookup ws = some record := by
  induction users with
  | nil => simp [mapSet, List.lookup]
  | cons entry rest ih =>
    obtain ⟨k, v⟩ := entry
    unfold mapSet
    by_cases hk : k = ws
    · subst hk; simp [List.lookup]
    · have hb : (ws == k) = false := by simpa using fun e => hk e.symm
      simp [hk, List.lookup, hb, ih]

theorem mapDelete_length (users : List (Nat × UserRecord)) (ws : Nat) (user : UserRecord)
    (h : users.lookup ws = some user) (hn : (users.map Prod.fst).Nodup) :
    (mapDelete users ws).length + 1 = users.length := by
  induction users with
  | nil => simp [List.lookup] at h
  | cons entry rest ih =>
    obtain ⟨k, v⟩ := entry
    rw [List.map_cons, List.nodup_cons] at hn
    obtain ⟨hk, hn⟩ := hn
    unfold mapDelete at ih ⊢
    by_cases hkw : k = ws
    · subst hkw
      have hrest : rest.filter (fun entry => decide (entry.1 ≠ k)) = rest := by
        rw [List.filter_eq_self]
        intro e he
        have : e.1 ≠ k := fun heq => hk (List.mem_map.2 ⟨e, he, heq⟩)
        simpa using this
      rw [List.filter_cons, hrest]
      simp
    · have hb : (ws == k) = false := by simpa using fun e => hkw e.symm
      simp only [List.lookup, hb] at h
      have := ih h hn
      rw [List.filter_cons]
      simp only [ne_eq, hkw, not_false_eq_true, decide_True, if_true, List.length_cons]
      simp only [ne_eq] at this
      omega

/-- C14 (as stated) fails: in a relay with three registered peers of which two
are open, the socket of the third closing, a peer that connects is sent, as the
two open peers are, `user_count` with `count = 4`, the size of the registry,
and not 3; and when the open peer 1 disconnects, the open peer that remains is
sent `count = 2`, and not 1. -/
theorem user_count_counts_closing_peers :
    registeredOpen relayClosing = 2 ∧
    (relayStep relayClosing (RelayEvent.connection 4 20)).sends
      = [⟨4, userIdFrame "Invité4"⟩, ⟨1, userCountFrame 4⟩, ⟨2, userCountFrame 4⟩,
         ⟨4, userCountFrame 4⟩] ∧
    userCountFrame 4 ≠ userCountFrame (registeredOpen relayClosing + 1) ∧
    (relayStep relayClosing (RelayEvent.close 1)).sends = [⟨2, userCountFrame 2⟩] ∧
    userCountFrame 2 ≠ userCountFrame (registeredOpen relayClosing - 1) := by
  have hopen : registeredOpen relayClosing = 2 := by decide
  refine ⟨hopen, rfl, ?_, rfl, ?_⟩
  · rw [hopen]
    intro h
    simp only [userCountFrame, Json.obj.injEq, List.cons.injEq, Prod.mk.injEq, Json.num.injEq,
      and_true, true_and] at h
    norm_num at h
  · rw [hopen]
    intro h
    simp only [userCountFrame, Json.obj.injEq, List.cons.injEq, Prod.mk.injEq, Json.num.injEq,
      and_true, true_and] at h
    norm_num at h

/-- C14 (as amended): when a peer connects to a relay whose registry holds `n`
peers, open or not, every open client of `wss.clients`, the new one included,
is sent `user_count` with `count = n + 1`; when a registered peer disconnects,
every remaining open client is sent `user_count` with `count = n - 1`; in both
cases `count` is the size of the registry after the update. -/
theorem user_count_follows_registry (r : Relay) (ws now : Nat) :
    (r.connectedUsers.lookup ws = none →
      (relayStep r (RelayEvent.connection ws now)).relay.connectedUsers.length
        = r.connectedUsers.length + 1 ∧
      (relayStep r (RelayEvent.connection ws now)).sends
        = { target := ws, frame := userIdFrame (guestId r.userCounter) } ::
          ((r.clients ++ [({ handle := ws, readyState := 1 } : Client)]).filter Client.isOpen).map
            (fun c => ({ target := c.handle,
                         frame := userCountFrame (r.connectedUsers.length + 1) } : Send)) ∧
      (∀ c ∈ r.clients, c.readyState = 1 →
        ({ target := c.handle, frame := userCountFrame (r.connectedUsers.length + 1) } : Send)
          ∈ (relayStep r (RelayEvent.connection ws now)).sends) ∧
      ({ target := ws, frame := userCountFrame (r.connectedUsers.length + 1) } : Send)
          ∈ (relayStep r (RelayEvent.connection ws now)).sends) ∧
    (∀ user, r.connectedUsers.lookup ws = some user → (r.connectedUsers.map Prod.fst).Nodup →
      (relayStep r (RelayEvent.close ws)).relay.connectedUsers.length
        = r.connectedUsers.length - 1 ∧
      (relayStep r (RelayEvent.close ws)).sends
        = ((r.clients.filter (fun c => decide (c.handle ≠ ws))).filter Client.isOpen).map
            (fun c => ({ target := c.handle,
                         frame := userCountFrame (r.connectedUsers.length - 1) } : Send)) ∧
      (∀ c ∈ r.clients, c.handle ≠ ws → c.readyState = 1 →
        ({ target := c.handle, frame := userCountFrame (r.connectedUsers.length - 1) } : Send)
          ∈ (relayStep r (RelayEvent.close ws)).sends)) := by
  constructor
  · intro hnew
    have hlen := mapSet_length r.connectedUsers ws
      { id := guestId r.userCounter, connected := now } hnew
    have hs : (relayStep r (RelayEvent.connection ws now)).sends
        = { target := ws, frame := userIdFrame (guestId r.userCounter) } ::
          ((r.clients ++ [({ handle := ws, readyState := 1 } : Client)]).filter Client.isOpen).map
            (fun c => ({ target := c.handle,
                         frame := userCountFrame (r.connectedUsers.length + 1) } : Send)) := by
      simp only [relayStep, onConnection, broadcastUserCount_eq, hlen, List.singleton_append]
    refine ⟨by simpa [relayStep, onConnection] using hlen, hs, ?_, ?_⟩
    · intro c hc ho
      rw [hs]
      refine List.mem_cons_of_mem _ (List.mem_map.2 ⟨c, ?_, rfl⟩)
      exact List.mem_filter.2 ⟨List.mem_append_left _ hc, by simp [Client.isOpen, ho]⟩
    · rw [hs]
      refine List.mem_cons_of_mem _ (List.mem_map.2 ⟨({ handle := ws, readyState := 1 } : Client), ?_, rfl⟩)
      exact List.mem_filter.2 ⟨List.mem_append_right _ (by simp), by simp [Client.isOpen]⟩
  · intro user hu hn
    have hlen := mapDelete_length r.connectedUsers ws user hu hn
    have hlen2 : (mapDelete r.connectedUsers ws).length = r.connectedUsers.length - 1 := by omega
    have hs : (relayStep r (RelayEvent.close ws)).sends
        = ((r.clients.filter (fun c => decide (c.handle ≠ ws))).filter Client.isOpen).map
            (fun c => ({ target := c.handle,
                         frame := userCountFrame (r.connectedUsers.length - 1) } : Send)) := by
      simp only [relayStep, onDisconnect, hu, broadcastUserCount_eq, hlen2]
    refine ⟨by simpa [relayStep, onDisconnect, hu] using hlen2, hs, ?_⟩
    intro c hc hne ho
    rw [hs]
    refine List.mem_map.2 ⟨c, ?_, rfl⟩
    exact List.mem_filter.2 ⟨List.mem_filter.2 ⟨hc, by simpa using hne⟩, by simp [Client.isOpen, ho]⟩

theorem user_count_follows_registry_witness :
    ({ target := 4, frame := userCountFrame (relay3.connectedUsers.length + 1) } : Send)
        ∈ (relayStep relay3 (RelayEvent.connection 4 20)).sends ∧
    (relayStep relay3 (RelayEvent.close 2)).relay.connectedUsers.length
        = relay3.connectedUsers.length - 1 :=
  ⟨((user_count_follows_registry relay3 4 20).1 rfl).2.2.2,
   ((user_count_follows_registry relay3 2 0).2 ⟨"Invité2", 5⟩ rfl (by decide)).1⟩

theorem onMessage_relay (now : Nat) (r : Relay) (ws : Nat) (data : Frame) :
    (onMessage now r ws data).relay = r := by
  unfold onMessage
  split
  · rfl
  · split
    · rfl
    · split
      · rfl
      · split
        · split <;> rfl
        · rfl

theorem relayRun_snoc (events : List RelayEvent) (e : RelayEvent) :
    relayRun (events ++ [e]) = (relayStep (relayRun events) e).relay := by
  simp [relayRun, List.foldl_append]

theorem relayRun_userCounter (events : List RelayEvent) :
    (relayRun events).userCounter = 1 + (events.filter RelayEvent.isConnection).length := by
  induction events using List.reverseRecOn with
  | nil => rfl
  | append_singleton es e ih =>
    rw [relayRun_snoc, List.filter_append, List.length_append]
    cases e with
    | connection ws now =>
      simp only [relayStep, onConnection, ih, RelayEvent.isConnection, List.filter_cons_of_pos,
        List.filter_nil, List.length_singleton]
      omega
    | close ws =>
      simp only [relayStep, onDisconnect]
      split <;> simpa [RelayEvent.isConnection] using ih
    | message ws now data =>
      simp only [relayStep, onMessage_relay]
      simpa [RelayEvent.isConnection] using ih

/-- C15: the connection accepted after `n - 1` earlier ones (whatever closes
and messages came in between) is assigned `Invité` followed by `n`: the
counter is 1 at the start, is one more after each connection and is changed
by nothing else; the identifier is sent to the new socket first and entered
in the registry; a later connection gets a larger number; and two different
numbers never give the same identifier. -/
theorem identifiers_count_connections (events : List RelayEvent) (ws now : Nat) :
    Relay.start.userCounter = 1 ∧
    (relayRun events).userCounter = 1 + (events.filter RelayEvent.isConnection).length ∧
    (relayStep (relayRun events) (RelayEvent.connection ws now)).sends.head?
      = some { target := ws,
               frame := userIdFrame (guestId ((events.filter RelayEvent.isConnection).length + 1)) } ∧
    (relayStep (relayRun events) (RelayEvent.connection ws now)).relay.connectedUsers.lookup ws
      = some { id := guestId ((events.filter RelayEvent.isConnection).length + 1),
               connected := now } ∧
    (∀ e, e.isConnection = false →
      (relayStep (relayRun events) e).relay.userCounter = (relayRun events).userCounter) ∧
    (∀ (ws0 now0 : Nat) (later : List RelayEvent),
      (events.filter RelayEvent.isConnection).length + 1
        < ((events ++ RelayEvent.connection ws0 now0 :: later).filter
            RelayEvent.isConnection).length + 1) ∧
    (∀ i j : Nat, i ≠ j → guestId i ≠ guestId j) := by
  have hc := relayRun_userCounter events
  have hc2 : (relayRun events).userCounter
      = (events.filter RelayEvent.isConnection).length + 1 := by omega
  refine ⟨rfl, hc, ?_, ?_, ?_, ?_, ?_⟩
  · simp [relayStep, onConnection, hc2]
  · simp only [relayStep, onConnection, hc2]
    exact mapSet_lookup _ _ _
  · intro e he
    cases e with
    | connection ws now => simp [RelayEvent.isConnection] at he
    | close ws =>
      simp only [relayStep, onDisconnect]
      split <;> rfl
    | message ws now data => simp only [relayStep, onMessage_relay]
  · intro ws0 now0 later
    rw [List.filter_append, List.length_append,
      List.filter_cons_of_pos (by rfl : (RelayEvent.connection ws0 now0).isConnection = true),
      List.length_cons]
    omega
  · intro i j hij h
    exact hij (guestId_injective i j h)

theorem identifiers_count_connections_witness :
    (relayStep (relayRun [RelayEvent.connection 1 5, RelayEvent.close 1])
        (RelayEvent.close 1)).relay.userCounter
      = (relayRun [RelayEvent.connection 1 5, RelayEvent.close 1]).userCounter ∧
    guestId 1 ≠ guestId 2 :=
  ⟨(identifiers_count_connections [RelayEvent.connection 1 5, RelayEvent.close 1] 1 9).2.2.2.2.1
      (RelayEvent.close 1) rfl,
   (identifiers_count_connections [] 0 0).2.2.2.2.2.2 1 2 (by decide)⟩

/-- C16: for a frame that is not valid JSON, or whose JSON value is a number, a
string, a boolean or `null`, the relay sends nothing, to no peer and not to
the sender, and leaves its state unchanged; the handler ends normally, with a
line on the console. -/
theorem malformed_frame_dropped (now : Nat) (r : Relay) (ws : Nat) (data : Frame)
    (h : data.parsed = none ∨ ∃ v, data.parsed = some v ∧ v.isPrimitive = true) :
    (onMessage now r ws data).sends = [] ∧ (onMessage now r ws data).relay = r ∧
    (onMessage now r ws data).log ≠ [] := by
  refine ⟨?_, onMessage_relay now r ws data, ?_⟩
  · unfold onMessage
    split
    · rfl
    · rcases h with h | ⟨v, h, hv⟩
      · simp [h]
      · rw [h]
        cases v <;> simp [JsValue.isPrimitive] at hv <;>
          simp [JsValue.truthy, JsValue.typeofObject]
  · unfold onMessage
    split
    · simp
    · rcases h with h | ⟨v, h, hv⟩
      · simp [h]
      · rw [h]
        cases v <;> simp [JsValue.isPrimitive] at hv <;>
          simp [JsValue.truthy, JsValue.typeofObject]

theorem malformed_frame_dropped_witness :
    (onMessage 1000 relay3 1 { length := 5, parsed := some (JsValue.str "hello") }).sends = [] ∧
    (onMessage 1000 relay3 1 { length := 5, parsed := some (JsValue.str "hello") }).relay
      = relay3 ∧
    (onMessage 1000 relay3 1 { length := 5, parsed := some (JsValue.str "hello") }).log ≠ [] :=
  malformed_frame_dropped 1000 relay3 1 { length := 5, parsed := some (JsValue.str "hello") }
    (Or.inr ⟨JsValue.str "hello", rfl, rfl⟩)

/-! ### Inbound dispatch (C17, C18, C19) -/

theorem setProp_lookup (props : List (String × JsValue)) (k : String) (v : JsValue) :
    (setProp props k v).lookup k = some v := by
  induction props with
  | nil => simp [setProp, List.lookup]
  | cons p rest ih =>
    obtain ⟨k0, v0⟩ := p
    unfold setProp
    by_cases h : k0 = k
    · subst h; simp [List.lookup]
    · have hb : (k == k0) = false := by simpa using fun e => h e.symm
      simp [h, List.lookup, hb, ih]

theorem setProp_lookup_ne (props : List (String × JsValue)) (k k' : String) (v : JsValue)
    (hne : k' ≠ k) : (setProp props k v).lookup k' = props.lookup k' := by
  induction props with
  | nil =>
    have hb : (k' == k) = false := by simpa using hne
    simp [setProp, List.lookup, hb]
  | cons p rest ih =>
    obtain ⟨k0, v0⟩ := p
    unfold setProp
    by_cases h : k0 = k
    · subst h
      have hb : (k' == k0) = false := by simpa using hne
      simp [List.lookup, hb]
    · simp only [h, if_false, List.lookup]
      cases k' == k0 <;> simp [ih]

theorem typeTag_eq_some (type : Option JsValue) (t : String) :
    typeTag type = some t ↔ type = some (JsValue.str t) := by
  cases type with
  | none => simp [typeTag]
  | some v => cases v <;> simp [typeTag]

/-- C17: for a message that is a JSON object, `handleMessage` does not reject
and fires one event chosen by the `type`: `user_id` fires 'user_id' with
`message.userId`, `user_count` fires 'user_count' with `message.count`,
`text_message` fires 'message' with the fields of the message, `content`
replaced by `decryptMessage(content)` and `decrypted` set to `true`,
`voice_message` and `file_message` fire the event of the same name with the
message unchanged, and any other `type` fires nothing. -/
theorem handleMessage_dispatch {Key : Type} (P : Provider Key) (cm : CryptoManager Key)
    (props : List (String × JsValue)) (w : Platform) :
    (handleMessage P cm (JsValue.obj props) w).rejected = none ∧
    (props.lookup "type" = some (JsValue.str "user_id") →
      (handleMessage P cm (JsValue.obj props) w).effects
        = [triggerWith "user_id" (props.lookup "userId")]) ∧
    (props.lookup "type" = some (JsValue.str "user_count") →
      (handleMessage P cm (JsValue.obj props) w).effects
        = [triggerWith "user_count" (props.lookup "count")]) ∧
    (props.lookup "type" = some (JsValue.str "text_message") →
      ∃ fields, (handleMessage P cm (JsValue.obj props) w).effects
          = [ClientEffect.trigger "message" (JsValue.obj fields)] ∧
        fields.lookup "content"
          = some (JsValue.str (ofUnits (decryptMessage P cm (props.lookup "content") w).1)) ∧
        fields.lookup "decrypted" = some (JsValue.bool true) ∧
        ∀ k, k ≠ "content" → k ≠ "decrypted" → fields.lookup k = props.lookup k) ∧
    (props.lookup "type" = some (JsValue.str "voice_message") →
      (handleMessage P cm (JsValue.obj props) w).effects
        = [ClientEffect.trigger "voice_message" (JsValue.obj props)]) ∧
    (props.lookup "type" = some (JsValue.str "file_message") →
      (handleMessage P cm (JsValue.obj props) w).effects
        = [ClientEffect.trigger "file_message" (JsValue.obj props)]) ∧
    ((∀ t ∈ ["user_id", "user_count", "text_message", "voice_message", "file_message"],
        props.lookup "type" ≠ some (JsValue.str t)) →
      (handleMessage P cm (JsValue.obj props) w).effects = []) := by
  refine ⟨?_, ?_, ?_, ?_, ?_, ?_, ?_⟩
  · unfold handleMessage
    simp only [JsValue.get]
    split_ifs <;> rfl
  · intro h
    simp [handleMessage, JsValue.get, h, typeTag]
  · intro h
    simp [handleMessage, JsValue.get, h, typeTag]
  · intro h
    refine ⟨setProp (setProp props "content"
        (JsValue.str (ofUnits (decryptMessage P cm (props.lookup "content") w).1)))
        "decrypted" (JsValue.bool true), ?_, ?_, ?_, ?_⟩
    · simp [handleMessage, JsValue.get, h, typeTag, spreadProps]
    · rw [setProp_lookup_ne _ _ _ _ (by decide)]
      exact setProp_lookup _ _ _
    · exact setProp_lookup _ _ _
    · intro k h1 h2
      rw [setProp_lookup_ne _ _ _ _ h2, setProp_lookup_ne _ _ _ _ h1]
  · intro h
    simp [handleMessage, JsValue.get, h, typeTag]
  · intro h
    simp [handleMessage, JsValue.get, h, typeTag]
  · intro h
    have h1 := fun t ht => mt (typeTag_eq_some (props.lookup "type") t).1 (h t ht)
    unfold handleMessage
    simp only [JsValue.get]
    rw [if_neg (h1 _ (by simp)), if_neg (h1 _ (by simp)), if_neg (h1 _ (by simp)),
      if_neg (h1 _ (by simp)), if_neg (h1 _ (by simp))]

theorem handleMessage_dispatch_witness :
    (handleMessage toyProvider { key := some 7, keyGenerated := true }
        (JsValue.obj [("type", JsValue.str "user_count"), ("count", JsValue.num 3)])
        { drawn := 0, subtleCalls := [] }).effects
      = [triggerWith "user_count"
          (List.lookup "count" [("type", JsValue.str "user_count"), ("count", JsValue.num 3)])] ∧
    (handleMessage toyProvider { key := some 7, keyGenerated := true }
        (JsValue.obj [("type", JsValue.str "ping")]) { drawn := 0, subtleCalls := [] }).effects
      = [] :=
  ⟨(handleMessage_dispatch toyProvider { key := some 7, keyGenerated := true }
      [("type", JsValue.str "user_count"), ("count", JsValue.num 3)]
      { drawn := 0, subtleCalls := [] }).2.2.1 rfl,
   (handleMessage_dispatch toyProvider { key := some 7, keyGenerated := true }
      [("type", JsValue.str "ping")] { drawn := 0, subtleCalls := [] }).2.2.2.2.2.2
      (by
        intro t ht h
        have h2 : JsValue.str "ping" = JsValue.str t := by simpa [List.lookup] using h
        injection h2 with h3
        subst h3
        simp at ht)⟩

/-- C18: for a transport frame that is not valid JSON, the `onmessage` handler
does not raise, fires no event and leaves the manager (`isConnected`,
`reconnectAttempts`, `messageQueue` and the rest) unchanged; and for no frame
at all does the handler raise or change the manager. -/
theorem invalid_frame_ignored {Key : Type} (P : Provider Key) (cm : CryptoManager Key)
    (m : WebSocketManager) (parsed : Option JsValue) (w : Platform) :
    (onTransportMessage P cm m none w).1.thrown = none ∧
    (onTransportMessage P cm m none w).1.effects = [] ∧
    triggered (onTransportMessage P cm m none w).1.effects = [] ∧
    (onTransportMessage P cm m none w).1.manager = m ∧
    (onTransportMessage P cm m none w).2 = w ∧
    (onTransportMessage P cm m parsed w).1.thrown = none ∧
    (onTransportMessage P cm m parsed w).1.manager = m := by
  refine ⟨rfl, rfl, rfl, rfl, rfl, ?_, ?_⟩ <;> cases parsed <;> rfl

/-- C19: `decryptMessage` returns a string for every input and every key
state: '[Message chiffré - clé non disponible]' when no key is generated;
otherwise '[Message invalide]' when the content is not a string or is empty;
otherwise '[Message non déchiffrable]' when the content is not valid base64,
and else the decoded plaintext of the provider or '[Message non
déchiffrable]'; the latter in particular when the content decodes to fewer
than 12 bytes, the provider rejecting the empty ciphertext that is left. -/
theorem decryptMessage_total {Key : Type} (P : Provider Key) (cm : CryptoManager Key)
    (content : Option JsValue) (w : Platform) :
    (cm.keyGenerated = false → (decryptMessage P cm content w).1 = keyUnavailable) ∧
    (cm.keyGenerated = true → (∀ s, content = some (JsValue.str s) → s = "") →
      (decryptMessage P cm content w).1 = invalidMessage) ∧
    (cm.keyGenerated = true → ∀ s, content = some (JsValue.str s) → s ≠ "" →
      (atob (jsLit s) = none → (decryptMessage P cm content w).1 = undecryptable) ∧
      (∀ bytes, atob (jsLit s) = some bytes →
        (decryptMessage P cm content w).1 = undecryptable ∨
        ∃ k plain, cm.key = some k ∧
          P.decrypt k (bytes.take 12) (bytes.drop 12) = Except.ok plain ∧
          (decryptMessage P cm content w).1 = textDecode plain) ∧
      (∀ bytes, atob (jsLit s) = some bytes → bytes.length < 12 → RejectsEmpty P →
        (decryptMessage P cm content w).1 = undecryptable)) := by
  refine ⟨?_, ?_, ?_⟩
  · intro h
    simp [decryptMessage, h]
  · intro hg hc
    unfold decryptMessage
    simp only [hg, Bool.not_true, Bool.false_eq_true, if_false]
    cases content with
    | none => rfl
    | some v =>
      cases v with
      | str s => simp [hc s rfl]
      | _ => rfl
  · intro hg s hc hs
    subst hc
    have hd : ∀ bytes, atob (jsLit s) = some bytes →
        (decryptMessage P cm (some (JsValue.str s)) w).1
          = match (cm.decrypt P (bytes.drop 12) (bytes.take 12) w).1 with
            | Except.ok text => text
            | Except.error _ => undecryptable := by
      intro bytes hb
      unfold decryptMessage
      simp only [hg, Bool.not_true, Bool.false_eq_true, if_false, hs,
        deserializeEncrypted_of_atob _ _ hb]
      split <;> simp_all
    have hdec : ∀ enc iv : Bytes,
        (cm.decrypt P enc iv w).1
          = match cm.key with
            | some k =>
              (match P.decrypt k iv enc with
                | Except.ok plain => Except.ok (textDecode plain)
                | Except.error _ => Except.ok undecryptable)
            | none => Except.ok undecryptable := by
      intro enc iv
      unfold CryptoManager.decrypt
      simp only [hg, Bool.not_true, Bool.false_eq_true, if_false, subtleCall]
      cases cm.key with
      | none => rfl
      | some k => simp only; split <;> simp_all
    refine ⟨?_, ?_, ?_⟩
    · intro hb
      unfold decryptMessage
      have hn : deserializeEncrypted (jsLit s) = none := by
        simp [deserializeEncrypted, hb]
      simp [hg, hs, hn]
    · intro bytes hb
      rw [hd bytes hb, hdec]
      cases hk : cm.key with
      | none => left; rfl
      | some k =>
        cases hp : P.decrypt k (bytes.take 12) (bytes.drop 12) with
        | error e => left; simp [hp]
        | ok plain => right; exact ⟨k, plain, rfl, hp, by simp [hp]⟩
    · intro bytes hb hlen hrej
      rw [hd bytes hb, hdec]
      have hdrop : bytes.drop 12 = [] := List.drop_eq_nil_of_le (by omega)
      rw [hdrop]
      cases hk : cm.key with
      | none => rfl
      | some k =>
        obtain ⟨e, he⟩ := hrej k (bytes.take 12)
        simp [he]

theorem toyProvider_rejectsEmpty : RejectsEmpty toyProvider := by
  intro k iv
  exact ⟨"OperationError", by simp [toyProvider]⟩

theorem decryptMessage_total_witness :
    (decryptMessage toyProvider { key := none, keyGenerated := false }
        (some (JsValue.num 3)) { drawn := 0, subtleCalls := [] }).1 = keyUnavailable ∧
    (decryptMessage toyProvider { key := some 7, keyGenerated := true }
        (some (JsValue.num 3)) { drawn := 0, subtleCalls := [] }).1 = invalidMessage ∧
    (decryptMessage toyProvider { key := some 7, keyGenerated := true }
        (some (JsValue.str "*")) { drawn := 0, subtleCalls := [] }).1 = undecryptable ∧
    (decryptMessage toyProvider { key := some 7, keyGenerated := true }
        (some (JsValue.str "AAEC")) { drawn := 0, subtleCalls := [] }).1 = undecryptable :=
  ⟨(decryptMessage_total toyProvider { key := none, keyGenerated := false }
      (some (JsValue.num 3)) { drawn := 0, subtleCalls := [] }).1 rfl,
   (decryptMessage_total toyProvider { key := some 7, keyGenerated := true }
      (some (JsValue.num 3)) { drawn := 0, subtleCalls := [] }).2.1 rfl
      (by intro s h; simp at h),
   ((decryptMessage_total toyProvider { key := some 7, keyGenerated := true }
      (some (JsValue.str "*")) { drawn := 0, subtleCalls := [] }).2.2 rfl "*" rfl
      (by decide)).1 (by decide),
   ((decryptMessage_total toyProvider { key := some 7, keyGenerated := true }
      (some (JsValue.str "AAEC")) { drawn := 0, subtleCalls := [] }).2.2 rfl "AAEC" rfl
      (by decide)).2.2 [0, 1, 2] (by decide) (by decide) toyProvider_rejectsEmpty⟩

/-! ### Sending files (C20) -/

theorem sendFiles_foldl {Key : Type} (maxArguments : Nat) (P : Provider Key) (rnd : Nat → Nat)
    (cm : CryptoManager Key) (files : List File) :
    ∀ (m0 : WebSocketManager) (w0 : Platform) (effects : List ClientEffect),
      List.foldl
        (fun (done : FilesStep) file =>
          ({ manager := (sendFile maxArguments P rnd cm done.manager done.platform file).manager,
             platform := (sendFile maxArguments P rnd cm done.manager done.platform file).platform,
             effects := done.effects ++
               (sendFile maxArguments P rnd cm done.manager done.platform file).effects }
              : FilesStep))
        { manager := m0, platform := w0, effects := effects } files
      = { manager := (List.foldl
            (fun (done : FilesStep) file =>
              ({ manager := (sendFile maxArguments P rnd cm done.manager done.platform file).manager,
                 platform :=
                   (sendFile maxArguments P rnd cm done.manager done.platform file).platform,
                 effects := done.effects ++
                   (sendFile maxArguments P rnd cm done.manager done.platform file).effects }
                  : FilesStep))
            { manager := m0, platform := w0, effects := [] } files).manager,
          platform := (List.foldl
            (fun (done : FilesStep) file =>
              ({ manager := (sendFile maxArguments P rnd cm done.manager done.platform file).manager,
                 platform :=
                   (sendFile maxArguments P rnd cm done.manager done.platform file).platform,
                 effects := done.effects ++
                   (sendFile maxArguments P rnd cm done.manager done.platform file).effects }
                  : FilesStep))
            { manager := m0, platform := w0, effects := [] } files).platform,
          effects := effects ++ (List.foldl
            (fun (done : FilesStep) file =>
              ({ manager := (sendFile maxArguments P rnd cm done.manager done.platform file).manager,
                 platform :=
                   (sendFile maxArguments P rnd cm done.manager done.platform file).platform,
                 effects := done.effects ++
                   (sendFile maxArguments P rnd cm done.manager done.platform file).effects }
                  : FilesStep))
            { manager := m0, platform := w0, effects := [] } files).effects } := by
  induction files with
  | nil => intro m0 w0 effects; simp
  | cons f fs ih =>
    intro m0 w0 effects
    rw [List.foldl_cons, List.foldl_cons, ih, ih _ _ ([] ++ _)]
    simp

theorem sendFiles_cons {Key : Type} (maxArguments : Nat) (P : Provider Key) (rnd : Nat → Nat)
    (cm : CryptoManager Key) (m : WebSocketManager) (w : Platform) (file : File)
    (rest : List File) :
    sendFiles maxArguments P rnd cm m w (file :: rest)
      = { manager := (sendFiles maxArguments P rnd cm
            (sendFile maxArguments P rnd cm m w file).manager
            (sendFile maxArguments P rnd cm m w file).platform rest).manager,
          platform := (sendFiles maxArguments P rnd cm
            (sendFile maxArguments P rnd cm m w file).manager
            (sendFile maxArguments P rnd cm m w file).platform rest).platform,
          effects := (sendFile maxArguments P rnd cm m w file).effects ++
            (sendFiles maxArguments P rnd cm
              (sendFile maxArguments P rnd cm m w file).manager
              (sendFile maxArguments P rnd cm m w file).platform rest).effects } := by
  unfold sendFiles
  rw [List.foldl_cons, sendFiles_foldl]
  simp

theorem sendFile_platform {Key : Type} (maxArguments : Nat) (P : Provider Key) (rnd : Nat → Nat)
    (cm : CryptoManager Key) (m : WebSocketManager) (w : Platform) (file : File) :
    (sendFile maxArguments P rnd cm m w file).platform = platformAfter P rnd cm w file := by
  unfold sendFile platformAfter
  by_cases hs : file.size > 10 * 1024 * 1024
  · have hs2 : ¬ file.size ≤ 10 * 1024 * 1024 := by omega
    simp [hs, hs2]
  · have hs2 : file.size ≤ 10 * 1024 * 1024 := by omega
    simp only [hs, hs2, if_false, if_true]
    split
    · rfl
    · split
      · rfl
      · split <;> rfl

theorem sendFile_tooLarge {Key : Type} (maxArguments : Nat) (P : Provider Key) (rnd : Nat → Nat)
    (cm : CryptoManager Key) (m : WebSocketManager) (w : Platform) (file : File)
    (hs : 10 * 1024 * 1024 < file.size) :
    sendFile maxArguments P rnd cm m w file
      = { manager := m, platform := w, effects := [tooLargeNotice file] } := by
  have hs2 : file.size > 10 * 1024 * 1024 := hs
  simp [sendFile, hs2]

theorem sendFile_failing {Key : Type} (maxArguments : Nat) (P : Provider Key) (rnd : Nat → Nat)
    (cm : CryptoManager Key) (m : WebSocketManager) (w : Platform) (file : File)
    (hs : file.size ≤ 10 * 1024 * 1024)
    (hm : messageFor maxArguments P rnd cm (w, file) = none) :
    (sendFile maxArguments P rnd cm m w file).manager = m ∧
    (sendFile maxArguments P rnd cm m w file).effects = [sendFailedNotice file] := by
  have hs2 : ¬ file.size > 10 * 1024 * 1024 := by omega
  unfold messageFor at hm
  simp only [hs, if_true] at hm
  unfold sendFile
  simp only [hs2, if_false]
  cases he : (cm.encryptFile P rnd file w).1 with
  | error e => simp
  | ok ef =>
    simp only [he, Option.map_eq_none'] at hm
    simp [hm]

theorem sendFile_passing {Key : Type} (maxArguments : Nat) (P : Provider Key) (rnd : Nat → Nat)
    (cm : CryptoManager Key) (m : WebSocketManager) (w : Platform) (file : File)
    (message : JsValue) (hm : messageFor maxArguments P rnd cm (w, file) = some message) :
    (sendFile maxArguments P rnd cm m w file).manager = (sendMessage m message).manager ∧
    (sendFile maxArguments P rnd cm m w file).effects
      = (sendMessage m message).effects ++
        (if (sendMessage m message).thrown.isSome then [sendFailedNotice file] else []) := by
  unfold messageFor at hm
  by_cases hs : file.size ≤ 10 * 1024 * 1024
  · have hs2 : ¬ file.size > 10 * 1024 * 1024 := by omega
    simp only [hs, if_true] at hm
    unfold sendFile
    simp only [hs2, if_false]
    cases he : (cm.encryptFile P rnd file w).1 with
    | error e => simp [he] at hm
    | ok ef =>
      simp only [he, Option.map_eq_some'] at hm
      obtain ⟨serialized, hser, hmsg⟩ := hm
      subst hmsg
      simp only [hser]
      cases ht : (sendMessage m (fileMessage file serialized)).thrown with
      | none => simp
      | some e => simp
  · simp [hs] at hm

theorem turns_files {Key : Type} (P : Provider Key) (rnd : Nat → Nat) (cm : CryptoManager Key)
    (w : Platform) (files : List File) :
    (turns P rnd cm w files).map Prod.snd = files := by
  induction files generalizing w with
  | nil => rfl
  | cons f fs ih => simp [turns, ih]

theorem sendFile_step {Key : Type} (maxArguments : Nat) (P : Provider Key) (rnd : Nat → Nat)
    (cm : CryptoManager Key) (m : WebSocketManager) (w : Platform) (file : File) :
    (sendFile maxArguments P rnd cm m w file).manager
      = managerAfter m (messageFor maxArguments P rnd cm (w, file)).toList := by
  cases hm : messageFor maxArguments P rnd cm (w, file) with
  | some message =>
    rw [(sendFile_passing maxArguments P rnd cm m w file message hm).1]
    rfl
  | none =>
    by_cases hs : file.size ≤ 10 * 1024 * 1024
    · rw [(sendFile_failing maxArguments P rnd cm m w file hs hm).1]
      rfl
    · rw [sendFile_tooLarge maxArguments P rnd cm m w file (by omega)]
      rfl

theorem managerAfter_append (m : WebSocketManager) (a b : List JsValue) :
    managerAfter m (a ++ b) = managerAfter (managerAfter m a) b := by
  simp [managerAfter, List.foldl_append]

theorem sendFiles_manager {Key : Type} (maxArguments : Nat) (P : Provider Key) (rnd : Nat → Nat)
    (cm : CryptoManager Key) (m : WebSocketManager) (w : Platform) (files : List File) :
    (sendFiles maxArguments P rnd cm m w files).manager
      = managerAfter m ((turns P rnd cm w files).filterMap (messageFor maxArguments P rnd cm)) := by
  induction files generalizing m w with
  | nil => rfl
  | cons f fs ih =>
    rw [sendFiles_cons]
    simp only [turns]
    rw [ih, sendFile_platform, sendFile_step]
    cases hm : messageFor maxArguments P rnd cm (w, f) with
    | some message =>
      rw [List.filterMap_cons_some hm]
      rfl
    | none =>
      rw [List.filterMap_cons_none hm]
      rfl

theorem sendMessage_open (m : WebSocketManager) (message : JsValue)
    (hc : m.isConnected = true) (hws : m.ws = some WebSocket.OPEN) :
    sendMessage m message
      = { manager := m, effects := [ClientEffect.transmit (stringify message)], thrown := none } := by
  simp [sendMessage, hc, hws, wsSend, WebSocket.OPEN]

theorem sendFile_open {Key : Type} (maxArguments : Nat) (P : Provider Key) (rnd : Nat → Nat)
    (cm : CryptoManager Key) (m : WebSocketManager) (w : Platform) (file : File)
    (hc : m.isConnected = true) (hws : m.ws = some WebSocket.OPEN) :
    (sendFile maxArguments P rnd cm m w file).manager = m ∧
    transmitted (sendFile maxArguments P rnd cm m w file).effects
      = ((messageFor maxArguments P rnd cm (w, file)).toList).map stringify := by
  cases hm : messageFor maxArguments P rnd cm (w, file) with
  | some message =>
    obtain ⟨h1, h2⟩ := sendFile_passing maxArguments P rnd cm m w file message hm
    rw [h1, h2, sendMessage_open m message hc hws]
    exact ⟨rfl, rfl⟩
  | none =>
    by_cases hs : file.size ≤ 10 * 1024 * 1024
    · obtain ⟨h1, h2⟩ := sendFile_failing maxArguments P rnd cm m w file hs hm
      rw [h1, h2]
      exact ⟨rfl, rfl⟩
    · rw [sendFile_tooLarge maxArguments P rnd cm m w file (by omega)]
      exact ⟨rfl, rfl⟩

theorem sendFiles_open {Key : Type} (maxArguments : Nat) (P : Provider Key) (rnd : Nat → Nat)
    (cm : CryptoManager Key) (m : WebSocketManager) (w : Platform) (files : List File)
    (hc : m.isConnected = true) (hws : m.ws = some WebSocket.OPEN) :
    (sendFiles maxArguments P rnd cm m w files).manager = m ∧
    transmitted (sendFiles maxArguments P rnd cm m w files).effects
      = ((turns P rnd cm w files).filterMap (messageFor maxArguments P rnd cm)).map stringify := by
  induction files generalizing w with
  | nil => exact ⟨rfl, rfl⟩
  | cons f fs ih =>
    obtain ⟨h1, h2⟩ := sendFile_open maxArguments P rnd cm m w f hc hws
    rw [sendFiles_cons]
    simp only [turns, transmitted_append, h1, h2, sendFile_platform]
    obtain ⟨h3, h4⟩ := ih (platformAfter P rnd cm w f)
    refine ⟨h3, ?_⟩
    rw [h4]
    cases hm : messageFor maxArguments P rnd cm (w, f) with
    | some message =>
      rw [List.filterMap_cons_some hm]
      rfl
    | none =>
      rw [List.filterMap_cons_none hm]
      rfl

theorem sendFile_disconnected {Key : Type} (maxArguments : Nat) (P : Provider Key)
    (rnd : Nat → Nat) (cm : CryptoManager Key) (m : WebSocketManager) (w : Platform)
    (file : File) (hc : m.isConnected = false) :
    (sendFile maxArguments P rnd cm m w file).manager
      = { m with messageQueue :=
            m.messageQueue ++ (messageFor maxArguments P rnd cm (w, file)).toList } ∧
    transmitted (sendFile maxArguments P rnd cm m w file).effects = [] := by
  cases hm : messageFor maxArguments P rnd cm (w, file) with
  | some message =>
    obtain ⟨h1, h2⟩ := sendFile_passing maxArguments P rnd cm m w file message hm
    rw [h1, h2, sendMessage_disconnected m message hc]
    exact ⟨rfl, rfl⟩
  | none =>
    by_cases hs : file.size ≤ 10 * 1024 * 1024
    · obtain ⟨h1, h2⟩ := sendFile_failing maxArguments P rnd cm m w file hs hm
      rw [h1, h2]
      exact ⟨by simp, rfl⟩
    · rw [sendFile_tooLarge maxArguments P rnd cm m w file (by omega)]
      exact ⟨by simp, rfl⟩

theorem sendFiles_disconnected {Key : Type} (maxArguments : Nat) (P : Provider Key)
    (rnd : Nat → Nat) (cm : CryptoManager Key) (m : WebSocketManager) (w : Platform)
    (files : List File) (hc : m.isConnected = false) :
    (sendFiles maxArguments P rnd cm m w files).manager
      = { m with messageQueue := m.messageQueue ++
            (turns P rnd cm w files).filterMap (messageFor maxArguments P rnd cm) } ∧
    transmitted (sendFiles maxArguments P rnd cm m w files).effects = [] := by
  induction files generalizing m w with
  | nil => exact ⟨by simp [sendFiles, turns], rfl⟩
  | cons f fs ih =>
    obtain ⟨h1, h2⟩ := sendFile_disconnected maxArguments P rnd cm m w f hc
    rw [sendFiles_cons]
    simp only [turns, transmitted_append, h2, sendFile_platform, List.nil_append]
    have hc2 : (sendFile maxArguments P rnd cm m w f).manager.isConnected = false := by
      rw [h1]
      exact hc
    obtain ⟨h3, h4⟩ := ih (sendFile maxArguments P rnd cm m w f).manager
      (platformAfter P rnd cm w f) hc2
    refine ⟨?_, h4⟩
    rw [h3, h1]
    cases hm : messageFor maxArguments P rnd cm (w, f) with
    | some message =>
      rw [List.filterMap_cons_some hm]
      simp
    | none =>
      rw [List.filterMap_cons_none hm]
      simp

theorem encryptFile_ok_inv {Key : Type} (P : Provider Key) (rnd : Nat → Nat)
    (cm : CryptoManager Key) (file : File) (w : Platform) (ef : EncryptedFile)
    (he : (cm.encryptFile P rnd file w).1 = Except.ok ef) :
    ef.iv = (getRandomValues rnd 12 w).1 ∧ ef.name = file.name ∧ ef.type = file.type ∧
    ef.size = file.size ∧
    ∃ buffer k, file.content = some buffer ∧ cm.keyGenerated = true ∧ cm.key = some k ∧
      P.encrypt k (getRandomValues rnd 12 w).1 buffer = Except.ok ef.encrypted := by
  unfold CryptoManager.encryptFile at he
  cases hc : file.content with
  | none => simp [hc] at he
  | some buffer =>
    simp only [hc] at he
    cases hE : cm.encrypt P rnd (Plain.buffer buffer) w with
    | mk res w1 =>
      cases res with
      | error e => simp [hE] at he
      | ok env =>
        simp only [hE, Except.ok.injEq] at he
        subst he
        obtain ⟨hg, k, hk, hiv, hp⟩ := encrypt_ok_inv P rnd cm _ w env w1 hE
        refine ⟨hiv, rfl, rfl, rfl, buffer, k, rfl, hg, hk, ?_⟩
        rw [← hiv]
        exact hp

theorem getRandomValues_isBytes (rnd : Nat → Nat) (n : Nat) (w : Platform) :
    IsBytes (getRandomValues rnd n w).1 ∧ (getRandomValues rnd n w).1.length = n := by
  constructor
  · intro b hb
    simp only [getRandomValues, List.mem_map] at hb
    obtain ⟨i, _, rfl⟩ := hb
    exact Nat.mod_lt _ (by decide)
  · simp [getRandomValues]

theorem messageFor_of_encrypted {Key : Type} (maxArguments : Nat) (P : Provider Key)
    (rnd : Nat → Nat) (cm : CryptoManager Key) (file : File) (w : Platform)
    (ef : EncryptedFile) (hs : file.size ≤ 10 * 1024 * 1024)
    (he : (cm.encryptFile P rnd file w).1 = Except.ok ef) (hb : IsBytes ef.encrypted) :
    (12 + ef.encrypted.length ≤ maxArguments →
      messageFor maxArguments P rnd cm (w, file)
        = some (fileMessage file (base64Encode (ef.iv ++ ef.encrypted)))) ∧
    (maxArguments < 12 + ef.encrypted.length →
      messageFor maxArguments P rnd cm (w, file) = none) := by
  obtain ⟨hiv, _⟩ := encryptFile_ok_inv P rnd cm file w ef he
  obtain ⟨hivb, hivl⟩ := getRandomValues_isBytes rnd 12 w
  rw [← hiv] at hivb hivl
  unfold messageFor
  simp only [hs, if_true, he]
  constructor
  · intro hfit
    rw [serializeEncrypted_eq maxArguments ef.encrypted ef.iv hb hivb (by omega)]
    rfl
  · intro hover
    rw [serializeEncrypted_throws maxArguments ef.encrypted ef.iv (by omega)]
    rfl

/-- C20 fails on a file of 130 000 bytes: on an engine that accepts 65 536
arguments in one call, the file is below 10 MiB and its encryption succeeds,
yet over an open socket `sendFiles` transmits no `file_message` for it: the
serialization throws, and the error notice is shown. -/
theorem sendFiles_drops_file_beyond_argument_limit :
    mediumFile.size ≤ 10 * 1024 * 1024 ∧
    (∃ ef, (CryptoManager.encryptFile toyProvider (fun i => i)
        { key := some 7, keyGenerated := true } mediumFile
        { drawn := 0, subtleCalls := [] }).1 = Except.ok ef) ∧
    (sendFiles 65536 toyProvider (fun i => i) { key := some 7, keyGenerated := true }
        { WebSocketManager.new with ws := some 1, isConnected := true }
        { drawn := 0, subtleCalls := [] } [mediumFile]).effects
      = [ClientEffect.notify "Erreur lors de l'envoi de \"notes.txt\"" "error"] ∧
    transmitted (sendFiles 65536 toyProvider (fun i => i) { key := some 7, keyGenerated := true }
        { WebSocketManager.new with ws := some 1, isConnected := true }
        { drawn := 0, subtleCalls := [] } [mediumFile]).effects = [] := by
  have he : (CryptoManager.encryptFile toyProvider (fun i => i)
      { key := some 7, keyGenerated := true } mediumFile { drawn := 0, subtleCalls := [] }).1
      = Except.ok { encrypted := List.replicate 130000 0 ++ [73],
                    iv := [0, 1, 2, 3, 4, 5, 6, 7, 8, 9, 10, 11],
                    name := "notes.txt", type := "text/plain", size := 130000 } := rfl
  have hb : IsBytes (List.replicate 130000 0 ++ [73]) :=
    isBytes_append _ _ (isBytes_replicate_zero _) (by decide)
  have hlen : (List.replicate 130000 0 ++ [73]).length = 130001 := by
    rw [List.length_append, List.length_replicate]
    rfl
  have hm := (messageFor_of_encrypted 65536 toyProvider (fun i => i)
    { key := some 7, keyGenerated := true } mediumFile { drawn := 0, subtleCalls := [] } _
    (by decide) he hb).2
    (Nat.lt_of_lt_of_le (by decide : 65536 < 12 + 130001)
      (Nat.le_of_eq (congrArg (fun n => 12 + n) hlen.symm)))
  have hf := (sendFile_failing 65536 toyProvider (fun i => i)
    { key := some 7, keyGenerated := true }
    { WebSocketManager.new with ws := some 1, isConnected := true }
    { drawn := 0, subtleCalls := [] } mediumFile (by decide) hm).2
  have heff : (sendFiles 65536 toyProvider (fun i => i) { key := some 7, keyGenerated := true }
      { WebSocketManager.new with ws := some 1, isConnected := true }
      { drawn := 0, subtleCalls := [] } [mediumFile]).effects
      = [ClientEffect.notify "Erreur lors de l'envoi de \"notes.txt\"" "error"] := by
    rw [sendFiles_cons]
    show _ ++ [] = _
    rw [List.append_nil, hf]
    rfl
  refine ⟨by decide, ⟨_, he⟩, heff, ?_⟩
  rw [heff]
  rfl

/-- What `sendFiles` does with a list of files, the serialization included:
`sendFiles` gives every file its turn, in input order. A
file larger than 10 MiB gives a warning and nothing else. A file of at most
10 MiB whose read, encryption or serialization fails gives the error notice and
nothing else; the serialization fails exactly when the 12 bytes of the nonce
and the ciphertext are more than the engine accepts arguments in one call. Any
other file gives one call of `sendMessage`, with a `file_message` that carries
its name, type and size. Hence over an open socket the frames transmitted are,
in input order, those messages, one per passing file, and on a channel that is
not connected they are queued in that order; a rejected or failing file does
not stop the files after it. -/
theorem sendFiles_sends_passing_files_in_order {Key : Type} (maxArguments : Nat)
    (P : Provider Key) (rnd : Nat → Nat) (cm : CryptoManager Key) (m : WebSocketManager)
    (w : Platform) (files : List File) :
    (turns P rnd cm w files).map Prod.snd = files ∧
    (∀ (file : File) (rest : List File) (m0 : WebSocketManager) (w0 : Platform),
      (sendFiles maxArguments P rnd cm m0 w0 (file :: rest)).effects
        = (sendFile maxArguments P rnd cm m0 w0 file).effects ++
          (sendFiles maxArguments P rnd cm (sendFile maxArguments P rnd cm m0 w0 file).manager
            (platformAfter P rnd cm w0 file) rest).effects) ∧
    (∀ (file : File) (m0 : WebSocketManager) (w0 : Platform), 10 * 1024 * 1024 < file.size →
      messageFor maxArguments P rnd cm (w0, file) = none ∧
      (sendFile maxArguments P rnd cm m0 w0 file).manager = m0 ∧
      (sendFile maxArguments P rnd cm m0 w0 file).effects
        = [ClientEffect.notify ("Fichier \"" ++ file.name ++ "\" trop volumineux (max 10MB)")
            "warning"]) ∧
    (∀ (file : File) (m0 : WebSocketManager) (w0 : Platform),
      file.size ≤ 10 * 1024 * 1024 → messageFor maxArguments P rnd cm (w0, file) = none →
      (sendFile maxArguments P rnd cm m0 w0 file).manager = m0 ∧
      (sendFile maxArguments P rnd cm m0 w0 file).effects
        = [ClientEffect.notify ("Erreur lors de l'envoi de \"" ++ file.name ++ "\"") "error"]) ∧
    (∀ (file : File) (m0 : WebSocketManager) (w0 : Platform) (message : JsValue),
      messageFor maxArguments P rnd cm (w0, file) = some message →
      file.size ≤ 10 * 1024 * 1024 ∧
      (∃ serialized, message = JsValue.obj
        [("type", JsValue.str "file_message"), ("content", JsValue.str (ofUnits serialized)),
         ("fileName", JsValue.str file.name), ("fileType", JsValue.str file.type),
         ("fileSize", JsValue.num file.size)]) ∧
      (sendFile maxArguments P rnd cm m0 w0 file).manager = (sendMessage m0 message).manager ∧
      (sendFile maxArguments P rnd cm m0 w0 file).effects
        = (sendMessage m0 message).effects ++
          (if (sendMessage m0 message).thrown.isSome then [sendFailedNotice file] else [])) ∧
    (∀ (file : File) (w0 : Platform) (ef : EncryptedFile), file.size ≤ 10 * 1024 * 1024 →
      (cm.encryptFile P rnd file w0).1 = Except.ok ef → IsBytes ef.encrypted →
      (12 + ef.encrypted.length ≤ maxArguments →
        messageFor maxArguments P rnd cm (w0, file)
          = some (fileMessage file (base64Encode (ef.iv ++ ef.encrypted)))) ∧
      (maxArguments < 12 + ef.encrypted.length →
        messageFor maxArguments P rnd cm (w0, file) = none)) ∧
    (∀ (file : File) (w0 : Platform) (e : CryptoError), file.size ≤ 10 * 1024 * 1024 →
      (cm.encryptFile P rnd file w0).1 = Except.error e →
      messageFor maxArguments P rnd cm (w0, file) = none) ∧
    (sendFiles maxArguments P rnd cm m w files).manager
      = managerAfter m
          ((turns P rnd cm w files).filterMap (messageFor maxArguments P rnd cm)) ∧
    (m.isConnected = true → m.ws = some WebSocket.OPEN →
      (sendFiles maxArguments P rnd cm m w files).manager = m ∧
      transmitted (sendFiles maxArguments P rnd cm m w files).effects
        = ((turns P rnd cm w files).filterMap (messageFor maxArguments P rnd cm)).map
            stringify) ∧
    (m.isConnected = false →
      (sendFiles maxArguments P rnd cm m w files).manager
        = { m with messageQueue := m.messageQueue ++
              (turns P rnd cm w files).filterMap (messageFor maxArguments P rnd cm) } ∧
      transmitted (sendFiles maxArguments P rnd cm m w files).effects = []) := by
  refine ⟨turns_files P rnd cm w files, ?_, ?_, ?_, ?_, ?_, ?_,
    sendFiles_manager maxArguments P rnd cm m w files,
    sendFiles_open maxArguments P rnd cm m w files,
    sendFiles_disconnected maxArguments P rnd cm m w files⟩
  · intro file rest m0 w0
    rw [sendFiles_cons, sendFile_platform]
  · intro file m0 w0 hs
    have hs2 : ¬ file.size ≤ 10 * 1024 * 1024 := by omega
    rw [sendFile_tooLarge maxArguments P rnd cm m0 w0 file hs]
    exact ⟨by simp [messageFor, hs2], rfl, rfl⟩
  · intro file m0 w0 hs hm
    exact sendFile_failing maxArguments P rnd cm m0 w0 file hs hm
  · intro file m0 w0 message hm
    obtain ⟨h1, h2⟩ := sendFile_passing maxArguments P rnd cm m0 w0 file message hm
    have hs : file.size ≤ 10 * 1024 * 1024 := by
      by_contra hn
      simp [messageFor, hn] at hm
    refine ⟨hs, ?_, h1, h2⟩
    unfold messageFor at hm
    simp only [hs, if_true] at hm
    cases he : (cm.encryptFile P rnd file w0).1 with
    | error e => simp [he] at hm
    | ok ef =>
      simp only [he, Option.map_eq_some'] at hm
      obtain ⟨serialized, _, hmsg⟩ := hm
      exact ⟨serialized, hmsg.symm⟩
  · intro file w0 ef hs he hb
    exact messageFor_of_encrypted maxArguments P rnd cm file w0 ef hs he hb
  · intro file w0 e hs he
    simp [messageFor, hs, he]

theorem sendFiles_sends_passing_files_in_order_witness :
    (sendFile 65536 toyProvider (fun i => i) { key := some 7, keyGenerated := true }
        WebSocketManager.new { drawn := 0, subtleCalls := [] }
        { name := "big", type := "x", size := 10485761, content := some [] }).effects
      = [ClientEffect.notify "Fichier \"big\" trop volumineux (max 10MB)" "warning"] ∧
    (sendFile 65536 toyProvider (fun i => i) { key := some 7, keyGenerated := true }
        WebSocketManager.new { drawn := 0, subtleCalls := [] }
        { name := "bad", type := "x", size := 3, content := none }).effects
      = [ClientEffect.notify "Erreur lors de l'envoi de \"bad\"" "error"] ∧
    transmitted (sendFiles 65536 toyProvider (fun i => i) { key := some 7, keyGenerated := true }
        { WebSocketManager.new with ws := some 1, isConnected := true }
        { drawn := 0, subtleCalls := [] }
        [{ name := "big", type := "x", size := 10485761, content := some [] },
         { name := "bad", type := "x", size := 3, content := none },
         { name := "a.txt", type := "text/plain", size := 2, content := some [104, 105] }]).effects
      = [stringify (JsValue.obj
          [("type", JsValue.str "file_message"), ("content", JsValue.str "AAECAwQFBgcICQoLaGlJ"),
           ("fileName", JsValue.str "a.txt"), ("fileType", JsValue.str "text/plain"),
           ("fileSize", JsValue.num 2)])] ∧
    (sendFiles 65536 toyProvider (fun i => i) { key := some 7, keyGenerated := true }
        WebSocketManager.new { drawn := 0, subtleCalls := [] }
        [{ name := "big", type := "x", size := 10485761, content := some [] },
         { name := "bad", type := "x", size := 3, content := none },
         { name := "a.txt", type := "text/plain", size := 2, content := some [104, 105] }]).manager.messageQueue
      = [JsValue.obj
          [("type", JsValue.str "file_message"), ("content", JsValue.str "AAECAwQFBgcICQoLaGlJ"),
           ("fileName", JsValue.str "a.txt"), ("fileType", JsValue.str "text/plain"),
           ("fileSize", JsValue.num 2)]] :=
  ⟨((sendFiles_sends_passing_files_in_order 65536 toyProvider (fun i => i)
      { key := some 7, keyGenerated := true } WebSocketManager.new
      { drawn := 0, subtleCalls := [] } []).2.2.1
      { name := "big", type := "x", size := 10485761, content := some [] }
      WebSocketManager.new { drawn := 0, subtleCalls := [] } (by decide)).2.2,
   ((sendFiles_sends_passing_files_in_order 65536 toyProvider (fun i => i)
      { key := some 7, keyGenerated := true } WebSocketManager.new
      { drawn := 0, subtleCalls := [] } []).2.2.2.1
      { name := "bad", type := "x", size := 3, content := none }
      WebSocketManager.new { drawn := 0, subtleCalls := [] } (by decide) rfl).2,
   ((sendFiles_sends_passing_files_in_order 65536 toyProvider (fun i => i)
      { key := some 7, keyGenerated := true }
      { WebSocketManager.new with ws := some 1, isConnected := true }
      { drawn := 0, subtleCalls := [] }
      [{ name := "big", type := "x", size := 10485761, content := some [] },
       { name := "bad", type := "x", size := 3, content := none },
       { name := "a.txt", type := "text/plain", size := 2, content := some [104, 105] }]
      ).2.2.2.2.2.2.2.2.1 rfl rfl).2,
   congrArg WebSocketManager.messageQueue
    ((sendFiles_sends_passing_files_in_order 65536 toyProvider (fun i => i)
      { key := some 7, keyGenerated := true } WebSocketManager.new
      { drawn := 0, subtleCalls := [] }
      [{ name := "big", type := "x", size := 10485761, content := some [] },
       { name := "bad", type := "x", size := 3, content := none },
       { name := "a.txt", type := "text/plain", size := 2, content := some [104, 105] }]
      ).2.2.2.2.2.2.2.2.2 rfl).1⟩

/-! ### Short input, nonce, relayed fields (C22, C23, C25) -/

/-- C22: for every string whose base64 decoding has fewer than 12 bytes,
`deserializeEncrypted` does not raise and returns an envelope whose `encrypted`
part is empty and whose `iv` is made of all the decoded bytes, so that its
length is below 12. -/
theorem deserialize_short_input (s bytes : List Nat) (h : atob s = some bytes)
    (hlen : bytes.length < 12) :
    deserializeEncrypted s = some { encrypted := [], iv := bytes } ∧
    ∀ envelope, deserializeEncrypted s = some envelope →
      envelope.encrypted = [] ∧ envelope.iv = bytes ∧ envelope.iv.length < 12 := by
  have hd : deserializeEncrypted s = some { encrypted := [], iv := bytes } := by
    rw [deserializeEncrypted_of_atob s bytes h, List.drop_eq_nil_of_le (by omega),
      List.take_of_length_le (by omega)]
  refine ⟨hd, ?_⟩
  intro envelope he
  rw [hd] at he
  simp only [Option.some.injEq] at he
  subst he
  exact ⟨rfl, rfl, hlen⟩

theorem deserialize_short_input_witness :
    deserializeEncrypted (jsLit "QUJD") = some { encrypted := [], iv := [65, 66, 67] } ∧
    ∀ envelope, deserializeEncrypted (jsLit "QUJD") = some envelope →
      envelope.encrypted = [] ∧ envelope.iv = [65, 66, 67] ∧ envelope.iv.length < 12 :=
  deserialize_short_input (jsLit "QUJD") [65, 66, 67] (by decide) (by decide)

theorem encrypt_ok_platform {Key : Type} (P : Provider Key) (rnd : Nat → Nat)
    (m : CryptoManager Key) (data : Plain) (w : Platform) (env : Envelope) (w1 : Platform)
    (h : m.encrypt P rnd data w = (Except.ok env, w1)) :
    w1 = { drawn := w.drawn + 12, subtleCalls := w.subtleCalls ++ ["encrypt"] } := by
  unfold CryptoManager.encrypt at h
  by_cases hk : m.keyGenerated = true
  · simp only [hk, Bool.not_true, Bool.false_eq_true, if_false, subtleCall, getRandomValues] at h
    split at h
    · simp only [Prod.mk.injEq] at h
      exact h.2.symm
    · simp at h
  · simp [hk] at h

/-- C23: a successful `encrypt` call draws once from the random source, 12
bytes, and returns them unchanged as the nonce of the envelope, which is 12
bytes long; the nonce is the same for any other successful call made at the
same point of the random stream, whatever its key, provider and data. -/
theorem nonce_is_the_random_draw {Key : Type} (P : Provider Key) (rnd : Nat → Nat)
    (m : CryptoManager Key) (data : Plain) (w w1 : Platform) (env : Envelope)
    (h : m.encrypt P rnd data w = (Except.ok env, w1)) :
    env.iv = (List.range 12).map (fun i => rnd (w.drawn + i) % 256) ∧
    env.iv.length = 12 ∧ IsBytes env.iv ∧
    w1.drawn = w.drawn + 12 ∧
    ∀ (Key2 : Type) (P2 : Provider Key2) (m2 : CryptoManager Key2) (data2 : Plain)
      (v v1 : Platform) (env2 : Envelope),
      m2.encrypt P2 rnd data2 v = (Except.ok env2, v1) → v.drawn = w.drawn →
      env2.iv = env.iv := by
  obtain ⟨_, k, _, hiv, _⟩ := encrypt_ok_inv P rnd m data w env w1 h
  have hiv2 : env.iv = (List.range 12).map (fun i => rnd (w.drawn + i) % 256) := by
    rw [hiv]; rfl
  refine ⟨hiv2, by rw [hiv2]; simp, ?_, ?_, ?_⟩
  · rw [hiv2]
    intro b hb
    obtain ⟨i, _, rfl⟩ := List.mem_map.1 hb
    exact Nat.mod_lt _ (by decide)
  · rw [encrypt_ok_platform P rnd m data w env w1 h]
  · intro Key2 P2 m2 data2 v v1 env2 h2 hv
    obtain ⟨_, k2, _, hiv3, _⟩ := encrypt_ok_inv P2 rnd m2 data2 v env2 v1 h2
    rw [hiv3, hiv2, ← hv]
    rfl

theorem nonce_is_the_random_draw_witness :
    ([0, 1, 2, 3, 4, 5, 6, 7, 8, 9, 10, 11] : List Nat)
        = (List.range 12).map (fun i => (fun j => j) (0 + i) % 256) ∧
    ([0, 1, 2, 3, 4, 5, 6, 7, 8, 9, 10, 11] : List Nat).length = 12 ∧
    IsBytes [0, 1, 2, 3, 4, 5, 6, 7, 8, 9, 10, 11] ∧
    (12 : Nat) = 0 + 12 ∧
    ∀ (Key2 : Type) (P2 : Provider Key2) (m2 : CryptoManager Key2) (data2 : Plain)
      (v v1 : Platform) (env2 : Envelope),
      m2.encrypt P2 (fun j => j) data2 v = (Except.ok env2, v1) → v.drawn = 0 →
      env2.iv = [0, 1, 2, 3, 4, 5, 6, 7, 8, 9, 10, 11] :=
  nonce_is_the_random_draw toyProvider (fun j => j) { key := some 7, keyGenerated := true }
    (Plain.text [104, 233]) { drawn := 0, subtleCalls := [] }
    { drawn := 12, subtleCalls := ["encrypt"] }
    { encrypted := [104, 195, 169, 73], iv := [0, 1, 2, 3, 4, 5, 6, 7, 8, 9, 10, 11] } rfl

theorem lookup_stringifyProps (props : List (String × JsValue)) (k : String) :
    (stringifyProps props).lookup k = (props.lookup k).map stringify := by
  induction props with
  | nil => rfl
  | cons p rest ih =>
    obtain ⟨k', v'⟩ := p
    by_cases h : (k == k') = true
    · simp [stringifyProps, List.lookup, h]
    · have h' : (k == k') = false := by simpa using h
      simp [stringifyProps, List.lookup, h', ih]

theorem lookup_defineProp (props : List (String × JsValue)) (k1 : String) (v : JsValue)
    (k : String) :
    (defineProp props k1 v).lookup k = if k = k1 then some v else props.lookup k := by
  induction props with
  | nil =>
    by_cases h : k = k1
    · subst h
      simp [defineProp, List.lookup]
    · have hb : (k == k1) = false := by simpa using h
      simp [defineProp, List.lookup, hb, h]
  | cons p rest ih =>
    obtain ⟨k2, v2⟩ := p
    unfold defineProp
    by_cases h1 : k2 = k1
    · subst h1
      rw [if_pos rfl]
      by_cases h : k = k2
      · subst h
        simp [List.lookup]
      · have hb : (k == k2) = false := by simpa using h
        simp [List.lookup, hb, h]
    · rw [if_neg h1]
      by_cases hl : listedBefore k1 k2 = true
      · rw [if_pos hl]
        by_cases h : k = k1
        · subst h
          simp [List.lookup]
        · have hb : (k == k1) = false := by simpa using h
          simp [List.lookup, hb, h]
      · rw [if_neg hl]
        by_cases h : k = k2
        · subst h
          simp [List.lookup, h1]
        · have hb : (k == k2) = false := by simpa using h
          simp only [List.lookup, hb, ih]

theorem lookup_eq_none_of_not_mem (members : List (String × Json)) (k : String)
    (h : k ∉ members.map Prod.fst) : members.lookup k = none := by
  induction members with
  | nil => rfl
  | cons p rest ih =>
    obtain ⟨k', v'⟩ := p
    have hne : (k == k') = false := by
      simp only [List.map_cons, List.mem_cons, not_or] at h
      simpa using h.1
    simp only [List.map_cons, List.mem_cons, not_or] at h
    simp [List.lookup, hne, ih h.2]

theorem parseMembers_distinct (members : List (String × Json)) :
    ∀ props : List (String × JsValue), (members.map Prod.fst).Nodup →
      ∀ k, (parseMembers props members).lookup k
        = (match members.lookup k with
           | some v => some (parseJson v)
           | none => props.lookup k) := by
  induction members with
  | nil =>
    intro props _ k
    rfl
  | cons p rest ih =>
    obtain ⟨k1, v1⟩ := p
    intro props hnd k
    simp only [List.map_cons, List.nodup_cons] at hnd
    rw [parseMembers, ih _ hnd.2 k, lookup_defineProp]
    by_cases h : k = k1
    · subst h
      rw [lookup_eq_none_of_not_mem rest k hnd.1]
      simp [List.lookup]
    · have hb : (k == k1) = false := by simpa using h
      simp only [List.lookup, hb, if_neg h]

theorem lookup_parseMembers (members : List (String × Json)) (k : String)
    (hnd : (members.map Prod.fst).Nodup) :
    (parseMembers [] members).lookup k = (members.lookup k).map parseJson := by
  rw [parseMembers_distinct members [] hnd k]
  cases members.lookup k <;> rfl

theorem parseMembers_last (members : List (String × Json)) :
    ∀ (props : List (String × JsValue)) (k : String),
      (parseMembers props members).lookup k
        = (match members.reverse.lookup k with
           | some v => some (parseJson v)
           | none => props.lookup k) := by
  induction members with
  | nil =>
    intro props k
    rfl
  | cons p rest ih =>
    obtain ⟨k1, v1⟩ := p
    intro props k
    rw [parseMembers, ih, lookup_defineProp, List.reverse_cons, List.lookup_append]
    cases hr : rest.reverse.lookup k with
    | some v => rfl
    | none =>
      by_cases h : k = k1
      · subst h
        simp [List.lookup]
      · have hb : (k == k1) = false := by simpa using h
        simp [List.lookup, hb, h]

theorem lookup_parseMembers_last (members : List (String × Json)) (k : String) :
    (parseMembers [] members).lookup k = (members.reverse.lookup k).map parseJson := by
  rw [parseMembers_last members [] k]
  cases members.reverse.lookup k <;> rfl

/-- The members of a parsed object are listed as `JSON.stringify` lists them:
the array indices first, in ascending order, then the other names in the order
in which the text has them, a repeated name at the place of its first
occurrence with the value of its last. -/
theorem parseJson_lists_array_indices_first :
    stringify (parseJson (Json.obj [("type", Json.str "a"), ("10", Json.null),
        ("9", Json.bool true), ("type", Json.str "b"), ("01", Json.null)]))
      = Json.obj [("9", Json.bool true), ("10", Json.null), ("type", Json.str "b"),
          ("01", Json.null)] := by
  rfl

set_option maxRecDepth 100000 in
/-- C25 (as stated) fails: a `voice_message` whose `duration` is the number
1e400 is rebroadcast with `duration: null`, and a `file_message` whose
`fileSize` is 12345678901234567890 with `fileSize: 12345678901234567000`:
`JSON.parse` reads a number as the nearest double and `JSON.stringify` writes
the digits of that double. -/
theorem relay_rewrites_number_fields :
    (onMessage 1000 relay3 1
        { length := 90,
          parsed := some (parseJson (Json.obj [("type", Json.str "voice_message"),
            ("content", Json.str "AAEC"),
            ("duration", Json.num ((10 ^ 200 * 10 ^ 200 : Nat) : ℚ))])) }).sends.map
      (fun s => (s.target, s.frame.member "duration"))
      = [(2, some Json.null), (3, some Json.null)] ∧
    Json.null ≠ Json.num ((10 ^ 200 * 10 ^ 200 : Nat) : ℚ) ∧
    (onMessage 1000 relay3 1
        { length := 90,
          parsed := some (parseJson (Json.obj [("type", Json.str "file_message"),
            ("content", Json.str "AAEC"),
            ("fileSize", Json.num 12345678901234567890)])) }).sends.map
      (fun s => (s.target, s.frame.member "fileSize"))
      = [(2, some (Json.num 12345678901234567000)), (3, some (Json.num 12345678901234567000))] ∧
    Json.num 12345678901234567000 ≠ Json.num 12345678901234567890 := by
  refine ⟨by rfl, ?_, by rfl, ?_⟩
  · intro h
    cases h
  · intro h
    injection h with h
    norm_num at h

/-- C25 (as amended): for an object payload with distinct member names that the
relay accepts, every member of the rebroadcast document other than `timestamp`
and `userId` is the inbound member read by `JSON.parse` and written again by
`JSON.stringify`: a member that is a string, a boolean or `null`, in particular
`type`, `content`, `fileName` and `fileType`, is the inbound member; a member
that is a number, such as `fileSize` and `duration`, is the digits of the double
nearest to the inbound number, and `null` when that double is an infinity; a
member that the payload does not have is not added. For a payload as the relay
holds it after `JSON.parse`, every such member is written as `JSON.stringify`
writes the payload's, and an array payload is rebroadcast whole. When a name
occurs more than once in the payload, the member rebroadcast under that name is
the last of them, as `JSON.parse` reads it. -/
theorem relay_keeps_other_fields (now : Nat) (r : Relay) (ws : Nat) (len : Nat)
    (user : UserRecord) (hlen : len ≤ 10 * 1024 * 1024)
    (hu : r.connectedUsers.lookup ws = some user) :
    (∀ (members : List (String × Json)), (members.map Prod.fst).Nodup →
      ∀ s ∈ (onMessage now r ws
          { length := len, parsed := some (parseJson (Json.obj members)) }).sends,
      ∀ k, k ≠ "timestamp" → k ≠ "userId" →
        s.frame.member k = (members.lookup k).map (fun v => stringify (parseJson v)) ∧
        (∀ t, members.lookup k = some (Json.str t) → s.frame.member k = some (Json.str t)) ∧
        (∀ b, members.lookup k = some (Json.bool b) → s.frame.member k = some (Json.bool b)) ∧
        (members.lookup k = some Json.null → s.frame.member k = some Json.null) ∧
        (∀ q, members.lookup k = some (Json.num q) →
          s.frame.member k = some (numberToJson (roundToNumber q))) ∧
        (members.lookup k = none → s.frame.member k = none)) ∧
    (∀ (props : List (String × JsValue)),
      ∀ s ∈ (onMessage now r ws { length := len, parsed := some (JsValue.obj props) }).sends,
      ∀ k, k ≠ "timestamp" → k ≠ "userId" →
        s.frame.member k = (stringify (JsValue.obj props)).member k) ∧
    (∀ (items : List JsValue) (named : List (String × JsValue)),
      ∀ s ∈ (onMessage now r ws
          { length := len, parsed := some (JsValue.arr items named) }).sends,
        s.frame = stringify (JsValue.arr items named)) ∧
    (∀ (members : List (String × Json)),
      ∀ s ∈ (onMessage now r ws
          { length := len, parsed := some (parseJson (Json.obj members)) }).sends,
      ∀ k, k ≠ "timestamp" → k ≠ "userId" →
        s.frame.member k
          = (members.reverse.lookup k).map (fun v => stringify (parseJson v))) := by
  have main : ∀ (props : List (String × JsValue)),
      ∀ s ∈ (onMessage now r ws
        { length := len, parsed := some (JsValue.obj props) }).sends,
      ∀ k, k ≠ "timestamp" → k ≠ "userId" →
        s.frame.member k = (stringify (JsValue.obj props)).member k := by
    intro props s hs k h1 h2
    unfold onMessage at hs
    simp only [gt_iff_lt, Nat.not_lt.mpr hlen, if_false, JsValue.truthy, JsValue.typeofObject,
      Bool.not_true, Bool.or_self, Bool.false_eq_true, JsValue.assign, hu, broadcast_eq,
      List.mem_map] at hs
    obtain ⟨c, _, rfl⟩ := hs
    simp only [stringify, Json.member]
    rw [lookup_stringifyProps_setProp_ne _ _ _ _ h2, lookup_stringifyProps_setProp_ne _ _ _ _ h1]
  refine ⟨?_, main, ?_, ?_⟩
  · intro members hnd s hs k h1 h2
    have hm : s.frame.member k
        = (members.lookup k).map (fun v => stringify (parseJson v)) := by
      have := main (parseMembers [] members) s (by simpa [parseJson] using hs) k h1 h2
      rw [this]
      simp only [stringify, Json.member]
      rw [lookup_stringifyProps, lookup_parseMembers members k hnd, Option.map_map]
      rfl
    refine ⟨hm, ?_, ?_, ?_, ?_, ?_⟩
    · intro t ht
      rw [hm, ht]
      rfl
    · intro b hb
      rw [hm, hb]
      rfl
    · intro hn
      rw [hm, hn]
      rfl
    · intro q hq
      rw [hm, hq]
      rfl
    · intro hn
      rw [hm, hn]
      rfl
  · intro items named s hs
    unfold onMessage at hs
    simp only [gt_iff_lt, Nat.not_lt.mpr hlen, if_false, JsValue.truthy, JsValue.typeofObject,
      Bool.not_true, Bool.or_self, Bool.false_eq_true, JsValue.assign, hu, broadcast_eq,
      List.mem_map] at hs
    obtain ⟨c, _, rfl⟩ := hs
    simp only [stringify]
  · intro members s hs k h1 h2
    have := main (parseMembers [] members) s (by simpa [parseJson] using hs) k h1 h2
    rw [this]
    simp only [stringify, Json.member]
    rw [lookup_stringifyProps, lookup_parseMembers_last members k, Option.map_map]
    rfl

theorem relay_keeps_other_fields_witness :
    relay3.connectedUsers.lookup 1 = some ⟨"Invité1", 0⟩ ∧
    ((onMessage 1000 relay3 1
        { length := 40,
          parsed := some (parseJson (Json.obj [("type", Json.str "file_message"),
            ("content", Json.str "AAEC"), ("fileSize", Json.num 2),
            ("userId", Json.str "Invité9")])) }).sends.map
      (fun s => s.target)) = [2, 3] ∧
    ∀ s ∈ (onMessage 1000 relay3 1
        { length := 40,
          parsed := some (parseJson (Json.obj [("type", Json.str "file_message"),
            ("content", Json.str "AAEC"), ("fileSize", Json.num 2),
            ("userId", Json.str "Invité9")])) }).sends,
      s.frame.member "content" = some (Json.str "AAEC") ∧
      s.frame.member "type" = some (Json.str "file_message") ∧
      s.frame.member "fileSize" = some (Json.num 2) ∧
      s.frame.member "duration" = none :=
  ⟨rfl, rfl, fun s hs =>
    ⟨((relay_keeps_other_fields 1000 relay3 1 40 ⟨"Invité1", 0⟩ (by decide) rfl).1
        [("type", Json.str "file_message"), ("content", Json.str "AAEC"),
         ("fileSize", Json.num 2), ("userId", Json.str "Invité9")] (by decide) s hs
        "content" (by decide) (by decide)).2.1 "AAEC" rfl,
     ((relay_keeps_other_fields 1000 relay3 1 40 ⟨"Invité1", 0⟩ (by decide) rfl).1
        [("type", Json.str "file_message"), ("content", Json.str "AAEC"),
         ("fileSize", Json.num 2), ("userId", Json.str "Invité9")] (by decide) s hs
        "type" (by decide) (by decide)).2.1 "file_message" rfl,
     ((relay_keeps_other_fields 1000 relay3 1 40 ⟨"Invité1", 0⟩ (by decide) rfl).1
        [("type", Json.str "file_message"), ("content", Json.str "AAEC"),
         ("fileSize", Json.num 2), ("userId", Json.str "Invité9")] (by decide) s hs
        "fileSize" (by decide) (by decide)).2.2.2.2.1 2 rfl,
     ((relay_keeps_other_fields 1000 relay3 1 40 ⟨"Invité1", 0⟩ (by decide) rfl).1
        [("type", Json.str "file_message"), ("content", Json.str "AAEC"),
         ("fileSize", Json.num 2), ("userId", Json.str "Invité9")] (by decide) s hs
        "duration" (by decide) (by decide)).2.2.2.2.2 rfl⟩⟩

/-! ### Key generation and hashing (C24, C27) -/

/-- C24 (as stated) fails: when the provider's key generation fails, also for
want of a provider, the promise of `generateKey` is not rejected: it resolves
to `false`, and the manager is left as it was. -/
theorem generateKey_failure_resolves_false :
    (CryptoManager.new : CryptoManager Nat).generateKeyPromise (Except.error "TypeError")
      = (Except.ok false, CryptoManager.new) ∧
    (Except.ok false : Except CryptoError Bool) ≠ Except.error (CryptoError.platform "TypeError") :=
  ⟨rfl, by simp⟩

/-- C24 (as amended): `generateKey` never raises: its promise resolves to
`true` when the provider returns a key, which is then stored with
`keyGenerated = true`, and to `false` whenever the provider is unavailable or
its key generation fails, the manager being left unchanged. -/
theorem generateKey_never_raises {Key : Type} (m : CryptoManager Key)
    (outcome : Except String Key) :
    (∃ b, (m.generateKeyPromise outcome).1 = Except.ok b) ∧
    (∀ k, outcome = Except.ok k →
      m.generateKeyPromise outcome
        = (Except.ok true, { key := some k, keyGenerated := true })) ∧
    (∀ e, outcome = Except.error e → m.generateKeyPromise outcome = (Except.ok false, m)) ∧
    (m.generateKeyPromise outcome).2 = (m.generateKey outcome.toOption).2 := by
  cases outcome with
  | ok k =>
    refine ⟨⟨true, rfl⟩, ?_, ?_, rfl⟩
    · intro k' h
      injection h with h
      subst h
      rfl
    · intro e h
      injection h
  | error e =>
    refine ⟨⟨false, rfl⟩, ?_, ?_, rfl⟩
    · intro k h
      injection h
    · intro e' h
      rfl

theorem generateKey_never_raises_witness :
    (CryptoManager.new : CryptoManager Nat).generateKeyPromise (Except.ok 7)
        = (Except.ok true, { key := some 7, keyGenerated := true }) ∧
    (CryptoManager.new : CryptoManager Nat).generateKeyPromise (Except.error "OperationError")
        = (Except.ok false, CryptoManager.new) :=
  ⟨(generateKey_never_raises CryptoManager.new (Except.ok 7)).2.1 7 rfl,
   (generateKey_never_raises (CryptoManager.new : CryptoManager Nat)
      (Except.error "OperationError")).2.2.1 "OperationError" rfl⟩

theorem digitChar_hex (k : Nat) (h : k < 16) : (Nat.digitChar k).toNat = hexDigit k := by
  interval_cases k <;> rfl

theorem hexByte_eq (b : Nat) (h : b < 256) :
    padStartZero (toStringHex b) 2 = [hexDigit (b / 16), hexDigit (b % 16)] := by
  unfold toStringHex Nat.toDigits
  by_cases h0 : b / 16 = 0
  · have hb : b < 16 := by omega
    have e : b % 16 = b := Nat.mod_eq_of_lt hb
    simp only [Nat.toDigitsCore, h0, if_true, List.map_cons, List.map_nil, padStartZero,
      List.length_singleton]
    rw [digitChar_hex _ (by omega), e]
    rfl
  · obtain ⟨c, rfl⟩ : ∃ c, b = c + 1 := ⟨b - 1, by omega⟩
    have h1 : (c + 1) / 16 / 16 = 0 := by omega
    simp only [Nat.toDigitsCore, h0, if_false, h1, if_true, List.map_cons, List.map_nil,
      padStartZero, List.length_cons, List.length_nil]
    rw [digitChar_hex _ (by omega), digitChar_hex _ (by omega)]
    have h2 : (c + 1) / 16 % 16 = (c + 1) / 16 := by omega
    rw [h2]
    rfl

theorem hexDigit_isLowerHex (d : Nat) (h : d < 16) : isLowerHex (hexDigit d) = true := by
  interval_cases d <;> rfl

theorem flatMap_pair_get (f g : Nat → Nat) (xs : List Nat) :
    ∀ i, i < xs.length →
      (xs.flatMap (fun b => [f b, g b]))[2 * i]? = (xs[i]?).map f ∧
      (xs.flatMap (fun b => [f b, g b]))[2 * i + 1]? = (xs[i]?).map g := by
  induction xs with
  | nil => intro i hi; simp at hi
  | cons x xs ih =>
    intro i hi
    cases i with
    | zero => simp
    | succ j =>
      have hj : j < xs.length := by simpa using hi
      obtain ⟨a, b⟩ := ih j hj
      have e1 : 2 * (j + 1) = 2 * j + 1 + 1 := by omega
      have e2 : 2 * (j + 1) + 1 = 2 * j + 1 + 1 + 1 := by omega
      rw [e2, e1]
      simp only [List.flatMap_cons, List.cons_append, List.nil_append, List.getElem?_cons_succ]
      exact ⟨a, b⟩

/-- C27: for every input string and every 32-byte digest the provider returns,
`generateHash` returns a string of exactly 64 characters, all of them among
`0`-`9` and `a`-`f`, in which the characters 2i and 2i+1 are the two
hexadecimal digits, zero-padded, of the byte i of the digest. -/
theorem generateHash_is_lower_hex (digest : Bytes → Except String Bytes) (data : JSString)
    (hash : Bytes) (hd : digest (textEncode data) = Except.ok hash) (hb : IsBytes hash)
    (hlen : hash.length = 32) :
    ∃ hex, generateHash digest data = Except.ok hex ∧ hex.length = 64 ∧
      (∀ c ∈ hex, isLowerHex c = true) ∧
      ∀ i, i < 32 →
        hex[2 * i]? = (hash[i]?).map (fun b => hexDigit (b / 16)) ∧
        hex[2 * i + 1]? = (hash[i]?).map (fun b => hexDigit (b % 16)) := by
  have hex_eq : hash.flatMap (fun b => padStartZero (toStringHex b) 2)
      = hash.flatMap (fun b => [hexDigit (b / 16), hexDigit (b % 16)]) := by
    apply List.flatMap_congr
    intro b hbm
    exact hexByte_eq b (hb b hbm)
  refine ⟨hash.flatMap (fun b => [hexDigit (b / 16), hexDigit (b % 16)]), ?_, ?_, ?_, ?_⟩
  · unfold generateHash
    simp only [hd, hex_eq]
  · have : ∀ xs : List Nat,
        (xs.flatMap (fun b => [hexDigit (b / 16), hexDigit (b % 16)])).length = 2 * xs.length := by
      intro xs
      induction xs with
      | nil => rfl
      | cons x xs ih => simp only [List.flatMap_cons, List.length_append, ih]; simp; omega
    rw [this, hlen]
  · intro c hc
    obtain ⟨b, hbm, hc⟩ := List.mem_flatMap.1 hc
    have := hb b hbm
    simp only [List.mem_cons, List.mem_singleton, List.not_mem_nil, or_false] at hc
    rcases hc with rfl | rfl
    · exact hexDigit_isLowerHex _ (by omega)
    · exact hexDigit_isLowerHex _ (by omega)
  · intro i hi
    exact flatMap_pair_get _ _ hash i (by omega)

theorem generateHash_is_lower_hex_witness :
    ∃ hex, generateHash (fun _ => Except.ok (List.replicate 32 171)) [104] = Except.ok hex ∧
      hex.length = 64 ∧ (∀ c ∈ hex, isLowerHex c = true) ∧
      ∀ i, i < 32 →
        hex[2 * i]? = ((List.replicate 32 171)[i]?).map (fun b => hexDigit (b / 16)) ∧
        hex[2 * i + 1]? = ((List.replicate 32 171)[i]?).map (fun b => hexDigit (b % 16)) :=
  generateHash_is_lower_hex (fun _ => Except.ok (List.replicate 32 171)) [104]
    (List.replicate 32 171) rfl (by decide) (by decide)

/-! ### File validation (C26, C28, C30) -/

/-- C26: for every file, `validateFile` returns `valid = true` exactly when the
size is at most 10 * 1024 * 1024, the MIME type is in one of the lists of
allowed types, and `isFileNameSafe(name)` is true; `valid` is true exactly when
`errors` is empty; and `errors` holds one entry per failed check, in the order
size, type, name. -/
theorem validateFile_checks (maxSizeText : String) (file : File) :
    ((validateFile maxSizeText file).valid = true ↔
      file.size ≤ 10 * 1024 * 1024 ∧
      (∃ entry ∈ allowedTypes, file.type ∈ entry.2) ∧
      isFileNameSafe (some (JsValue.str file.name)) = true) ∧
    ((validateFile maxSizeText file).valid = true ↔ (validateFile maxSizeText file).errors = []) ∧
    (validateFile maxSizeText file).errors =
      (if file.size ≤ 10 * 1024 * 1024 then [] else [tooLargeError maxSizeText]) ++
      (if isTypeAllowed file.type = true then [] else ["Type de fichier non autorisé"]) ++
      (if isFileNameSafe (some (JsValue.str file.name)) = true then []
        else ["Nom de fichier non sécurisé"]) := by
  have htype : isTypeAllowed file.type = true ↔ ∃ entry ∈ allowedTypes, file.type ∈ entry.2 := by
    unfold isTypeAllowed
    rw [List.any_eq_true]
    constructor
    · rintro ⟨e, he, h⟩
      exact ⟨e, he, by simpa using h⟩
    · rintro ⟨e, he, h⟩
      exact ⟨e, he, by simpa using h⟩
  rw [← htype]
  unfold validateFile maxFileSize
  by_cases h1 : file.size ≤ 10 * 1024 * 1024 <;>
    cases h2 : isTypeAllowed file.type <;>
    cases h3 : isFileNameSafe (some (JsValue.str file.name)) <;>
    simp [h1, Nat.not_lt.2, Nat.lt_of_not_le]

theorem sameLetter_iff (a b : Nat) : sameLetter a b = true ↔ asciiUpper a = asciiUpper b := by
  unfold sameLetter asciiUpper
  simp only [Bool.or_eq_true, Bool.and_eq_true, beq_iff_eq, decide_eq_true_eq]
  split_ifs <;> omega

theorem eqIgnoringCase_iff (s t : JSString) :
    eqIgnoringCase s t = true ↔ s.map asciiUpper = t.map asciiUpper := by
  induction s generalizing t with
  | nil => cases t <;> simp [eqIgnoringCase]
  | cons a s ih =>
    cases t with
    | nil => simp [eqIgnoringCase]
    | cons b t => simp [eqIgnoringCase, sameLetter_iff, ih]

theorem nameWithoutExt_unique (name pre rest : JSString) (h : name = pre ++ rest)
    (hpre : 46 ∉ pre) (hrest : rest = [] ∨ rest.head? = some 46) :
    pre = nameWithoutExt name := by
  subst h
  unfold nameWithoutExt
  induction pre with
  | nil =>
    rcases hrest with rfl | hr
    · rfl
    · cases rest with
      | nil => rfl
      | cons x xs =>
        simp at hr
        subst hr
        simp [List.takeWhile]
  | cons x xs ih =>
    have hx : x ≠ 46 := fun e => hpre (by simp [e])
    have hxs : 46 ∉ xs := fun e => hpre (by simp [e])
    have hb : (x != 46) = true := by simpa using hx
    have hstep : List.takeWhile (fun u => u != 46) (x :: (xs ++ rest))
        = x :: List.takeWhile (fun u => u != 46) (xs ++ rest) :=
      List.takeWhile_cons_of_pos hb
    rw [List.cons_append, hstep, ← ih hxs]

theorem nameWithoutExt_split (name : JSString) :
    ∃ rest, name = nameWithoutExt name ++ rest ∧ 46 ∉ nameWithoutExt name ∧
      (rest = [] ∨ rest.head? = some 46) := by
  refine ⟨name.dropWhile (fun u => u != 46), (List.takeWhile_append_dropWhile _ _).symm, ?_, ?_⟩
  · intro hmem
    have := List.mem_takeWhile_imp hmem
    simp at this
  · cases hd : name.dropWhile (fun u => u != 46) with
    | nil => exact Or.inl rfl
    | cons x xs =>
      right
      have := @List.head_dropWhile_not _ (fun u => u != 46) name (by simp [hd])
      simp [hd] at this
      simp [this]

theorem suffix_map_iff (ext name : JSString) :
    ext <:+ name.map asciiUpper ↔
      ∃ front back, name = front ++ back ∧ back.map asciiUpper = ext := by
  constructor
  · rintro ⟨t, ht⟩
    refine ⟨name.take t.length, name.drop t.length, (List.take_append_drop _ _).symm, ?_⟩
    rw [List.map_drop, ← ht]
    simp
  · rintro ⟨front, back, rfl, rfl⟩
    exact ⟨front.map asciiUpper, by simp⟩

theorem isDangerousChar_iff (u : Nat) :
    isDangerousChar u = false ↔ u ∉ [60, 62, 58, 34, 47, 92, 124, 63, 42] ∧ 31 < u := by
  unfold isDangerousChar
  simp only [List.mem_cons, List.mem_singleton, List.not_mem_nil, or_false, Bool.or_eq_false_iff,
    beq_eq_false_iff_ne, decide_eq_false_iff_not]
  omega

/-- C28: for every value `fileName`, `isFileNameSafe` returns true exactly when
`fileName` is a non-empty string of at most 255 code units that holds none of
the characters `<` `>` `:` `"` `/` `\` `|` `?` `*` nor one of U+0000..U+001F,
whose part before the first `.` is not, whatever the case, CON, PRN, AUX, NUL,
COM1..COM9 or LPT1..LPT9, and that does not end, whatever the case, in one of
.exe, .bat, .cmd, .com, .pif, .scr, .vbs, .js, .jar, .msi, .dll, .sys. -/
theorem isFileNameSafe_iff (fileName : Option JsValue) :
    isFileNameSafe fileName = true ↔
      ∃ s, fileName = some (JsValue.str s) ∧ s ≠ "" ∧ (jsLit s).length ≤ 255 ∧
        (∀ u ∈ jsLit s, u ∉ [60, 62, 58, 34, 47, 92, 124, 63, 42] ∧ 31 < u) ∧
        (∀ pre rest, jsLit s = pre ++ rest → 46 ∉ pre → (rest = [] ∨ rest.head? = some 46) →
          ∀ r ∈ ["CON", "PRN", "AUX", "NUL", "COM1", "COM2", "COM3", "COM4", "COM5", "COM6",
                 "COM7", "COM8", "COM9", "LPT1", "LPT2", "LPT3", "LPT4", "LPT5", "LPT6", "LPT7",
                 "LPT8", "LPT9"],
            eqIgnoringCase pre (jsLit r) = false) ∧
        (∀ front back, jsLit s = front ++ back →
          ∀ ext ∈ [".exe", ".bat", ".cmd", ".com", ".pif", ".scr", ".vbs", ".js", ".jar", ".msi",
                   ".dll", ".sys"],
            eqIgnoringCase back (jsLit ext) = false) := by
  have hreserved : ∀ name : JSString,
      reservedNames.contains ((nameWithoutExt name).map asciiUpper) = false ↔
        ∀ pre rest, name = pre ++ rest → 46 ∉ pre → (rest = [] ∨ rest.head? = some 46) →
          ∀ r ∈ ["CON", "PRN", "AUX", "NUL", "COM1", "COM2", "COM3", "COM4", "COM5", "COM6",
                 "COM7", "COM8", "COM9", "LPT1", "LPT2", "LPT3", "LPT4", "LPT5", "LPT6", "LPT7",
                 "LPT8", "LPT9"],
            eqIgnoringCase pre (jsLit r) = false := by
    intro name
    have hup : ∀ r ∈ reservedNames, r.map asciiUpper = r := by decide
    constructor
    · intro hc pre rest hsplit hpre hrest r hr
      have hpre_eq := nameWithoutExt_unique name pre rest hsplit hpre hrest
      rw [Bool.eq_false_iff]
      intro he
      rw [eqIgnoringCase_iff] at he
      have hmem : jsLit r ∈ reservedNames := List.mem_map.2 ⟨r, hr, rfl⟩
      rw [hup _ hmem, hpre_eq] at he
      rw [he] at hc
      have : reservedNames.contains (jsLit r) = true := by simpa using hmem
      rw [this] at hc
      cases hc
    · intro hall
      rw [Bool.eq_false_iff]
      intro hc
      have hmem : (nameWithoutExt name).map asciiUpper ∈ reservedNames := by simpa using hc
      obtain ⟨r, hr, hre⟩ := List.mem_map.1 hmem
      obtain ⟨rest, hsplit, hpre, hrest⟩ := nameWithoutExt_split name
      have := hall _ rest hsplit hpre hrest r hr
      rw [Bool.eq_false_iff] at this
      apply this
      rw [eqIgnoringCase_iff, hre, hup _ hmem]
  have hext : ∀ name : JSString,
      dangerousExtensions.any (fun ext => ext.isSuffixOf (name.map asciiUpper)) = false ↔
        ∀ front back, name = front ++ back →
          ∀ ext ∈ [".exe", ".bat", ".cmd", ".com", ".pif", ".scr", ".vbs", ".js", ".jar", ".msi",
                   ".dll", ".sys"],
            eqIgnoringCase back (jsLit ext) = false := by
    intro name
    have hlist : dangerousExtensions
        = [".exe", ".bat", ".cmd", ".com", ".pif", ".scr", ".vbs", ".js", ".jar", ".msi",
           ".dll", ".sys"].map (fun e => (jsLit e).map asciiUpper) := by decide
    have hup : ∀ ext ∈ dangerousExtensions, ext.map asciiUpper = ext := by decide
    constructor
    · intro hany front back hsplit ext hmem
      rw [Bool.eq_false_iff]
      intro he
      rw [eqIgnoringCase_iff] at he
      have hx : (jsLit ext).map asciiUpper ∈ dangerousExtensions := by
        rw [hlist]
        exact List.mem_map.2 ⟨ext, hmem, rfl⟩
      have hs : ((jsLit ext).map asciiUpper) <:+ name.map asciiUpper :=
        (suffix_map_iff _ _).2 ⟨front, back, hsplit, he⟩
      have : dangerousExtensions.any (fun ext => ext.isSuffixOf (name.map asciiUpper)) = true :=
        List.any_eq_true.2 ⟨_, hx, by simpa using hs⟩
      rw [this] at hany
      cases hany
    · intro hall
      rw [Bool.eq_false_iff]
      intro hany
      obtain ⟨x, hx, hs⟩ := List.any_eq_true.1 hany
      have hs : x <:+ name.map asciiUpper := by simpa using hs
      obtain ⟨front, back, hsplit, hback⟩ := (suffix_map_iff _ _).1 hs
      rw [hlist] at hx
      obtain ⟨ext, hmem, hxe⟩ := List.mem_map.1 hx
      have := hall front back hsplit ext hmem
      rw [Bool.eq_false_iff] at this
      apply this
      rw [eqIgnoringCase_iff, hback, hxe]
  have hchars : ∀ name : JSString,
      name.any isDangerousChar = false ↔
        ∀ u ∈ name, u ∉ [60, 62, 58, 34, 47, 92, 124, 63, 42] ∧ 31 < u := by
    intro name
    rw [List.any_eq_false]
    constructor
    · intro h u hu
      exact (isDangerousChar_iff u).1 (by simpa using h u hu)
    · intro h u hu
      simpa using (isDangerousChar_iff u).2 (h u hu)
  constructor
  · intro h
    unfold isFileNameSafe at h
    split at h
    · rename_i s
      refine ⟨s, rfl, ?_⟩
      simp only at h
      split_ifs at h with h1 h2 h3 h4 h5
      refine ⟨h1, by omega, (hchars _).1 (by simpa using h2), (hreserved _).1 (by simpa using h3),
        (hext _).1 (by simpa using h5)⟩
    · cases h
  · rintro ⟨s, rfl, h1, h4, h2, h3, h5⟩
    have h2 := (hchars _).2 h2
    have h3 := (hreserved _).2 h3
    have h5 := (hext _).2 h5
    unfold isFileNameSafe
    simp only [h1, h2, h3, h5, if_false, Bool.false_eq_true]
    rw [if_neg (by omega)]

/-- C30: for a PDF file, whose category is `documents` and not `images`,
`createImagePreview` does not reject with 'Le fichier n'est pas une image': it
starts reading the file and resolves with a preview of what the reader loads.
For no file at all does it reject with that error or leave the file unread. -/
theorem createImagePreview_reads_non_images :
    getFileCategory "application/pdf" = "documents" ∧
    (createImagePreview ⟨"a.pdf", "application/pdf", 1, none⟩
      (some "data:application/pdf;base64,JQ==")).readStarted = true ∧
    (createImagePreview ⟨"a.pdf", "application/pdf", 1, none⟩
      (some "data:application/pdf;base64,JQ==")).settled
        = Except.ok "data:application/pdf;base64,JQ==" ∧
    ∀ (file : File) (dataUrl : Option String),
      (createImagePreview file dataUrl).readStarted = true ∧
      (createImagePreview file dataUrl).settled ≠ Except.error "Le fichier n'est pas une image" := by
  refine ⟨by decide, rfl, rfl, ?_⟩
  intro file dataUrl
  have hcond : strictEquals (JsValue.bool (!(JsValue.str (getFileCategory file.type)).truthy))
      (JsValue.str "images") = false := rfl
  unfold createImagePreview
  rw [hcond]
  cases dataUrl with
  | none => exact ⟨rfl, by simp⟩
  | some url => exact ⟨rfl, by simp⟩

/-! ### Text messages end to end (C21) -/

theorem toScalars_of_lt (s : List Nat) (h : ∀ u ∈ s, u < 0xD800) : toScalars s = s := by
  induction s using toScalars.induct with
  | case1 => rfl
  | case2 u hu =>
    have := h u (by simp)
    simp [isHighSurrogate, isLowSurrogate] at hu
    omega
  | case3 u => simp [toScalars, *]
  | case4 u v rest hu hv ih =>
    have := h u (by simp)
    simp [isHighSurrogate] at hu
    omega
  | case5 u v rest hu hv ih =>
    have := h u (by simp)
    simp [isHighSurrogate] at hu
    omega
  | case6 u v rest hu hv ih =>
    have := h u (by simp)
    simp [isLowSurrogate] at hv
    omega
  | case7 u v rest hu hv ih =>
    rw [toScalars, if_neg hu, if_neg hv, ih (fun x hx => h x (by simp [hx]))]

theorem toNat_ofNat_of_lt (u : Nat) (h : u < 0xD800) : (Char.ofNat u).toNat = u := by
  have hv : u.isValidChar := Or.inl h
  simp only [Char.ofNat, hv, Char.ofNatAux, Char.toNat, dif_pos]
  rfl

theorem jsLit_ofUnits (s : JSString) (h : ∀ u ∈ s, u < 0xD800) : jsLit (ofUnits s) = s := by
  unfold jsLit ofUnits
  rw [toScalars_of_lt s h]
  show ((s.map Char.ofNat).map Char.toNat).flatMap utf16Units = s
  induction s with
  | nil => rfl
  | cons u rest ih =>
    have hu := h u (by simp)
    have hr := ih (fun x hx => h x (by simp [hx]))
    simp only [List.map_cons, List.flatMap_cons] at hr ⊢
    rw [toNat_ofNat_of_lt u hu, hr]
    have hlt : u < 65536 := by omega
    simp only [utf16Units, if_pos hlt, List.singleton_append]

theorem b64Char_le (i : Nat) : b64Char i ≤ 122 := by
  unfold b64Char
  split_ifs <;> omega

theorem base64Encode_ascii (bs : List Nat) : ∀ u ∈ base64Encode bs, u < 0xD800 := by
  intro u hu
  rw [base64Encode_eq] at hu
  rcases List.mem_append.1 hu with h | h
  · obtain ⟨i, _, rfl⟩ := List.mem_map.1 h
    have := b64Char_le i
    omega
  · rcases padOf_cases bs with e | e | e <;> rw [e] at h <;> simp at h <;> omega

theorem base64Encode_ne_nil (bs : List Nat) (h : bs ≠ []) : base64Encode bs ≠ [] := by
  match bs, h with
  | [a], _ => simp [base64Encode]
  | [a, b], _ => simp [base64Encode]
  | a :: b :: c :: rest, _ => simp [base64Encode]

theorem utf8EncodeScalar_length_pos (c : Nat) : 1 ≤ (utf8EncodeScalar c).length := by
  unfold utf8EncodeScalar
  split_ifs <;> simp

theorem textEncode_length_ge (s : JSString) : s.length ≤ (textEncode s).length := by
  unfold textEncode
  induction s using toScalars.induct with
  | case1 => simp [toScalars]
  | case2 u hu =>
    have := utf8EncodeScalar_length_pos 0xFFFD
    simp only [toScalars, hu, if_true, List.flatMap_cons, List.flatMap_nil, List.append_nil,
      List.length_singleton]
    exact this
  | case3 u hu =>
    have := utf8EncodeScalar_length_pos u
    simp only [toScalars, hu, if_false, Bool.false_eq_true, List.flatMap_cons, List.flatMap_nil,
      List.append_nil, List.length_singleton]
    exact this
  | case4 u v rest hu hv ih =>
    have h4 : (utf8EncodeScalar (0x10000 + (u - 0xD800) * 0x400 + (v - 0xDC00))).length = 4 := by
      unfold utf8EncodeScalar
      rw [if_neg (by omega), if_neg (by omega), if_neg (by omega)]
      rfl
    simp only [toScalars, hu, hv, if_true, List.flatMap_cons, List.length_append,
      List.length_cons]
    omega
  | case5 u v rest hu hv ih =>
    have := utf8EncodeScalar_length_pos 0xFFFD
    simp only [toScalars, hu, hv, if_true, if_false, Bool.false_eq_true, List.flatMap_cons,
      List.length_append, List.length_cons] at ih ⊢
    omega
  | case6 u v rest hu hv ih =>
    have := utf8EncodeScalar_length_pos 0xFFFD
    simp only [toScalars, hu, hv, if_true, if_false, Bool.false_eq_true, List.flatMap_cons,
      List.length_append, List.length_cons] at ih ⊢
    omega
  | case7 u v rest hu hv ih =>
    have := utf8EncodeScalar_length_pos u
    simp only [toScalars, hu, hv, if_true, if_false, Bool.false_eq_true, List.flatMap_cons,
      List.length_append, List.length_cons] at ih ⊢
    omega

theorem sendTextMessage_sent {Key : Type} (maxArguments : Nat) (P : Provider Key)
    (rnd : Nat → Nat) (cm : CryptoManager Key) (m : WebSocketManager) (w : Platform)
    (t : JSString) (e : Envelope) (w1 : Platform) (content : JSString)
    (hg : cm.keyGenerated = true)
    (he : cm.encrypt P rnd (Plain.text t) w = (Except.ok e, w1))
    (hser : serializeEncrypted maxArguments e.encrypted e.iv = some content) :
    (sendTextMessage maxArguments P rnd cm m w t).manager
      = (sendMessage m (textMessage content)).manager ∧
    (sendTextMessage maxArguments P rnd cm m w t).effects
      = (sendMessage m (textMessage content)).effects ++
        (if (sendMessage m (textMessage content)).thrown.isSome then [sendTextNotice] else []) := by
  unfold sendTextMessage
  simp only [hg, Bool.not_true, Bool.false_eq_true, if_false, he, hser]
  cases ht : (sendMessage m (textMessage content)).thrown with
  | none => simp
  | some err => simp

theorem sendTextMessage_not_sent {Key : Type} (maxArguments : Nat) (P : Provider Key)
    (rnd : Nat → Nat) (cm : CryptoManager Key) (m : WebSocketManager) (w : Platform)
    (t : JSString) (e : Envelope) (w1 : Platform)
    (he : cm.encrypt P rnd (Plain.text t) w = (Except.ok e, w1))
    (hser : serializeEncrypted maxArguments e.encrypted e.iv = none) :
    (sendTextMessage maxArguments P rnd cm m w t).manager = m ∧
    (sendTextMessage maxArguments P rnd cm m w t).effects = [sendTextNotice] := by
  unfold sendTextMessage
  split_ifs
  · exact ⟨rfl, rfl⟩
  · simp [he, hser]

/-- C21 (as stated) fails: with a key generated, a provider whose decryption
inverts its encryption and an open socket, `sendTextMessage` of the string made
of the lone surrogate U+D800 transmits one `text_message`, and the receiver's
`decryptMessage` of its content under the same key returns U+FFFD, not the text
that was sent. -/
theorem sendTextMessage_lone_surrogate_not_returned :
    ProviderInverts toyProvider ∧
    (sendTextMessage 65536 toyProvider (fun i => i) { key := some 7, keyGenerated := true }
        { WebSocketManager.new with ws := some 1, isConnected := true }
        { drawn := 0, subtleCalls := [] } [0xD800]).effects
      = [ClientEffect.transmit (Json.obj [("type", Json.str "text_message"),
          ("content", Json.str "AAECAwQFBgcICQoL77+9SQ==")])] ∧
    (decryptMessage toyProvider { key := some 7, keyGenerated := true }
        (some (JsValue.str "AAECAwQFBgcICQoL77+9SQ==")) { drawn := 0, subtleCalls := [] }).1
      = [0xFFFD] ∧
    ([0xFFFD] : JSString) ≠ [0xD800] :=
  ⟨toyProvider_inverts, by rfl, by rfl, by decide⟩

/-- The throw of `serializeEncrypted` on a long ciphertext, as `sendTextMessage`
meets it: on an engine that accepts 65 536 arguments in one call, with a key
generated and an open socket, `sendTextMessage` of a text of 130 000 letters
`a` transmits nothing and shows the error notice. -/
theorem sendTextMessage_long_text_not_sent :
    (sendTextMessage 65536 toyProvider (fun i => i) { key := some 7, keyGenerated := true }
        { WebSocketManager.new with ws := some 1, isConnected := true }
        { drawn := 0, subtleCalls := [] } (List.replicate 130000 97)).effects
      = [ClientEffect.notify "Erreur lors de l'envoi du message" "error"] := by
  have hobt : ∃ e w1, CryptoManager.encrypt toyProvider (fun i => i)
      { key := some 7, keyGenerated := true } (Plain.text (List.replicate 130000 97))
      { drawn := 0, subtleCalls := [] } = (Except.ok e, w1) ∧
      e.iv = [0, 1, 2, 3, 4, 5, 6, 7, 8, 9, 10, 11] ∧
      e.encrypted = textEncode (List.replicate 130000 97) ++ [73] :=
    ⟨_, _, rfl, rfl, rfl⟩
  obtain ⟨e, w1, he, hiv, henc⟩ := hobt
  have hlen : 130000 ≤ (textEncode (List.replicate 130000 97)).length := by
    have := textEncode_length_ge (List.replicate 130000 97)
    rw [List.length_replicate] at this
    exact this
  have hser : serializeEncrypted 65536 e.encrypted e.iv = none := by
    apply serializeEncrypted_throws
    rw [hiv, henc, List.length_append]
    have h12 : ([0, 1, 2, 3, 4, 5, 6, 7, 8, 9, 10, 11] : List Nat).length = 12 := rfl
    rw [h12]
    omega
  exact (sendTextMessage_not_sent 65536 toyProvider (fun i => i) _ _ _ _ e w1 he hser).2

/-- C21 (as amended): `sendTextMessage(t)` never raises. With no key generated,
or when `encrypt(t)` fails, it does not call `sendMessage` and shows the error
notice. With `e = encrypt(t)`, where the 12 bytes of the nonce and the
ciphertext are no more than the engine accepts arguments in one call, it
calls `sendMessage` once, with the message `{type: 'text_message', content}`
where `content` is `serializeEncrypted(e.encrypted, e.iv)`: over an open socket
that message is transmitted, on a channel that is not connected it is queued;
and when `t` is well formed and does not begin with U+FEFF, the receiver's
`decryptMessage(content)` under the same key returns `t`, under a provider
whose decryption inverts its encryption. -/
theorem sendTextMessage_contract {Key : Type} (maxArguments : Nat) (P : Provider Key)
    (rnd : Nat → Nat) (cm : CryptoManager Key) (m : WebSocketManager) (w : Platform)
    (t : JSString) :
    (sendTextMessage maxArguments P rnd cm m w t).thrown = none ∧
    (cm.keyGenerated = false →
      (sendTextMessage maxArguments P rnd cm m w t).manager = m ∧
      (sendTextMessage maxArguments P rnd cm m w t).platform = w ∧
      (sendTextMessage maxArguments P rnd cm m w t).effects
        = [ClientEffect.notify "Erreur lors de l'envoi du message" "error"]) ∧
    (∀ e, (cm.encrypt P rnd (Plain.text t) w).1 = Except.error e →
      (sendTextMessage maxArguments P rnd cm m w t).manager = m ∧
      (sendTextMessage maxArguments P rnd cm m w t).effects
        = [ClientEffect.notify "Erreur lors de l'envoi du message" "error"]) ∧
    (∀ e w1, cm.encrypt P rnd (Plain.text t) w = (Except.ok e, w1) → IsBytes e.encrypted →
      cm.keyGenerated = true ∧
      (12 + e.encrypted.length ≤ maxArguments →
        ∃ content, serializeEncrypted maxArguments e.encrypted e.iv = some content ∧
          (sendTextMessage maxArguments P rnd cm m w t).manager
            = (sendMessage m (JsValue.obj [("type", JsValue.str "text_message"),
                ("content", JsValue.str (ofUnits content))])).manager ∧
          (sendTextMessage maxArguments P rnd cm m w t).effects
            = (sendMessage m (JsValue.obj [("type", JsValue.str "text_message"),
                ("content", JsValue.str (ofUnits content))])).effects ++
              (if (sendMessage m (JsValue.obj [("type", JsValue.str "text_message"),
                  ("content", JsValue.str (ofUnits content))])).thrown.isSome
               then [ClientEffect.notify "Erreur lors de l'envoi du message" "error"]
               else []) ∧
          (m.isConnected = true → m.ws = some WebSocket.OPEN →
            (sendTextMessage maxArguments P rnd cm m w t).effects
              = [ClientEffect.transmit (Json.obj [("type", Json.str "text_message"),
                  ("content", Json.str (ofUnits content))])]) ∧
          (m.isConnected = false →
            (sendTextMessage maxArguments P rnd cm m w t).manager.messageQueue
              = m.messageQueue ++ [JsValue.obj [("type", JsValue.str "text_message"),
                  ("content", JsValue.str (ofUnits content))]]) ∧
          (ProviderInverts P → IsUnits t → isWellFormed t = true → t.head? ≠ some 0xFEFF →
            ∀ w2, (decryptMessage P cm (some (JsValue.str (ofUnits content))) w2).1 = t))) := by
  refine ⟨?_, ?_, ?_, ?_⟩
  · unfold sendTextMessage
    split_ifs
    · rfl
    · dsimp only
      split
      · rfl
      · split
        · rfl
        · split <;> rfl
  · intro h
    simp [sendTextMessage, h, sendTextNotice]
  · intro e he
    unfold sendTextMessage
    split_ifs
    · exact ⟨rfl, rfl⟩
    · simp [he, sendTextNotice]
  · intro e w1 he hb
    obtain ⟨hg, k, hk, hiv, hp⟩ := encrypt_ok_inv P rnd cm _ w e w1 he
    have hivb : IsBytes e.iv := by
      rw [hiv]
      intro b hbm
      simp only [getRandomValues, List.mem_map] at hbm
      obtain ⟨i, _, rfl⟩ := hbm
      exact Nat.mod_lt _ (by decide)
    have hivl : e.iv.length = 12 := by
      rw [hiv]
      simp [getRandomValues]
    refine ⟨hg, ?_⟩
    · intro hfit
      have hser := serializeEncrypted_eq maxArguments e.encrypted e.iv hb hivb (by omega)
      obtain ⟨h1, h2⟩ := sendTextMessage_sent maxArguments P rnd cm m w t e w1 _ hg he hser
      refine ⟨base64Encode (e.iv ++ e.encrypted), hser, h1, h2, ?_, ?_, ?_⟩
      · intro hc hws
        rw [h2, sendMessage_open m _ hc hws]
        rfl
      · intro hc
        rw [h1, sendMessage_disconnected m _ hc]
        rfl
      · intro hP hu hw hbom w2
        have hne : e.iv ++ e.encrypted ≠ [] := by
          intro hnil
          have := congrArg List.length hnil
          simp [hivl] at this
        have hjs := jsLit_ofUnits _ (base64Encode_ascii (e.iv ++ e.encrypted))
        have hnonempty : ofUnits (base64Encode (e.iv ++ e.encrypted)) ≠ "" := by
          intro hempty
          rw [hempty] at hjs
          exact base64Encode_ne_nil _ hne hjs.symm
        have hall : IsBytes (e.iv ++ e.encrypted) := isBytes_append _ _ hivb hb
        have hdes : deserializeEncrypted (base64Encode (e.iv ++ e.encrypted))
            = some { encrypted := e.encrypted, iv := e.iv } := by
          rw [deserializeEncrypted_of_atob _ _ (atob_base64Encode _ hall)]
          simp [← hivl]
        have hrt : (cm.decrypt P e.encrypted e.iv w2).1 = Except.ok t := by
          have hd := hP k e.iv _ _ hp
          unfold CryptoManager.decrypt
          simp [hg, subtleCall, hk, hd, Plain.dataBuffer, textDecode_textEncode t hu hw hbom]
        unfold decryptMessage
        simp only [hg, Bool.not_true, Bool.false_eq_true, if_false, hnonempty, hjs, hdes, hrt]

theorem sendTextMessage_contract_witness :
    (sendTextMessage 65536 toyProvider (fun i => i) { key := none, keyGenerated := false }
        WebSocketManager.new { drawn := 0, subtleCalls := [] } [104, 233]).effects
      = [ClientEffect.notify "Erreur lors de l'envoi du message" "error"] ∧
    ∃ content,
      serializeEncrypted 65536 [104, 195, 169, 73] [0, 1, 2, 3, 4, 5, 6, 7, 8, 9, 10, 11]
        = some content ∧
      (sendTextMessage 65536 toyProvider (fun i => i) { key := some 7, keyGenerated := true }
        { WebSocketManager.new with ws := some 1, isConnected := true }
        { drawn := 0, subtleCalls := [] } [104, 233]).effects
        = [ClientEffect.transmit (Json.obj [("type", Json.str "text_message"),
            ("content", Json.str (ofUnits content))])] ∧
      ∀ w2, (decryptMessage toyProvider { key := some 7, keyGenerated := true }
        (some (JsValue.str (ofUnits content))) w2).1 = [104, 233] := by
  have hnone := (sendTextMessage_contract 65536 toyProvider (fun i => i)
    { key := none, keyGenerated := false } WebSocketManager.new
    { drawn := 0, subtleCalls := [] } [104, 233]).2.1 rfl
  obtain ⟨content, hs, _, _, hopen, _, hd⟩ := ((sendTextMessage_contract 65536 toyProvider
    (fun i => i) { key := some 7, keyGenerated := true }
    { WebSocketManager.new with ws := some 1, isConnected := true }
    { drawn := 0, subtleCalls := [] } [104, 233]).2.2.2
    { encrypted := [104, 195, 169, 73], iv := [0, 1, 2, 3, 4, 5, 6, 7, 8, 9, 10, 11] }
    { drawn := 12, subtleCalls := ["encrypt"] } rfl (by decide)).2 (by decide)
  exact ⟨hnone.2.2, content, hs, hopen rfl rfl,
    hd toyProvider_inverts (by decide) (by decide) (by decide)⟩

/-! ### Large files against the relay's limit (C29) -/

theorem base64Encode_length (bs : List Nat) :
    (base64Encode bs).length = 4 * ((bs.length + 2) / 3) := by
  induction bs using base64Encode.induct with
  | case1 a b c rest ih =>
    simp only [base64Encode, List.length_cons, ih]
    omega
  | case2 a b => simp [base64Encode]
  | case3 a => simp [base64Encode]
  | case4 => rfl

theorem quoteJSONChar_length_pos (c : Nat) : 1 ≤ (quoteJSONChar c).length := by
  unfold quoteJSONChar utf16Units
  split_ifs <;> simp

theorem quoteJSONString_length_ge (s : String) : s.toList.length + 2 ≤ (quoteJSONString s).length := by
  unfold quoteJSONString
  have h : ∀ cs : List Char,
      cs.length ≤ (cs.flatMap (fun c => quoteJSONChar c.toNat)).length := by
    intro cs
    induction cs with
    | nil => simp
    | cons c cs ih =>
      have := quoteJSONChar_length_pos c.toNat
      simp only [List.flatMap_cons, List.length_append, List.length_cons]
      omega
  have := h s.toList
  simp only [List.length_append, List.length_cons, List.length_nil]
  omega

theorem ofUnits_length (s : JSString) (h : ∀ u ∈ s, u < 0xD800) :
    (ofUnits s).toList.length = s.length := by
  unfold ofUnits
  rw [toScalars_of_lt s h]
  show (s.map Char.ofNat).length = s.length
  simp

theorem wireLength_fileMessage_ge (numberText : ℚ → JSString) (file : File)
    (serialized : JSString) (h : ∀ u ∈ serialized, u < 0xD800) :
    serialized.length ≤ wireLength numberText (stringify (fileMessage file serialized)) := by
  unfold wireLength
  refine le_trans ?_ (textEncode_length_ge _)
  have hq := quoteJSONString_length_ge (ofUnits serialized)
  rw [ofUnits_length serialized h] at hq
  simp only [fileMessage, stringify, stringifyProps, jsonText, jsonTextMembers, joinWith,
    List.length_append, List.length_cons, List.length_nil]
  omega

theorem sendFiles_single {Key : Type} (maxArguments : Nat) (P : Provider Key) (rnd : Nat → Nat)
    (cm : CryptoManager Key) (m : WebSocketManager) (w : Platform) (file : File) :
    (sendFiles maxArguments P rnd cm m w [file]).manager
      = (sendFile maxArguments P rnd cm m w file).manager ∧
    (sendFiles maxArguments P rnd cm m w [file]).effects
      = (sendFile maxArguments P rnd cm m w file).effects := by
  simp [sendFiles]

theorem encryptFile_of_encrypt {Key : Type} (P : Provider Key) (rnd : Nat → Nat)
    (cm : CryptoManager Key) (w : Platform) (file : File) (buffer ciphertext : Bytes) (k : Key)
    (hcontent : file.content = some buffer) (hgen : cm.keyGenerated = true)
    (hkey : cm.key = some k)
    (henc : P.encrypt k (getRandomValues rnd 12 w).1 buffer = Except.ok ciphertext) :
    (cm.encryptFile P rnd file w).1
      = Except.ok { encrypted := ciphertext, iv := (getRandomValues rnd 12 w).1,
                    name := file.name, type := file.type, size := file.size } := by
  simp [CryptoManager.encryptFile, hcontent, CryptoManager.encrypt, hgen, subtleCall, hkey,
    Plain.dataBuffer, henc]

/-- C29 fails on a file of 7 864 293 bytes: on an engine that accepts 65 536
arguments in one call, the file passes the size checks of `validateFile` and of
`sendFiles` and its encryption succeeds, but there is no `file_message` frame
for the relay to drop: the serialization throws, `sendFiles` shows the error
notice and transmits nothing. -/
theorem large_file_never_reaches_relay :
    7864292 < largeFile.size ∧ largeFile.size ≤ 10485760 ∧
    (validateFile "10 MB" largeFile).valid = true ∧
    (∃ ef, (CryptoManager.encryptFile taggedProvider (fun i => i)
        { key := some 7, keyGenerated := true } largeFile
        { drawn := 0, subtleCalls := [] }).1 = Except.ok ef) ∧
    (sendFiles 65536 taggedProvider (fun i => i) { key := some 7, keyGenerated := true }
        { WebSocketManager.new with ws := some 1, isConnected := true }
        { drawn := 0, subtleCalls := [] } [largeFile]).effects
      = [ClientEffect.notify "Erreur lors de l'envoi de \"big.zip\"" "error"] ∧
    transmitted (sendFiles 65536 taggedProvider (fun i => i)
        { key := some 7, keyGenerated := true }
        { WebSocketManager.new with ws := some 1, isConnected := true }
        { drawn := 0, subtleCalls := [] } [largeFile]).effects = [] := by
  have he := encryptFile_of_encrypt taggedProvider (fun i => i)
    { key := some 7, keyGenerated := true } { drawn := 0, subtleCalls := [] } largeFile
    (List.replicate 7864293 0)
    (List.replicate 7864293 0 ++
      List.replicate 16 ((7 + [0, 1, 2, 3, 4, 5, 6, 7, 8, 9, 10, 11].sum) % 256))
    7 rfl rfl rfl rfl
  have hb : IsBytes (List.replicate 7864293 0 ++
      List.replicate 16 ((7 + [0, 1, 2, 3, 4, 5, 6, 7, 8, 9, 10, 11].sum) % 256)) := by
    intro b hb
    rcases List.mem_append.1 hb with h | h
    · rw [List.eq_of_mem_replicate h]
      decide
    · rw [List.eq_of_mem_replicate h]
      decide
  have hlen : (List.replicate 7864293 0 ++
      List.replicate 16 ((7 + [0, 1, 2, 3, 4, 5, 6, 7, 8, 9, 10, 11].sum) % 256)).length
      = 7864309 := by
    rw [List.length_append, List.length_replicate, List.length_replicate]
  have hm := (messageFor_of_encrypted 65536 taggedProvider (fun i => i)
    { key := some 7, keyGenerated := true } largeFile { drawn := 0, subtleCalls := [] } _
    (by decide) he hb).2
    (Nat.lt_of_lt_of_le (by decide : 65536 < 12 + 7864309)
      (Nat.le_of_eq (congrArg (fun n => 12 + n) hlen.symm)))
  have hf := (sendFile_failing 65536 taggedProvider (fun i => i)
    { key := some 7, keyGenerated := true }
    { WebSocketManager.new with ws := some 1, isConnected := true }
    { drawn := 0, subtleCalls := [] } largeFile (by decide) hm).2
  have heff : (sendFiles 65536 taggedProvider (fun i => i)
      { key := some 7, keyGenerated := true }
      { WebSocketManager.new with ws := some 1, isConnected := true }
      { drawn := 0, subtleCalls := [] } [largeFile]).effects
      = [ClientEffect.notify "Erreur lors de l'envoi de \"big.zip\"" "error"] := by
    rw [(sendFiles_single _ _ _ _ _ _ _).2, hf]
    rfl
  refine ⟨by decide, by decide, by decide, ⟨_, he⟩, heff, ?_⟩
  rw [heff]
  rfl

/-- The way of a large file, the serialization included: a file of size `n`
with 7 864 292 < n ≤ 10 485 760, whose
content the provider encrypts to a ciphertext of n + 16 bytes, passes the size
check of `validateFile` and that of `sendFiles`. When the n + 28 bytes of the
nonce and the ciphertext are more than the engine accepts arguments in one
call, the serialization throws: `sendFiles` shows the error notice and sends
nothing. Otherwise the `content` of its `file_message`, the base64 text of the
nonce followed by the ciphertext, has 4 * ceil((n + 28) / 3) characters, more
than 10 485 760; over an open socket the frame is transmitted, and the relay
drops every frame of that length at its size check. Either way no peer is sent
the file. -/
theorem large_file_dropped_by_relay {Key : Type} (maxArguments : Nat) (P : Provider Key)
    (rnd : Nat → Nat) (cm : CryptoManager Key) (m : WebSocketManager) (w : Platform)
    (file : File) (buffer ciphertext : Bytes) (k : Key) (numberText : ℚ → JSString)
    (maxSizeText : String)
    (hlow : 7864292 < file.size) (hhigh : file.size ≤ 10485760)
    (hcontent : file.content = some buffer) (hsize : buffer.length = file.size)
    (hgen : cm.keyGenerated = true) (hkey : cm.key = some k)
    (henc : P.encrypt k (getRandomValues rnd 12 w).1 buffer = Except.ok ciphertext)
    (hbytes : IsBytes ciphertext) (htag : ciphertext.length = buffer.length + 16) :
    (validateFile maxSizeText file).errors
      = (if isTypeAllowed file.type = true then [] else ["Type de fichier non autorisé"]) ++
        (if isFileNameSafe (some (JsValue.str file.name)) = true then []
          else ["Nom de fichier non sécurisé"]) ∧
    ((getRandomValues rnd 12 w).1 ++ ciphertext).length = file.size + 28 ∧
    (maxArguments < file.size + 28 →
      serializeEncrypted maxArguments ciphertext (getRandomValues rnd 12 w).1 = none ∧
      (sendFiles maxArguments P rnd cm m w [file]).manager = m ∧
      (sendFiles maxArguments P rnd cm m w [file]).effects
        = [ClientEffect.notify ("Erreur lors de l'envoi de \"" ++ file.name ++ "\"") "error"] ∧
      transmitted (sendFiles maxArguments P rnd cm m w [file]).effects = []) ∧
    (file.size + 28 ≤ maxArguments →
      ∃ serialized,
        serializeEncrypted maxArguments ciphertext (getRandomValues rnd 12 w).1
          = some serialized ∧
        serialized = base64Encode ((getRandomValues rnd 12 w).1 ++ ciphertext) ∧
        serialized.length = 4 * ((file.size + 28 + 2) / 3) ∧
        10485760 < serialized.length ∧
        (sendFiles maxArguments P rnd cm m w [file]).manager
          = (sendMessage m (fileMessage file serialized)).manager ∧
        (m.isConnected = true → m.ws = some WebSocket.OPEN →
          (sendFiles maxArguments P rnd cm m w [file]).effects
            = [ClientEffect.transmit (stringify (fileMessage file serialized))]) ∧
        10485760 < wireLength numberText (stringify (fileMessage file serialized)) ∧
        ∀ (now : Nat) (r : Relay) (ws : Nat) (data : Frame),
          data.length = wireLength numberText (stringify (fileMessage file serialized)) →
          (onMessage now r ws data).sends = [] ∧
          (onMessage now r ws data).log = [RelayLog.tooLarge] ∧
          (onMessage now r ws data).relay = r) := by
  obtain ⟨hivb, hivl⟩ := getRandomValues_isBytes rnd 12 w
  have hlen : ((getRandomValues rnd 12 w).1 ++ ciphertext).length = file.size + 28 := by
    rw [List.length_append, hivl, htag, hsize]
    omega
  have hfile := encryptFile_of_encrypt P rnd cm w file buffer ciphertext k hcontent hgen hkey henc
  have hs : file.size ≤ 10 * 1024 * 1024 := by omega
  have hclen : ciphertext.length = file.size + 16 := by omega
  refine ⟨?_, hlen, ?_, ?_⟩
  · have hmax : ¬ file.size > maxFileSize := by
      unfold maxFileSize
      omega
    unfold validateFile
    simp only [hmax, if_false]
    cases h2 : isTypeAllowed file.type <;>
      cases h3 : isFileNameSafe (some (JsValue.str file.name)) <;> simp
  · intro hover
    have hser := serializeEncrypted_throws maxArguments ciphertext (getRandomValues rnd 12 w).1
      (by omega)
    have hm := (messageFor_of_encrypted maxArguments P rnd cm file w _ hs hfile hbytes).2
      (by
        show maxArguments < 12 + ciphertext.length
        omega)
    obtain ⟨h1, h2⟩ := sendFile_failing maxArguments P rnd cm m w file hs hm
    obtain ⟨g1, g2⟩ := sendFiles_single maxArguments P rnd cm m w file
    refine ⟨hser, by rw [g1, h1], by rw [g2, h2]; rfl, by rw [g2, h2]; rfl⟩
  · intro hfit
    have hser := serializeEncrypted_eq maxArguments ciphertext (getRandomValues rnd 12 w).1
      hbytes hivb (by omega)
    have hslen : (base64Encode ((getRandomValues rnd 12 w).1 ++ ciphertext)).length
        = 4 * ((file.size + 28 + 2) / 3) := by
      rw [base64Encode_length, hlen]
    have hbig : 10485760
        < (base64Encode ((getRandomValues rnd 12 w).1 ++ ciphertext)).length := by
      rw [hslen]
      omega
    have hwire := wireLength_fileMessage_ge numberText file _
      (base64Encode_ascii ((getRandomValues rnd 12 w).1 ++ ciphertext))
    have hm := (messageFor_of_encrypted maxArguments P rnd cm file w _ hs hfile hbytes).1
      (by
        show 12 + ciphertext.length ≤ maxArguments
        omega)
    obtain ⟨h1, h2⟩ := sendFile_passing maxArguments P rnd cm m w file _ hm
    obtain ⟨g1, g2⟩ := sendFiles_single maxArguments P rnd cm m w file
    refine ⟨_, hser, rfl, hslen, hbig, by rw [g1, h1], ?_, by omega, ?_⟩
    · intro hc hws
      rw [g2, h2, sendMessage_open m _ hc hws]
      rfl
    · intro now r ws data hdata
      have hd : data.length > 10 * 1024 * 1024 := by omega
      unfold onMessage
      rw [if_pos hd]
      exact ⟨rfl, rfl, rfl⟩

theorem large_file_dropped_by_relay_witness :
    (sendFiles 65536 taggedProvider (fun i => i) { key := some 7, keyGenerated := true }
        { WebSocketManager.new with ws := some 1, isConnected := true }
        { drawn := 0, subtleCalls := [] } [largeFile]).effects
      = [ClientEffect.notify ("Erreur lors de l'envoi de \"" ++ largeFile.name ++ "\"") "error"] ∧
    ∃ serialized,
      serialized.length = 10485764 ∧
      (sendFiles 8000000 taggedProvider (fun i => i) { key := some 7, keyGenerated := true }
          { WebSocketManager.new with ws := some 1, isConnected := true }
          { drawn := 0, subtleCalls := [] } [largeFile]).effects
        = [ClientEffect.transmit (stringify (fileMessage largeFile serialized))] ∧
      ∀ data : Frame,
        data.length = wireLength (fun _ => [48])
          (stringify (fileMessage largeFile serialized)) →
        (onMessage 0 relay3 1 data).sends = [] := by
  have hb : IsBytes (List.replicate 7864293 0 ++
      List.replicate 16 ((7 + [0, 1, 2, 3, 4, 5, 6, 7, 8, 9, 10, 11].sum) % 256)) := by
    intro b hb
    rcases List.mem_append.1 hb with h | h
    · rw [List.eq_of_mem_replicate h]
      decide
    · rw [List.eq_of_mem_replicate h]
      decide
  have hover := ((large_file_dropped_by_relay 65536 taggedProvider (fun i => i)
      { key := some 7, keyGenerated := true }
      { WebSocketManager.new with ws := some 1, isConnected := true }
      { drawn := 0, subtleCalls := [] } largeFile (List.replicate 7864293 0)
      (List.replicate 7864293 0 ++
        List.replicate 16 ((7 + [0, 1, 2, 3, 4, 5, 6, 7, 8, 9, 10, 11].sum) % 256))
      7 (fun _ => [48]) "10 MB"
      (by decide) (by decide) rfl (List.length_replicate _ _) rfl rfl rfl hb
      (by rw [List.length_append, List.length_replicate, List.length_replicate])).2.2.1
      (by decide)).2.2.1
  obtain ⟨serialized, _, _, hlen, _, _, hopen, _, hdrop⟩ :=
    (large_file_dropped_by_relay 8000000 taggedProvider (fun i => i)
      { key := some 7, keyGenerated := true }
      { WebSocketManager.new with ws := some 1, isConnected := true }
      { drawn := 0, subtleCalls := [] } largeFile (List.replicate 7864293 0)
      (List.replicate 7864293 0 ++
        List.replicate 16 ((7 + [0, 1, 2, 3, 4, 5, 6, 7, 8, 9, 10, 11].sum) % 256))
      7 (fun _ => [48]) "10 MB"
      (by decide) (by decide) rfl (List.length_replicate _ _) rfl rfl rfl hb
      (by rw [List.length_append, List.length_replicate, List.length_replicate])).2.2.2
      (by decide)
  exact ⟨hover, serialized, hlen, hopen rfl rfl, fun data h => (hdrop 0 relay3 1 data h).1⟩

end Messagerie
